import Mathlib

/-!
# Outlet sequencing, stage registry and lifecycle logic of the MagAO-X drivers

A shallow embedding of

* the power-channel logic of `outletController`
  (libMagAOX/app/dev/outletController.hpp): the channel map, `loadConfig`,
  `channelState`, `turnChannelOn`, `turnChannelOff`, `updateOutletStates` and the
  channel accessors;
* the stage registry and the connection logic of `zaberLowLevel`
  (apps/zaberLowLevel/zaberLowLevel.hpp): `loadConfig`, `loadStages`, `connect`,
  `testConnection` and `appLogic`;
* the lifecycle logic of the cameras: `andorCtrl::appLogic`
  (apps/andorCtrl/andorCtrl.hpp) and `zylaCtrl::appLogic` (apps/zylaCtrl/zylaCtrl.hpp);
* the command handlers (INDI new-property callbacks) of `andorCtrl`, `zaberLowLevel` and
  `outletController`, each with the events that bear on the device lock.

Conventions of the embedding.

* `std::vector<T>` is a `List`; `v[i]` is `v[i]?`, and an index outside the
  vector (undefined behaviour in C++) makes the embedded function stop with
  the result `none`.
* `std::unordered_map<std::string, channelSpec>` is an association list with
  `operator[]` embedded as `subscript`: a missing key is inserted with a
  default-constructed `channelSpec`.
* The pure virtual hooks `updateOutletState`, `turnOutletOn`, `turnOutletOff`
  are parameters (`Hooks`), acting on an abstract device state and returning
  the `int` status of the call.
* `mx::milliSleep` and the raw outlet commands are recorded, in order of
  occurrence, in a trace of `Effect`s. A raw command is recorded with the
  `int` that the hook receives: the outlet number read from `m_outlets`
  (a `size_t`) converted to the `int` parameter of the hook (`sizeToInt`).
* The number of outlets is fixed by `setNumberOfOutlets` at construction, so
  the bound `m_outletStates.size()` of the refresh loop is the same at every
  iteration.
* A function with several `return` statements is a `Flow`: it has returned a
  value, or goes on to its next statement; `appLogic` is the sequence of its
  `if( state() == ... )` blocks, each reading the state the blocks before it left.
* What the hardware, the operating system and the libMagAOX components answer
  during a call is an argument of the embedded function (`zaberPort`, `zaberTick`,
  `cameraTick`); the results of successive `za_receive` calls are a finite list
  after which the port times out, so the read loops end. Blocking acquisitions of
  the device lock are taken to succeed; `try_to_lock` is an input.
-/

set_option autoImplicit false

namespace MagAOX
namespace app
namespace dev

/-! ## Constants -/

def OUTLET_STATE_UNKNOWN : Int := -1
def OUTLET_STATE_OFF : Int := 0
def OUTLET_STATE_INTERMEDIATE : Int := 1
def OUTLET_STATE_ON : Int := 2

def OUTLET_E_NOOUTLETS : Int := -10
def OUTLET_E_NOCHANNELS : Int := -15
def OUTLET_E_NOVALIDCH : Int := -20

/-! ## Data model -/

/-- Specification of one channel (`outletController::channelSpec`); the INDI
property member carries no sequencing data and is left out. -/
structure channelSpec where
  m_outlets : List Nat := []
  m_onOrder : List Nat := []
  m_offOrder : List Nat := []
  m_onDelays : List Nat := []
  m_offDelays : List Nat := []
  deriving DecidableEq, Repr

/-- The map `m_channels`, as an association list in insertion order. -/
abbrev ChannelMap := List (String × channelSpec)

/-- The data members of `outletController` used by the sequencing logic. -/
structure outletController where
  m_outletStates : List Int := []
  m_channels : ChannelMap := []
  deriving DecidableEq, Repr

/-- Observable effects of the channel operations: a sleep of `ms` milliseconds, and the raw
commands `turnOutletOn(outletNum)` and `turnOutletOff(outletNum)` with the `int` passed. -/
inductive Effect where
  | sleep (ms : Nat)
  | on (outletNum : Int)
  | off (outletNum : Int)
  deriving DecidableEq, Repr

/-- The pure virtual hooks of `outletController`, implemented by the derived
device class: each acts on the device state and returns an `int` status.
`turnOutletOn` and `turnOutletOff` take the `int` outlet number they are declared with;
`updateOutletState` is called with an index of `m_outletStates` only. -/
structure Hooks (σ : Type) where
  updateOutletState : σ → Nat → Int × σ
  turnOutletOn : σ → Int → Int × σ
  turnOutletOff : σ → Int → Int × σ

/-- The conversion of a `size_t` outlet number to the `int` parameter of `turnOutletOn` and
`turnOutletOff`: the value modulo 2^32, read as a two's-complement `int`. -/
def sizeToInt (n : Nat) : Int :=
  if n % 4294967296 < 2147483648 then Int.ofNat (n % 4294967296)
  else Int.ofNat (n % 4294967296) - 4294967296

/-- The application configurator as `loadConfig` sees it: the names of the
unused sections, `isSetUnused(makeKey(section, key))`, and the vector that
`configUnused` stores into an empty vector for `makeKey(section, key)`;
`configUnusedString` is the text that `configUnused` stores into a string for a key
that is set. -/
structure appConfigurator where
  unusedSections : List String
  isSetUnused : String → String → Bool
  configUnused : String → String → List Nat
  configUnusedString : String → String → String := fun _ _ => ""

/-- Result of a channel operation: device state, trace of effects and the
returned `int`; `ret = none` when a vector was indexed out of range. -/
structure Outcome (σ : Type) where
  dev : σ
  trace : List Effect
  ret : Option Int

/-- Result of `updateOutletStates`: returned value, device state and the
hook calls made, each with the value it returned. -/
structure UpdateRun (σ : Type) where
  ret : Int
  dev : σ
  calls : List (Nat × Int)

/-! ## The channel map -/

/-- Embedding of `m_channels.find(key)`. -/
def ChannelMap.find (m : ChannelMap) (key : String) : Option channelSpec :=
  match m with
  | [] => none
  | (k, v) :: rest => if k = key then some v else ChannelMap.find rest key

/-- Embedding of `m_channels.emplace(key, channelSpec())`: no effect when the key is present. -/
def ChannelMap.emplace (m : ChannelMap) (key : String) : ChannelMap :=
  match m.find key with
  | some _ => m
  | none => m ++ [(key, {})]

/-- Embedding of `m_channels[key]` read as a value: the entry, inserted default-constructed
when missing, and the map afterwards. -/
def ChannelMap.subscript (m : ChannelMap) (key : String) : channelSpec × ChannelMap :=
  match m.find key with
  | some v => (v, m)
  | none => ({}, m ++ [(key, {})])

/-- Embedding of an assignment `m_channels[key].field = value`, given as the update `f`
of the entry. -/
def ChannelMap.assign (m : ChannelMap) (key : String) (f : channelSpec → channelSpec) :
    ChannelMap :=
  match m with
  | [] => [(key, f {})]
  | (k, v) :: rest =>
    if k = key then (k, f v) :: rest else (k, v) :: ChannelMap.assign rest key f

/-! ## Operations -/

/-- Embedding of `setNumberOfOutlets`: `m_outletStates.resize(numOuts, -1)`; a negative
argument converts to a size beyond `max_size` and `resize` throws (`none`). -/
def setNumberOfOutlets (c : outletController) (numOuts : Int) : Option (Int × outletController) :=
  if numOuts < 0 then none
  else
    let n := numOuts.toNat
    some (0, { c with
      m_outletStates := (c.m_outletStates ++ List.replicate (n - c.m_outletStates.length) (-1)).take n })

/-- Embedding of `outletState`: `m_outletStates[outletNum]`. -/
def outletState (c : outletController) (outletNum : Nat) : Option Int :=
  c.m_outletStates[outletNum]?

/-- One channel section of `loadConfig` (the body of the loop over `chSections`). -/
def loadConfig_channel (config : appConfigurator) (m : ChannelMap) (name : String) : ChannelMap :=
  let m0 := m.emplace name
  let outlets :=
    if config.isSetUnused name "outlet" then config.configUnused name "outlet"
    else config.configUnused name "outlets"
  let m1 := m0.assign name (fun ch => { ch with m_outlets := outlets })
  let m2 :=
    if config.isSetUnused name "onOrder" then
      m1.assign name (fun ch => { ch with m_onOrder := config.configUnused name "onOrder" })
    else m1
  let m3 :=
    if config.isSetUnused name "offOrder" then
      m2.assign name (fun ch => { ch with m_offOrder := config.configUnused name "offOrder" })
    else m2
  let m4 :=
    if config.isSetUnused name "onDelays" then
      m3.assign name (fun ch => { ch with m_onDelays := config.configUnused name "onDelays" })
    else m3
  if config.isSetUnused name "offDelays" then
    m4.assign name (fun ch => { ch with m_offDelays := config.configUnused name "offDelays" })
  else m4

/-- Embedding of `outletController::loadConfig`. -/
def loadConfig (c : outletController) (config : appConfigurator) : Int × outletController :=
  if c.m_outletStates.length = 0 then (OUTLET_E_NOOUTLETS, c)
  else
    let sections := config.unusedSections
    if sections.length = 0 then (OUTLET_E_NOCHANNELS, c)
    else
      let chSections := sections.filter
        (fun s => config.isSetUnused s "outlet" || config.isSetUnused s "outlets")
      if chSections.length = 0 then (OUTLET_E_NOVALIDCH, c)
      else
        (0, { c with m_channels := chSections.foldl (loadConfig_channel config) c.m_channels })

/-- The loop of `updateOutletStates`: `k` iterations are left, `n` is the loop variable. -/
def updateOutletStates_loop {σ : Type} (h : Hooks σ) : Nat → Nat → σ → UpdateRun σ
  | 0, _, d => ⟨0, d, []⟩
  | k + 1, n, d =>
    let rv := (h.updateOutletState d n).1
    let d1 := (h.updateOutletState d n).2
    if rv < 0 then ⟨rv, d1, [(n, rv)]⟩
    else
      let r := updateOutletStates_loop h k (n + 1) d1
      ⟨r.ret, r.dev, (n, rv) :: r.calls⟩

/-- Embedding of the default `outletController::updateOutletStates`. -/
def updateOutletStates {σ : Type} (h : Hooks σ) (c : outletController) (d : σ) : UpdateRun σ :=
  updateOutletStates_loop h c.m_outletStates.length 0 d

/-- Embedding of `numChannels`. -/
def numChannels (c : outletController) : Nat :=
  c.m_channels.length

/-- Embedding of `channelOutlets`. -/
def channelOutlets (c : outletController) (channel : String) : List Nat × outletController :=
  ((c.m_channels.subscript channel).1.m_outlets,
    { c with m_channels := (c.m_channels.subscript channel).2 })

/-- Embedding of `channelOnOrder`. -/
def channelOnOrder (c : outletController) (channel : String) : List Nat × outletController :=
  ((c.m_channels.subscript channel).1.m_onOrder,
    { c with m_channels := (c.m_channels.subscript channel).2 })

/-- Embedding of `channelOffOrder`. -/
def channelOffOrder (c : outletController) (channel : String) : List Nat × outletController :=
  ((c.m_channels.subscript channel).1.m_offOrder,
    { c with m_channels := (c.m_channels.subscript channel).2 })

/-- Embedding of `channelOnDelays`. -/
def channelOnDelays (c : outletController) (channel : String) : List Nat × outletController :=
  ((c.m_channels.subscript channel).1.m_onDelays,
    { c with m_channels := (c.m_channels.subscript channel).2 })

/-- Embedding of `channelOffDelays`. -/
def channelOffDelays (c : outletController) (channel : String) : List Nat × outletController :=
  ((c.m_channels.subscript channel).1.m_offDelays,
    { c with m_channels := (c.m_channels.subscript channel).2 })

/-- The loop of `channelState` over `n = 1 .. size-1`: `k` iterations are left. -/
def channelState_loop (states : List Int) (outlets : List Nat) : Nat → Nat → Int → Option Int
  | 0, _, st => some st
  | k + 1, n, st =>
    match outlets[n]? with
    | none => none
    | some o =>
      match states[o]? with
      | none => none
      | some s => channelState_loop states outlets k (n + 1) (if st ≠ s then 1 else st)

/-- The body of `channelState` on the entry `m_channels[channel]`. -/
def channelState_spec (states : List Int) (ch : channelSpec) : Option Int :=
  match ch.m_outlets[0]? with
  | none => none
  | some o =>
    match states[o]? with
    | none => none
    | some st => channelState_loop states ch.m_outlets (ch.m_outlets.length - 1) 1 st

/-- Embedding of `outletController::channelState`. -/
def channelState (c : outletController) (channel : String) : Option Int × outletController :=
  (channelState_spec c.m_outletStates (c.m_channels.subscript channel).1,
    { c with m_channels := (c.m_channels.subscript channel).2 })

/-- The loop of `turnChannelOn` over `i = 1 .. size-1`: `k` iterations are left. -/
def turnChannelOn_loop {σ : Type} (h : Hooks σ) (ch : channelSpec) : Nat → Nat → σ → Outcome σ
  | 0, _, d => ⟨d, [], some 0⟩
  | k + 1, i, d =>
    match (if ch.m_onOrder.length = ch.m_outlets.length then ch.m_onOrder[i]? else some i) with
    | none => ⟨d, [], none⟩
    | some n =>
      match (if ch.m_onDelays.length = ch.m_outlets.length
          then (ch.m_onDelays[i]?).map (fun ms => [Effect.sleep ms]) else some []) with
      | none => ⟨d, [], none⟩
      | some zs =>
        match ch.m_outlets[n]? with
        | none => ⟨d, zs, none⟩
        | some o =>
          let r := turnChannelOn_loop h ch k (i + 1) (h.turnOutletOn d (sizeToInt o)).2
          ⟨r.dev, zs ++ Effect.on (sizeToInt o) :: r.trace, r.ret⟩

/-- The body of `turnChannelOn` on the entry `m_channels[channel]`. -/
def turnChannelOn_spec {σ : Type} (h : Hooks σ) (ch : channelSpec) (d : σ) : Outcome σ :=
  match (if ch.m_onOrder.length = ch.m_outlets.length then ch.m_onOrder[0]? else some 0) with
  | none => ⟨d, [], none⟩
  | some n =>
    match ch.m_outlets[n]? with
    | none => ⟨d, [], none⟩
    | some o =>
      let r := turnChannelOn_loop h ch (ch.m_outlets.length - 1) 1
        (h.turnOutletOn d (sizeToInt o)).2
      ⟨r.dev, Effect.on (sizeToInt o) :: r.trace, r.ret⟩

/-- Embedding of `outletController::turnChannelOn`. -/
def turnChannelOn {σ : Type} (h : Hooks σ) (c : outletController) (channel : String) (d : σ) :
    Outcome σ × outletController :=
  (turnChannelOn_spec h (c.m_channels.subscript channel).1 d,
    { c with m_channels := (c.m_channels.subscript channel).2 })

/-- The loop of `turnChannelOff` over `i = 1 .. size-1`: `k` iterations are left. -/
def turnChannelOff_loop {σ : Type} (h : Hooks σ) (ch : channelSpec) : Nat → Nat → σ → Outcome σ
  | 0, _, d => ⟨d, [], some 0⟩
  | k + 1, i, d =>
    match (if ch.m_offOrder.length = ch.m_outlets.length then ch.m_offOrder[i]? else some i) with
    | none => ⟨d, [], none⟩
    | some n =>
      match (if ch.m_offDelays.length = ch.m_outlets.length
          then (ch.m_offDelays[i]?).map (fun ms => [Effect.sleep ms]) else some []) with
      | none => ⟨d, [], none⟩
      | some zs =>
        match ch.m_outlets[n]? with
        | none => ⟨d, zs, none⟩
        | some o =>
          let r := turnChannelOff_loop h ch k (i + 1) (h.turnOutletOff d (sizeToInt o)).2
          ⟨r.dev, zs ++ Effect.off (sizeToInt o) :: r.trace, r.ret⟩

/-- The body of `turnChannelOff` on the entry `m_channels[channel]`. -/
def turnChannelOff_spec {σ : Type} (h : Hooks σ) (ch : channelSpec) (d : σ) : Outcome σ :=
  match (if ch.m_offOrder.length = ch.m_outlets.length then ch.m_offOrder[0]? else some 0) with
  | none => ⟨d, [], none⟩
  | some n =>
    match ch.m_outlets[n]? with
    | none => ⟨d, [], none⟩
    | some o =>
      let r := turnChannelOff_loop h ch (ch.m_outlets.length - 1) 1
        (h.turnOutletOff d (sizeToInt o)).2
      ⟨r.dev, Effect.off (sizeToInt o) :: r.trace, r.ret⟩

/-- Embedding of `outletController::turnChannelOff`. -/
def turnChannelOff {σ : Type} (h : Hooks σ) (c : outletController) (channel : String) (d : σ) :
    Outcome σ × outletController :=
  (turnChannelOff_spec h (c.m_channels.subscript channel).1 d,
    { c with m_channels := (c.m_channels.subscript channel).2 })

/-! ## Reading traces -/

/-- The outlet numbers passed to the raw `turnOutletOff` calls of a trace, in order. -/
def rawOffCalls : List Effect → List Int
  | [] => []
  | Effect.off o :: t => o :: rawOffCalls t
  | _ :: t => rawOffCalls t

/-- Hooks of a device whose raw commands always succeed. -/
def okHooks : Hooks Unit :=
  ⟨fun d _ => (0, d), fun d _ => (0, d), fun d _ => (0, d)⟩

/-- The channel `sue` of the `loadConfig` documentation: outlets 4 and 5, on order 1,0,
off order 0,1, on delays 0,150, off delays 0,345. -/
def sue : channelSpec :=
  { m_outlets := [4, 5], m_onOrder := [1, 0], m_offOrder := [0, 1],
    m_onDelays := [0, 150], m_offDelays := [0, 345] }

/-- A controller with six outlets, all unknown, and the channel `sue`. -/
def sueController : outletController :=
  { m_outletStates := [-1, -1, -1, -1, -1, -1], m_channels := [("sue", sue)] }

/-! ## Specification-side vocabulary and test devices -/

/-- The position in `m_outlets` that step `i` uses: `order[i]` when the order vector has
the length `n` of the outlet vector, and `i` itself otherwise. -/
def stepIndex (order : List Nat) (n i : Nat) : Nat :=
  if order.length = n then order.getD i 0 else i

/-- An order vector that takes effect only holds positions of the outlet vector. -/
def OrderInRange (outlets order : List Nat) : Prop :=
  order.length = outlets.length → ∀ k ∈ order, k < outlets.length

instance (outlets order : List Nat) : Decidable (OrderInRange outlets order) := by
  unfold OrderInRange; infer_instance

/-- The outlet numbers of a channel fit the `int` parameter of the raw commands. -/
def InIntRange (outlets : List Nat) : Prop :=
  ∀ o ∈ outlets, o < 2147483648

instance (outlets : List Nat) : Decidable (InIntRange outlets) := by
  unfold InIntRange; infer_instance

/-- The effects of step `j` as the contract words them: the sleep of `delays[j]` when the
delay vector has the length of the outlet vector, then the raw command `cmd` on the
outlet of the step, passed as an `int`. -/
def stepEffects (cmd : Int → Effect) (outlets order delays : List Nat) (j : Nat) : List Effect :=
  (if delays.length = outlets.length then [Effect.sleep (delays.getD j 0)] else [])
    ++ [cmd (sizeToInt (outlets.getD (stepIndex order outlets.length j) 0))]

/-- Hooks of a device on which switching outlet 5 fails with -1, in either direction. -/
def failingHooks : Hooks Unit :=
  ⟨fun d _ => (0, d), fun d o => (if o = 5 then -1 else 0, d),
    fun d o => (if o = 5 then -1 else 0, d)⟩

/-- A raw `on` read as the raw `off` of the same outlet. -/
def Effect.toOff : Effect → Effect
  | Effect.on o => Effect.off o
  | e => e

/-- The channel whose on order and on delays are the off order and off delays of `ch`. -/
def offAsOn (ch : channelSpec) : channelSpec :=
  { ch with m_onOrder := ch.m_offOrder, m_onDelays := ch.m_offDelays }

/-- The hooks whose raw `turnOutletOn` is the raw `turnOutletOff` of `h`. -/
def offHooks {σ : Type} (h : Hooks σ) : Hooks σ :=
  { h with turnOutletOn := h.turnOutletOff }

/-- The controller in which every channel is replaced by `offAsOn` of it. -/
def offAsOnController (c : outletController) : outletController :=
  { c with m_channels := c.m_channels.map (fun e => (e.1, offAsOn e.2)) }

/-- Hooks of a device whose outlet 1 cannot be read (-3); the other outlets read fine. -/
def unreadableHooks : Hooks Unit :=
  ⟨fun d o => (if o = 1 then -3 else 0, d), fun d _ => (0, d), fun d _ => (0, d)⟩

/-- The configuration of the `loadConfig` documentation: one unused section `sue`. -/
def sueConfig : appConfigurator where
  unusedSections := ["sue"]
  isSetUnused := fun s k =>
    s = "sue" ∧ (k = "outlets" ∨ k = "onOrder" ∨ k = "offOrder" ∨ k = "onDelays" ∨ k = "offDelays")
  configUnused := fun s k =>
    if s = "sue" then
      if k = "outlets" then [4, 5]
      else if k = "onOrder" then [1, 0]
      else if k = "offOrder" then [0, 1]
      else if k = "onDelays" then [0, 150]
      else if k = "offDelays" then [0, 345]
      else []
    else []

/-- The controller `c` after `m_channels[channel]` has inserted a default entry. -/
def withDefaultEntry (c : outletController) (channel : String) : outletController :=
  { c with m_channels := c.m_channels ++ [(channel, ({} : channelSpec))] }

/-! ## The stage registry of `zaberLowLevel` (apps/zaberLowLevel/zaberLowLevel.hpp) -/

/-- Modelled from the spec: the lifecycle state codes (`stateCodes` is declared in libMagAOX,
outside the sources). The spec lists Uninitialized, PowerOn, NotConnected, NoDevice,
Connected, Ready, Operating, Error and Failure; the sources also name INITIALIZED. -/
inductive stateCodes where
  | FAILURE
  | ERROR
  | UNINITIALIZED
  | INITIALIZED
  | NODEVICE
  | POWERON
  | NOTCONNECTED
  | CONNECTED
  | OPERATING
  | READY
  deriving DecidableEq, Repr

def ZC_CONNECTED : Int := 0
def ZC_ERROR : Int := -1
def ZC_NOT_CONNECTED : Int := 10

/-- Modelled from the spec: the stage entry `zaberStage` (zaberStage.hpp is not among the
sources): the logical name, the serial number and the bus address of a stage, read and
written through `name()`, `serial()` and `deviceAddress()`. -/
structure zaberStage where
  m_name : String
  m_serial : String
  m_deviceAddress : Int
  deriving DecidableEq, Repr

/-- An `std::unordered_map` into stage indices, as an association list in insertion
order. -/
abbrev IndexMap (κ : Type) := List (κ × Nat)

/-- Embedding of `m.find(key)` (and of `m[key]` for a key that is present). -/
def IndexMap.find {κ : Type} [DecidableEq κ] (m : IndexMap κ) (key : κ) : Option Nat :=
  match m with
  | [] => none
  | (k, v) :: rest => if k = key then some v else IndexMap.find rest key

/-- Embedding of `m.insert({key, value})`: no effect when the key is present. -/
def IndexMap.insert {κ : Type} [DecidableEq κ] (m : IndexMap κ) (key : κ) (value : Nat) :
    IndexMap κ :=
  match m.find key with
  | some _ => m
  | none => m ++ [(key, value)]

/-- The data members of `zaberLowLevel` used by the registry and the lifecycle logic;
`m_state` is the state code read and written through `state()`. -/
structure zaberLowLevel where
  m_state : stateCodes := stateCodes.UNINITIALIZED
  m_port : Int := 0
  m_stages : List zaberStage := []
  m_stageAddress : IndexMap Int := []
  m_stageSerial : IndexMap String := []
  m_stageName : IndexMap String := []
  deriving DecidableEq, Repr

/-- One section of `zaberLowLevel::loadConfig` (the body of the loop over the unused
sections); `stage0` is the default-constructed `zaberStage`. -/
def zaberLowLevel.loadConfig_section (config : appConfigurator) (stage0 : zaberStage)
    (z : zaberLowLevel) (name : String) : zaberLowLevel :=
  if config.isSetUnused name "serial" then
    let idx := z.m_stages.length
    let st : zaberStage :=
      { stage0 with m_name := name, m_serial := config.configUnusedString name "serial" }
    { z with
      m_stages := z.m_stages ++ [st]
      m_stageName := z.m_stageName.insert st.m_name idx
      m_stageSerial := z.m_stageSerial.insert st.m_serial idx }
  else z

/-- Embedding of the stage part of `zaberLowLevel::loadConfig`; the call of
`tty::usbDevice::loadConfig`, which reads the USB settings, is left out. -/
def zaberLowLevel.loadConfig (config : appConfigurator) (stage0 : zaberStage)
    (z : zaberLowLevel) : zaberLowLevel :=
  if config.unusedSections.length = 0 then z
  else config.unusedSections.foldl (zaberLowLevel.loadConfig_section config stage0) z

/-- One parsed pair of `loadStages` (the body of the loop over `addresses`); `none` when
`m_stages` is indexed out of range. -/
def zaberLowLevel.loadStages_pair (z : zaberLowLevel) (p : Int × String) :
    Option zaberLowLevel :=
  match z.m_stageSerial.find p.2 with
  | none => some z
  | some i =>
    match z.m_stages[i]? with
    | none => none
    | some st =>
      some { z with
        m_stages := z.m_stages.set i { st with m_deviceAddress := p.1 }
        m_stageAddress := z.m_stageAddress.insert p.1 i }

/-- The loop of `loadStages` over the parsed pairs. -/
def zaberLowLevel.loadStages_loop (z : zaberLowLevel) :
    List (Int × String) → Option zaberLowLevel
  | [] => some z
  | p :: rest =>
    match zaberLowLevel.loadStages_pair z p with
    | none => none
    | some z1 => zaberLowLevel.loadStages_loop z1 rest

/-- Embedding of `zaberLowLevel::loadStages`. The parser `parseSystemSerial`
(zaberUtils.hpp, not among the sources) is a parameter: it gives its return value and the
parsed (address, serial) pairs, i.e. the vectors `addresses` and `serials` read in step. -/
def zaberLowLevel.loadStages (parseSystemSerial : String → Int × List (Int × String))
    (z : zaberLowLevel) (serialRes : String) : Option (Int × zaberLowLevel) :=
  if (parseSystemSerial serialRes).1 < 0 then
    some (ZC_ERROR, { z with m_state := stateCodes.ERROR })
  else
    match zaberLowLevel.loadStages_loop { z with m_stageAddress := [] }
        (parseSystemSerial serialRes).2 with
    | none => none
    | some z1 => some (ZC_CONNECTED, z1)

/-- The configuration of scenario D: the section `foo` with serial `S1`. -/
def fooConfig : appConfigurator where
  unusedSections := ["foo"]
  isSetUnused := fun s k => s = "foo" ∧ k = "serial"
  configUnused := fun _ _ => []
  configUnusedString := fun s k => if s = "foo" ∧ k = "serial" then "S1" else ""

/-- The registry after `loadConfig` on `fooConfig`. -/
def fooRegistry : zaberLowLevel :=
  zaberLowLevel.loadConfig fooConfig ⟨"", "", -1⟩ {}

/-- The registry keeps, for every serial of the serial index, a stage with that serial at
the index given. -/
def SerialIndexSound (z : zaberLowLevel) : Prop :=
  ∀ (s : String) (i : Nat), z.m_stageSerial.find s = some i →
    ∃ st, z.m_stages[i]? = some st ∧ st.m_serial = s

/-- The name index gives, for the name of every stage that the serial index names, the
index of that stage. -/
def NameIndexSound (z : zaberLowLevel) : Prop :=
  ∀ (s : String) (i : Nat) (st : zaberStage), z.m_stageSerial.find s = some i →
    z.m_stages[i]? = some st → z.m_stageName.find st.m_name = some i

/-- Mutual consistency of the three indices: every entry `(a, i)` of the address index
names a stage `i` whose bus address is `a` and whose serial and name are mapped back to `i`
by the serial index and the name index. -/
def RegistryConsistent (z : zaberLowLevel) : Prop :=
  ∀ (a : Int) (i : Nat), (a, i) ∈ z.m_stageAddress →
    ∃ st, z.m_stages[i]? = some st ∧ st.m_deviceAddress = a
      ∧ z.m_stageSerial.find st.m_serial = some i
      ∧ z.m_stageName.find st.m_name = some i

/-- No configured serial occurs in more than one pair of the payload. -/
def SerialsDistinct (z : zaberLowLevel) (pairs : List (Int × String)) : Prop :=
  pairs.Pairwise (fun p q => z.m_stageSerial.find p.2 ≠ none → p.2 ≠ q.2)

/-- Loop invariant of `loadStages`: every entry `(a, i)` of the address index names a stage
whose bus address is `a` and whose serial is mapped to `i`, and no pair still to be
processed carries a serial of stage `i`. -/
def AddressIndexBound (z : zaberLowLevel) (rest : List (Int × String)) : Prop :=
  ∀ (a : Int) (i : Nat), (a, i) ∈ z.m_stageAddress →
    (∃ st, z.m_stages[i]? = some st ∧ st.m_deviceAddress = a
      ∧ z.m_stageSerial.find st.m_serial = some i)
    ∧ ∀ q ∈ rest, z.m_stageSerial.find q.2 ≠ some i

/-- A payload parser for the examples: the text `first` gives the pair (1, S1), the text
`twice` the pairs (1, S1), (2, S1), the text `scenario D` the pairs (1, S1), (2, S2), and
any other text the pair (2, S1). -/
def exampleParser (serialRes : String) : Int × List (Int × String) :=
  if serialRes = "first" then (0, [(1, "S1")])
  else if serialRes = "twice" then (0, [(1, "S1"), (2, "S1")])
  else if serialRes = "scenario D" then (0, [(1, "S1"), (2, "S2")])
  else (0, [(2, "S1")])

/-- The registry `fooRegistry` after the discovery of stage `foo` at address 1. -/
def fooAfterFirst : zaberLowLevel :=
  { fooRegistry with m_stages := [⟨"foo", "S1", 1⟩], m_stageAddress := [(1, 0)] }

/-- The registry `fooRegistry` after the discovery of stage `foo` at address 2. -/
def fooAfterSecond : zaberLowLevel :=
  { fooRegistry with m_stages := [⟨"foo", "S1", 2⟩], m_stageAddress := [(2, 0)] }

/-- The registry `fooRegistry` after a payload that reports the serial S1 at the addresses
1 and 2. -/
def fooAfterTwice : zaberLowLevel :=
  { fooRegistry with m_stages := [⟨"foo", "S1", 2⟩], m_stageAddress := [(1, 0), (2, 0)] }

instance (z : zaberLowLevel) (pairs : List (Int × String)) : Decidable (SerialsDistinct z pairs) := by
  unfold SerialsDistinct; infer_instance

/-! ## Connection and lifecycle logic of `zaberLowLevel` -/

/-- The result of one `za_receive` call as the read loops tell them apart: a response
(`nrd >= 0`) with the text it put in the buffer, the timeout (`nrd == Z_ERROR_TIMEOUT`), or
another negative code. -/
inductive zaReceive where
  | response (text : String)
  | timeout
  | error (nrd : Int)
  deriving DecidableEq, Repr

/-- What the operating system and the serial port answer during one call of `connect` or
`testConnection`: the values of `euidCalled()` and `euidReal()`, whether `za_connect`
returned `Z_SUCCESS` and the port it stored in `m_port`, whether `za_drain` returned
`Z_SUCCESS`, whether `za_send` returned `Z_ERROR_SYSTEM_ERROR`, and the results of the
successive `za_receive` calls; once these are used up, `za_receive` times out. -/
structure zaberPort where
  euidCalled : Int := 0
  za_connect_success : Bool := true
  za_connect_port : Int := 1
  euidReal : Int := 0
  za_drain_success : Bool := true
  za_send_systemError : Bool := false
  za_receive : List zaReceive := []

/-- The control flow of a tick: the function has returned `rv`, or goes on to its next
statement, or has indexed a vector out of range. -/
inductive Flow (α : Type) where
  | ret (rv : Int) (s : α)
  | next (s : α)
  | fault
  deriving DecidableEq, Repr

/-- Sequencing of statements: what follows is run unless the function has returned. -/
def Flow.andThen {α : Type} (f : Flow α) (g : α → Flow α) : Flow α :=
  match f with
  | Flow.ret rv s => Flow.ret rv s
  | Flow.next s => g s
  | Flow.fault => Flow.fault

/-- The end of the function body: `return 0`. -/
def Flow.finish {α : Type} (f : Flow α) : Flow α :=
  match f with
  | Flow.next s => Flow.ret 0 s
  | other => other

/-- The opening of `connect` and of `testConnection` (the two are the same): when the port
is not open, open it with the privileges of the called user. -/
def zaberLowLevel.openPort (env : zaberPort) (z : zaberLowLevel) : Flow zaberLowLevel :=
  (if z.m_port ≤ 0 then
    if env.euidCalled < 0 then
      Flow.ret ZC_NOT_CONNECTED { z with m_state := stateCodes.FAILURE }
    else if env.euidReal < 0 then
      Flow.ret ZC_NOT_CONNECTED
        { z with m_port := env.za_connect_port, m_state := stateCodes.FAILURE }
    else if ¬ env.za_connect_success then
      Flow.ret ZC_NOT_CONNECTED
        { z with
          m_port := if env.za_connect_port > 0 then 0 else env.za_connect_port
          m_state := stateCodes.ERROR }
    else Flow.next { z with m_port := env.za_connect_port }
  else Flow.next z).andThen fun z1 =>
    if z1.m_port ≤ 0 then Flow.ret ZC_NOT_CONNECTED { z1 with m_state := stateCodes.ERROR }
    else Flow.next z1

/-- The read loop of `connect`: the text gathered in `serialRes` when the loop is left at a
timeout, `none` when a receive returned another negative code. -/
def zaberLowLevel.connect_receive : List zaReceive → String → Option String
  | [], serialRes => some serialRes
  | zaReceive.response text :: rest, serialRes =>
    zaberLowLevel.connect_receive rest (serialRes ++ text)
  | zaReceive.error _ :: _, _ => none
  | zaReceive.timeout :: _, serialRes => some serialRes

/-- Embedding of `zaberLowLevel::connect`. -/
def zaberLowLevel.connect (parseSystemSerial : String → Int × List (Int × String))
    (env : zaberPort) (z : zaberLowLevel) : Flow zaberLowLevel :=
  (zaberLowLevel.openPort env z).andThen fun z1 =>
    if ¬ env.za_drain_success then Flow.ret ZC_ERROR { z1 with m_state := stateCodes.ERROR }
    else if env.za_send_systemError then
      Flow.ret ZC_ERROR { z1 with m_state := stateCodes.ERROR }
    else
      match zaberLowLevel.connect_receive env.za_receive "" with
      | none => Flow.ret ZC_ERROR { z1 with m_state := stateCodes.ERROR }
      | some serialRes =>
        match zaberLowLevel.loadStages parseSystemSerial z1 serialRes with
        | none => Flow.fault
        | some r => Flow.ret r.1 r.2

/-- The read loop of `testConnection`: the number of responses counted in `stageCnt` when
the loop is left at a timeout, `none` when a receive returned another negative code. The
counter is an `int`; the number of responses of one probe stays far below 2^31. -/
def zaberLowLevel.testConnection_receive : List zaReceive → Nat → Option Nat
  | [], stageCnt => some stageCnt
  | zaReceive.response _ :: rest, stageCnt =>
    zaberLowLevel.testConnection_receive rest (stageCnt + 1)
  | zaReceive.error _ :: _, _ => none
  | zaReceive.timeout :: _, stageCnt => some stageCnt

/-- Embedding of `zaberLowLevel::testConnection`. -/
def zaberLowLevel.testConnection (env : zaberPort) (z : zaberLowLevel) : Flow zaberLowLevel :=
  (zaberLowLevel.openPort env z).andThen fun z1 =>
    if ¬ env.za_drain_success then
      Flow.ret ZC_NOT_CONNECTED { z1 with m_port := 0, m_state := stateCodes.NOTCONNECTED }
    else if env.za_send_systemError then
      Flow.ret ZC_NOT_CONNECTED { z1 with m_port := 0, m_state := stateCodes.ERROR }
    else
      match zaberLowLevel.testConnection_receive env.za_receive 0 with
      | none => Flow.ret ZC_NOT_CONNECTED { z1 with m_state := stateCodes.ERROR }
      | some stageCnt =>
        if stageCnt = 0 then
          Flow.ret ZC_NOT_CONNECTED { z1 with m_state := stateCodes.NOTCONNECTED }
        else Flow.ret ZC_CONNECTED z1

/-- The results of the receives made before the first timeout. -/
def beforeTimeout (script : List zaReceive) : List zaReceive :=
  script.takeWhile (fun r => r ≠ zaReceive.timeout)

/-- The texts of the responses among the results of receives, in order. -/
def responseTexts : List zaReceive → List String
  | [] => []
  | zaReceive.response text :: rest => text :: responseTexts rest
  | _ :: rest => responseTexts rest

/-- A result of a receive that is a response. -/
def zaReceive.isResponse : zaReceive → Bool
  | zaReceive.response _ => true
  | _ => false

/-- A result of a receive that is an error other than the timeout. -/
def zaReceive.isError : zaReceive → Bool
  | zaReceive.error _ => true
  | _ => false

/-- The codes of `tty::usbDevice` for a device that is not in udev; they are declared in
libMagAOX, outside the sources, and are parameters here. -/
structure ttyCodes where
  TTY_E_NODEVNAMES : Int
  TTY_E_DEVNOTFOUND : Int

/-- What the surroundings answer during one call of `zaberLowLevel::appLogic`: the value of
`tty::usbDevice::getDeviceName()` in the NODEVICE branch and in the ERROR branch, and the
answers of the serial port to `connect`. -/
structure zaberTick where
  getDeviceName_NODEVICE : Int := 0
  getDeviceName_ERROR : Int := 0
  port : zaberPort := {}

/-- The NODEVICE branch of `zaberLowLevel::appLogic`. -/
def zaberLowLevel.appLogic_NODEVICE (codes : ttyCodes) (env : zaberTick) (z : zaberLowLevel) :
    Flow zaberLowLevel :=
  if z.m_state = stateCodes.NODEVICE then
    if env.getDeviceName_NODEVICE < 0 ∧ env.getDeviceName_NODEVICE ≠ codes.TTY_E_DEVNOTFOUND
        ∧ env.getDeviceName_NODEVICE ≠ codes.TTY_E_NODEVNAMES then
      Flow.ret (-1) { z with m_state := stateCodes.FAILURE }
    else if env.getDeviceName_NODEVICE = codes.TTY_E_DEVNOTFOUND
        ∨ env.getDeviceName_NODEVICE = codes.TTY_E_NODEVNAMES then
      Flow.ret 0 { z with m_state := stateCodes.NODEVICE }
    else Flow.next { z with m_state := stateCodes.NOTCONNECTED }
  else Flow.next z

/-- The NOTCONNECTED branch of `zaberLowLevel::appLogic`. -/
def zaberLowLevel.appLogic_NOTCONNECTED (parse : String → Int × List (Int × String))
    (env : zaberTick) (z : zaberLowLevel) : Flow zaberLowLevel :=
  if z.m_state = stateCodes.NOTCONNECTED then
    match zaberLowLevel.connect parse env.port z with
    | Flow.ret rv z1 =>
      if rv = ZC_CONNECTED then Flow.next { z1 with m_state := stateCodes.CONNECTED }
      else Flow.next z1
    | Flow.next z1 => Flow.next z1
    | Flow.fault => Flow.fault
  else Flow.next z

/-- The CONNECTED branch of `zaberLowLevel::appLogic`. -/
def zaberLowLevel.appLogic_CONNECTED (z : zaberLowLevel) : Flow zaberLowLevel :=
  if z.m_state = stateCodes.CONNECTED then Flow.next { z with m_state := stateCodes.READY }
  else Flow.next z

/-- The READY branch of `zaberLowLevel::appLogic`: the positions and warnings of the stages
are refreshed, which touches no member of the registry or of the lifecycle. -/
def zaberLowLevel.appLogic_READY (z : zaberLowLevel) : Flow zaberLowLevel :=
  Flow.next z

/-- The ERROR branch of `zaberLowLevel::appLogic`. -/
def zaberLowLevel.appLogic_ERROR (codes : ttyCodes) (env : zaberTick) (z : zaberLowLevel) :
    Flow zaberLowLevel :=
  if z.m_state = stateCodes.ERROR then
    if env.getDeviceName_ERROR < 0 ∧ env.getDeviceName_ERROR ≠ codes.TTY_E_DEVNOTFOUND
        ∧ env.getDeviceName_ERROR ≠ codes.TTY_E_NODEVNAMES then
      Flow.ret env.getDeviceName_ERROR { z with m_state := stateCodes.FAILURE }
    else if env.getDeviceName_ERROR = codes.TTY_E_DEVNOTFOUND
        ∨ env.getDeviceName_ERROR = codes.TTY_E_NODEVNAMES then
      Flow.ret 0 { z with m_state := stateCodes.NODEVICE }
    else Flow.next { z with m_state := stateCodes.FAILURE }
  else Flow.next z

/-- The last statements of `zaberLowLevel::appLogic`. -/
def zaberLowLevel.appLogic_FAILURE (z : zaberLowLevel) : Flow zaberLowLevel :=
  if z.m_state = stateCodes.FAILURE then Flow.ret (-1) z else Flow.ret 0 z

/-- Embedding of `zaberLowLevel::appLogic`. -/
def zaberLowLevel.appLogic (codes : ttyCodes) (parse : String → Int × List (Int × String))
    (env : zaberTick) (z : zaberLowLevel) : Flow zaberLowLevel :=
  ((((((if z.m_state = stateCodes.INITIALIZED then Flow.ret (-1) z else Flow.next z).andThen
    (zaberLowLevel.appLogic_NODEVICE codes env)).andThen
    (zaberLowLevel.appLogic_NOTCONNECTED parse env)).andThen
    zaberLowLevel.appLogic_CONNECTED).andThen
    zaberLowLevel.appLogic_READY).andThen
    (zaberLowLevel.appLogic_ERROR codes env)).andThen
    zaberLowLevel.appLogic_FAILURE

/-! ## Lifecycle logic of the cameras (apps/andorCtrl/andorCtrl.hpp, apps/zylaCtrl/zylaCtrl.hpp) -/

/-- The operations a camera tick can perform on the hardware and on its collaborators. -/
inductive cameraOp where
  | cameraSelect
  | setTempControl
  | getTemp
  | getExpTime
  | getFPS
  | getEMGain
  | stdCamera_updateINDI
  | frameGrabber_updateINDI
  | telemeter_appLogic
  | sleep (seconds : Nat)
  deriving DecidableEq, Repr

/-- What the surroundings answer during one camera tick: the values returned by the
`appLogic` and `updateINDI` of the libMagAOX components, by the camera probe and the
temperature calls that talk to the vendor library, and whether `try_to_lock` got the
device lock. `getEMGain` is the value of `andorCtrl::getEMGain`, whose body has no return
statement. The components are taken to leave the lifecycle state as it is. -/
structure cameraTick where
  stdCamera_appLogic : Int := 0
  frameGrabber_appLogic : Int := 0
  cameraSelect : Int := 0
  setTempControl : Int := 0
  lockAvailable : Bool := true
  getTemp : Int := 0
  getEMGain : Int := 0
  stdCamera_updateINDI : Int := 0
  frameGrabber_updateINDI : Int := 0
  telemeter_appLogic : Int := 0

/-- A driver during a tick, with the operations performed so far, in order. -/
structure Polled (α : Type) where
  app : α
  calls : List cameraOp := []
  deriving DecidableEq, Repr

/-- The data members of `andorCtrl` used by the lifecycle logic and by the mode handler;
`m_state`, `m_powerState` and `m_loopPause` (nanoseconds) are the members of `MagAOXApp`
read through `state()` and by name. Of the map `m_cameraModes` the keys are kept, which is
what `count` reads; `m_indiP_mode_target` is the element `target` of the property
`m_indiP_mode`. -/
structure andorCtrl where
  m_state : stateCodes := stateCodes.UNINITIALIZED
  m_powerState : Int := 1
  m_loopPause : Nat := 1000000000
  m_powerOnWait : Nat := 10
  m_powerOnCounter : Int := 0
  m_reconfig : Bool := false
  m_cameraModes : List String := []
  m_nextMode : String := ""
  m_indiP_mode_target : String := ""
  deriving DecidableEq, Repr

/-- Embedding of `andorCtrl::getTemp`: it reads and prints the temperature and returns 0. -/
def andorCtrl.getTemp : Int := 0

/-- Embedding of `andorCtrl::getFPS`: it returns 0. -/
def andorCtrl.getFPS : Int := 0

/-- The test `m_powerOnCounter*m_loopPause > ((double) m_powerOnWait)*1e9`: the product is
taken in `unsigned long`; the conversions to `double` are exact below 2^53 and are taken
as exact. -/
def andorCtrl.powerOnElapsed (a : andorCtrl) : Bool :=
  ((a.m_powerOnCounter % 2 ^ 64).toNat * a.m_loopPause) % 2 ^ 64 > a.m_powerOnWait * 10 ^ 9

/-- The POWERON branch of `andorCtrl::appLogic`. -/
def andorCtrl.appLogic_POWERON (t : Polled andorCtrl) : Flow (Polled andorCtrl) :=
  if t.app.m_state = stateCodes.POWERON then
    if t.app.powerOnElapsed then
      Flow.next { t with app := { t.app with
        m_state := stateCodes.NOTCONNECTED, m_reconfig := true, m_powerOnCounter := 0 } }
    else
      Flow.ret 0 { t with app := { t.app with m_powerOnCounter := t.app.m_powerOnCounter + 1 } }
  else Flow.next t

/-- The NOTCONNECTED/ERROR branch of `andorCtrl::appLogic`; the probe is commented out in
the source and `ret` is the constant 0. -/
def andorCtrl.appLogic_NOTCONNECTED (t : Polled andorCtrl) : Flow (Polled andorCtrl) :=
  if t.app.m_state = stateCodes.NOTCONNECTED ∨ t.app.m_state = stateCodes.ERROR then
    if t.app.m_powerState = 0 then Flow.ret 0 t
    else if (0 : Int) = 0 then Flow.next { t with app := { t.app with m_state := stateCodes.CONNECTED } }
    else Flow.ret 0 { t with calls := t.calls ++ [cameraOp.sleep 1] }
  else Flow.next t

/-- The CONNECTED branch of `andorCtrl::appLogic`: the lock is taken and, the body being
commented out in the source, released. -/
def andorCtrl.appLogic_CONNECTED (t : Polled andorCtrl) : Flow (Polled andorCtrl) :=
  Flow.next t

/-- The READY/OPERATING branch of `andorCtrl::appLogic`. -/
def andorCtrl.appLogic_READY (env : cameraTick) (t : Polled andorCtrl) :
    Flow (Polled andorCtrl) :=
  if t.app.m_state = stateCodes.READY ∨ t.app.m_state = stateCodes.OPERATING then
    if ¬ env.lockAvailable then Flow.ret 0 t
    else if andorCtrl.getTemp < 0 then
      if t.app.m_powerState = 0 then Flow.ret 0 { t with calls := t.calls ++ [cameraOp.getTemp] }
      else Flow.ret 0 { app := { t.app with m_state := stateCodes.ERROR },
                        calls := t.calls ++ [cameraOp.getTemp] }
    else if andorCtrl.getFPS < 0 then
      if t.app.m_powerState = 0 then
        Flow.ret 0 { t with calls := t.calls ++ [cameraOp.getTemp, cameraOp.getFPS] }
      else Flow.ret 0 { app := { t.app with m_state := stateCodes.ERROR },
                        calls := t.calls ++ [cameraOp.getTemp, cameraOp.getFPS] }
    else if env.getEMGain < 0 then
      if t.app.m_powerState = 0 then
        Flow.ret 0 { t with
          calls := t.calls ++ [cameraOp.getTemp, cameraOp.getFPS, cameraOp.getEMGain] }
      else Flow.ret 0 { app := { t.app with m_state := stateCodes.ERROR },
                        calls := t.calls ++ [cameraOp.getTemp, cameraOp.getFPS, cameraOp.getEMGain] }
    else if env.frameGrabber_updateINDI < 0 then
      Flow.ret 0 { app := { t.app with m_state := stateCodes.ERROR },
                   calls := t.calls ++ [cameraOp.getTemp, cameraOp.getFPS, cameraOp.getEMGain,
                     cameraOp.frameGrabber_updateINDI] }
    else
      Flow.next { t with
        calls := t.calls ++ [cameraOp.getTemp, cameraOp.getFPS, cameraOp.getEMGain,
          cameraOp.frameGrabber_updateINDI] }
  else Flow.next t

/-- Embedding of `andorCtrl::appLogic`. -/
def andorCtrl.appLogic (env : cameraTick) (a : andorCtrl) : Flow (Polled andorCtrl) :=
  (((((if env.frameGrabber_appLogic < 0 then Flow.ret (-1) { app := a }
      else Flow.next { app := a }).andThen
    andorCtrl.appLogic_POWERON).andThen
    andorCtrl.appLogic_NOTCONNECTED).andThen
    andorCtrl.appLogic_CONNECTED).andThen
    (andorCtrl.appLogic_READY env)).finish

/-- The data members of `zylaCtrl` used by the lifecycle logic. -/
structure zylaCtrl where
  m_state : stateCodes := stateCodes.UNINITIALIZED
  m_powerState : Int := 1
  m_tempControlStatusSet : Bool := false
  deriving DecidableEq, Repr

/-- Embedding of `zylaCtrl::getExpTime`: it returns 0. -/
def zylaCtrl.getExpTime : Int := 0

/-- Embedding of `zylaCtrl::getFPS`: it returns 0. -/
def zylaCtrl.getFPS : Int := 0

/-- The NOTCONNECTED/ERROR branch of `zylaCtrl::appLogic`. -/
def zylaCtrl.appLogic_NOTCONNECTED (env : cameraTick) (t : Polled zylaCtrl) :
    Flow (Polled zylaCtrl) :=
  if t.app.m_state = stateCodes.NOTCONNECTED ∨ t.app.m_state = stateCodes.ERROR then
    if t.app.m_powerState = 0 then Flow.ret 0 t
    else if env.cameraSelect ≠ 0 then
      Flow.ret 0 { t with calls := t.calls ++ [cameraOp.cameraSelect, cameraOp.sleep 1] }
    else
      Flow.next { app := { t.app with m_state := stateCodes.CONNECTED },
                  calls := t.calls ++ [cameraOp.cameraSelect] }
  else Flow.next t

/-- The CONNECTED branch of `zylaCtrl::appLogic`; the value of `setTempControl()` is not
read. -/
def zylaCtrl.appLogic_CONNECTED (t : Polled zylaCtrl) : Flow (Polled zylaCtrl) :=
  if t.app.m_state = stateCodes.CONNECTED then
    Flow.next { app := { t.app with m_state := stateCodes.READY, m_tempControlStatusSet := true },
                calls := t.calls ++ [cameraOp.setTempControl] }
  else Flow.next t

/-- The READY/OPERATING branch of `zylaCtrl::appLogic`. -/
def zylaCtrl.appLogic_READY (env : cameraTick) (t : Polled zylaCtrl) : Flow (Polled zylaCtrl) :=
  if t.app.m_state = stateCodes.READY ∨ t.app.m_state = stateCodes.OPERATING then
    if ¬ env.lockAvailable then Flow.ret 0 t
    else if env.getTemp < 0 then
      if t.app.m_powerState = 0 then Flow.ret 0 { t with calls := t.calls ++ [cameraOp.getTemp] }
      else Flow.ret 0 { app := { t.app with m_state := stateCodes.ERROR },
                        calls := t.calls ++ [cameraOp.getTemp] }
    else if zylaCtrl.getExpTime < 0 then
      if t.app.m_powerState = 0 then
        Flow.ret 0 { t with calls := t.calls ++ [cameraOp.getTemp, cameraOp.getExpTime] }
      else Flow.ret 0 { app := { t.app with m_state := stateCodes.ERROR },
                        calls := t.calls ++ [cameraOp.getTemp, cameraOp.getExpTime] }
    else if zylaCtrl.getFPS < 0 then
      if t.app.m_powerState = 0 then
        Flow.ret 0 { t with
          calls := t.calls ++ [cameraOp.getTemp, cameraOp.getExpTime, cameraOp.getFPS] }
      else Flow.ret 0 { app := { t.app with m_state := stateCodes.ERROR },
                        calls := t.calls ++ [cameraOp.getTemp, cameraOp.getExpTime, cameraOp.getFPS] }
    else if env.stdCamera_updateINDI < 0 then
      Flow.ret 0 { t with
        calls := t.calls ++ [cameraOp.getTemp, cameraOp.getExpTime, cameraOp.getFPS,
          cameraOp.stdCamera_updateINDI] }
    else if env.frameGrabber_updateINDI < 0 then
      Flow.ret 0 { t with
        calls := t.calls ++ [cameraOp.getTemp, cameraOp.getExpTime, cameraOp.getFPS,
          cameraOp.stdCamera_updateINDI, cameraOp.frameGrabber_updateINDI] }
    else
      Flow.ret 0 { t with
        calls := t.calls ++ [cameraOp.getTemp, cameraOp.getExpTime, cameraOp.getFPS,
          cameraOp.stdCamera_updateINDI, cameraOp.frameGrabber_updateINDI,
          cameraOp.telemeter_appLogic] }
  else Flow.next t

/-- Embedding of `zylaCtrl::appLogic`. -/
def zylaCtrl.appLogic (env : cameraTick) (c : zylaCtrl) : Flow (Polled zylaCtrl) :=
  (((((if env.stdCamera_appLogic < 0 then Flow.ret (-1) { app := c }
      else if env.frameGrabber_appLogic < 0 then Flow.ret (-1) { app := c }
      else if c.m_state = stateCodes.POWERON then Flow.ret 0 { app := c }
      else Flow.next { app := c }).andThen
    (zylaCtrl.appLogic_NOTCONNECTED env)).andThen
    zylaCtrl.appLogic_CONNECTED).andThen
    (zylaCtrl.appLogic_READY env))).finish

/-- The state of the driver when the tick has returned; the state before it otherwise. -/
def Flow.appOr {α : Type} (f : Flow (Polled α)) (before : α) : α :=
  match f with
  | Flow.ret _ t => t.app
  | Flow.next t => t.app
  | Flow.fault => before

/-- The driver after the ticks of `andorCtrl::appLogic` with the given surroundings, one
after the other. -/
def andorCtrl.ticks : List cameraTick → andorCtrl → andorCtrl
  | [], a => a
  | env :: rest, a => andorCtrl.ticks rest ((andorCtrl.appLogic env a).appOr a)

/-- Scenario C: POWERON, the power-on counter at 0, a wait of 10 s, a loop pause of 1 s. -/
def scenarioC : andorCtrl :=
  { m_state := stateCodes.POWERON, m_powerState := 1, m_loopPause := 1000000000,
    m_powerOnWait := 10, m_powerOnCounter := 0 }

/-- Scenario C with the power-on counter at `counter`. -/
def scenarioC_at (counter : Int) : andorCtrl :=
  { m_state := stateCodes.POWERON, m_powerState := 1, m_loopPause := 1000000000,
    m_powerOnWait := 10, m_powerOnCounter := counter }

/-- Scenario C after it has left POWERON: the reconfigure flag set, the counter at 0. -/
def scenarioC_left (state : stateCodes) (powerState : Int) : andorCtrl :=
  { m_state := state, m_powerState := powerState, m_loopPause := 1000000000,
    m_powerOnWait := 10, m_powerOnCounter := 0, m_reconfig := true }

/-- The state of the driver in which a flow ends, when it has not failed. -/
def Flow.state {α : Type} (f : Flow α) : Option α :=
  match f with
  | Flow.ret _ s => some s
  | Flow.next s => some s
  | Flow.fault => none

/-- A flow that has returned with the state FAILURE has returned a negative value. -/
def FailureIsNegative (f : Flow zaberLowLevel) : Prop :=
  ∀ (rv : Int) (z : zaberLowLevel), f = Flow.ret rv z → z.m_state = stateCodes.FAILURE → rv < 0

/-- The codes of the examples for a device that is not in udev. -/
def exampleCodes : ttyCodes := ⟨-5, -6⟩

/-- A flow of a camera tick ends in FAILURE only when the state `before` was FAILURE. -/
def EntersNoFailure {α : Type} (st : α → stateCodes) (before : stateCodes)
    (f : Flow (Polled α)) : Prop :=
  ∀ t, f.state = some t → st t.app = stateCodes.FAILURE → before = stateCodes.FAILURE

/-- A flow that has not indexed a vector out of range and, where it goes on, goes on with
a sound serial index. -/
def SoundFlow (f : Flow zaberLowLevel) : Prop :=
  match f with
  | Flow.ret _ _ => True
  | Flow.next s => SerialIndexSound s
  | Flow.fault => False

/-! ## Published state strings (`stateIntToString`) -/

/-- Embedding of `stateIntToString`. -/
def stateIntToString (st : Int) : String :=
  if st = OUTLET_STATE_OFF then "Off"
  else if st = OUTLET_STATE_INTERMEDIATE then "Int"
  else if st = OUTLET_STATE_ON then "On"
  else "Unk"

/-- The statement `if( ret == 0 ) state(CONNECTED); else { sleep(1); return 0; }` of the
NOTCONNECTED/ERROR branch of `andorCtrl::appLogic`, for a probe result `ret`. -/
def andorCtrl.probeOutcome (ret : Int) (t : Polled andorCtrl) : Flow (Polled andorCtrl) :=
  if ret = 0 then Flow.next { t with app := { t.app with m_state := stateCodes.CONNECTED } }
  else Flow.ret 0 { t with calls := t.calls ++ [cameraOp.sleep 1] }

/-- A `connect` attempt that fails at the transport level: no privilege fault when the port
has to be opened, and `za_connect` fails or leaves no open port, or `za_drain` fails, or
`za_send` reports a system error, or a receive before the first timeout returns an error. -/
def TransportFailure (env : zaberPort) (z : zaberLowLevel) : Prop :=
  (z.m_port ≤ 0 → 0 ≤ env.euidCalled ∧ 0 ≤ env.euidReal)
  ∧ ((z.m_port ≤ 0 ∧ (env.za_connect_success = false ∨ env.za_connect_port ≤ 0))
      ∨ env.za_drain_success = false ∨ env.za_send_systemError = true
      ∨ (beforeTimeout env.za_receive).any zaReceive.isError = true)

instance (env : zaberPort) (z : zaberLowLevel) : Decidable (TransportFailure env z) := by
  unfold TransportFailure
  infer_instance

/-- The return law of a tick of `zaberLowLevel::appLogic`: a returned value is negative with
the state FAILURE, or 0 with another state. -/
def ReturnLaw (f : Flow zaberLowLevel) : Prop :=
  ∀ rv z, f = Flow.ret rv z →
    (z.m_state = stateCodes.FAILURE ∧ rv < 0) ∨ (z.m_state ≠ stateCodes.FAILURE ∧ rv = 0)

/-! ## Command handlers (INDI new-property callbacks) -/

/-- What a command handler does that bears on the lock: it acquires `m_indiMutex`, releases
it (the destructor of the guard when the handler returns), writes a shared target or state
field, calls a device command, or runs an effect of the channel sequencer. -/
inductive handlerEvent where
  | lock
  | unlock
  | write (field : String)
  | command (name : String)
  | outlet (e : Effect)
  deriving DecidableEq, Repr

/-- The result of a command handler: the application afterwards, the events in the order
they happened and the value returned. -/
structure Handled (α : Type) where
  app : α
  events : List handlerEvent
  ret : Int

/-- The lock discipline read off a list of events, `held` telling whether the lock is held
before the first of them: the lock is acquired only when free and released only when held,
every write and every device command (a raw outlet command included) happens while it is
held, and it is free at the end. -/
def disciplined_loop : Bool → List handlerEvent → Bool
  | held, [] => !held
  | held, handlerEvent.lock :: rest => !held && disciplined_loop true rest
  | held, handlerEvent.unlock :: rest => held && disciplined_loop false rest
  | held, handlerEvent.write _ :: rest => held && disciplined_loop held rest
  | held, handlerEvent.command _ :: rest => held && disciplined_loop held rest
  | held, handlerEvent.outlet (Effect.sleep _) :: rest => disciplined_loop held rest
  | held, handlerEvent.outlet _ :: rest => held && disciplined_loop held rest

/-- The lock discipline of a handler that is entered with the lock free. -/
def Disciplined (events : List handlerEvent) : Prop :=
  disciplined_loop false events = true

instance (events : List handlerEvent) : Decidable (Disciplined events) := by
  unfold Disciplined
  infer_instance

/-- Embedding of `andorCtrl::setTemp`: it returns 0. -/
def andorCtrl.setTemp : Int := 0

/-- Embedding of `andorCtrl::setFPS`: it returns 0. -/
def andorCtrl.setFPS : Int := 0

/-- Embedding of the handler of `m_indiP_ccdtemp` of andorCtrl. The message is given by its
property name and by the values of its elements `current` and `target`, `none` when reading
the element throws. -/
def andorCtrl.newCallBack_m_indiP_ccdtemp (a : andorCtrl) (ipName : String)
    (current target : Option ℚ) : Handled andorCtrl :=
  if ipName = "ccdtemp" then
    let current0 := current.getD 99
    let target0 := target.getD 99
    let target1 := if target0 = 99 then current0 else target0
    if target1 > 30 then ⟨a, [], 0⟩
    else
      ⟨a, [handlerEvent.lock, handlerEvent.write "m_indiP_ccdtemp.target",
           handlerEvent.command "setTemp", handlerEvent.unlock], andorCtrl.setTemp⟩
  else ⟨a, [], -1⟩

/-- Embedding of the handler of `m_indiP_mode` of andorCtrl. The message is given by its
property name and by the texts of its elements `current` and `target`, `none` when reading
the element throws. -/
def andorCtrl.newCallBack_m_indiP_mode (a : andorCtrl) (ipName : String)
    (current target : Option String) : Handled andorCtrl :=
  if ipName = "mode" then
    let current0 := current.getD ""
    let target0 := target.getD ""
    let target1 := if target0 = "" then current0 else target0
    if a.m_cameraModes.count target1 = 0 then ⟨a, [], -1⟩
    else
      ⟨{ a with m_indiP_mode_target := target1, m_nextMode := target1, m_reconfig := true },
        [handlerEvent.write "m_indiP_mode.target", handlerEvent.write "m_nextMode",
         handlerEvent.write "m_reconfig"], 0⟩
  else ⟨a, [], -1⟩

/-- Embedding of the handler of `m_indiP_fps` of andorCtrl, the message given as for
`m_indiP_ccdtemp`. -/
def andorCtrl.newCallBack_m_indiP_fps (a : andorCtrl) (ipName : String)
    (current target : Option ℚ) : Handled andorCtrl :=
  if ipName = "fps" then
    let current0 := current.getD (-99)
    let target0 := target.getD (-99)
    let target1 := if target0 = -99 then current0 else target0
    if target1 ≤ 0 then ⟨a, [], 0⟩
    else
      ⟨a, [handlerEvent.lock, handlerEvent.write "m_indiP_fps.target",
           handlerEvent.command "setFPS", handlerEvent.unlock], andorCtrl.setFPS⟩
  else ⟨a, [], -1⟩

/-- Embedding of the handler of `m_indiP_emGain` of andorCtrl. The message is given by its
property name and by the values of its elements `current` and `target`, `none` when the
message has no such element. `setEMGain` has an empty body in the source, so the value the
handler returns after calling it is not fixed by the source and is the argument
`setEMGain`. -/
def andorCtrl.newCallBack_m_indiP_emGain (a : andorCtrl) (setEMGain : Int) (ipName : String)
    (current target : Option Nat) : Handled andorCtrl :=
  if ipName = "emgain" then
    let current0 := current.getD 0
    let target0 := target.getD 0
    let target1 := if target0 = 0 then current0 else target0
    if target1 = 0 then ⟨a, [], 0⟩
    else
      ⟨a, [handlerEvent.lock, handlerEvent.write "m_indiP_emGain.target",
           handlerEvent.command "setEMGain", handlerEvent.unlock], setEMGain⟩
  else ⟨a, [], -1⟩

/-- The library function `mx::ioutils::toUpper` of mxlib: the letters of a text are
converted to upper case. -/
def toUpper (s : String) : String :=
  String.mk (s.data.map Char.toUpper)

/-- Embedding of `outletController::newCallBack_channels`. The message is given by its
property name and by the texts of its elements `state` and `target`, `none` when reading
the element throws. -/
def newCallBack_channels {σ : Type} (h : Hooks σ) (c : outletController) (name : String)
    (state target : Option String) (d : σ) : Outcome σ × outletController :=
  let state0 := state.getD ""
  let target0 := target.getD ""
  let target1 := toUpper (if target0 = "" then state0 else target0)
  if target1 = "ON" then turnChannelOn h c name d
  else if target1 = "OFF" then turnChannelOff h c name d
  else (⟨d, [], some 0⟩, c)

/-- The events of `outletController::newCallBack_channels`: the effects of the sequencer it
calls, in order. -/
def newCallBack_channels_events {σ : Type} (h : Hooks σ) (c : outletController)
    (name : String) (state target : Option String) (d : σ) : List handlerEvent :=
  (newCallBack_channels h c name state target d).1.trace.map handlerEvent.outlet

/-- The loop over the stages shared by the four handlers of zaberLowLevel: the first stage
whose name is an element of the message with a value above 0 receives the command `cmd`
under the lock, and its value `rv` is returned. `element` gives the value of the element of
a name, `none` when the message has no such element. -/
def zaberLowLevel.newCallBack_loop (cmd : String) (rv : Int) (element : String → Option Int) :
    List zaberStage → List handlerEvent × Int
  | [] => ([], 0)
  | st :: rest =>
    match element st.m_name with
    | some tgt =>
      if tgt > 0 then
        ([handlerEvent.lock, handlerEvent.command (cmd ++ " " ++ st.m_name),
          handlerEvent.unlock], rv)
      else zaberLowLevel.newCallBack_loop cmd rv element rest
    | none => zaberLowLevel.newCallBack_loop cmd rv element rest

/-- Embedding of the handler of `m_indiP_tgt_pos` of zaberLowLevel; `rv` is the value
returned by `moveAbs`. -/
def zaberLowLevel.newCallBack_m_indiP_tgt_pos (z : zaberLowLevel) (rv : Int) (ipName : String)
    (element : String → Option Int) : List handlerEvent × Int :=
  if ipName = "tgt_pos" then zaberLowLevel.newCallBack_loop "moveAbs" rv element z.m_stages
  else ([], 0)

/-- Embedding of the handler of `m_indiP_req_home` of zaberLowLevel; `rv` is the value
returned by `home`. -/
def zaberLowLevel.newCallBack_m_indiP_req_home (z : zaberLowLevel) (rv : Int)
    (ipName : String) (element : String → Option Int) : List handlerEvent × Int :=
  if ipName = "req_home" then zaberLowLevel.newCallBack_loop "home" rv element z.m_stages
  else ([], 0)

/-- Embedding of the handler of `m_indiP_req_halt` of zaberLowLevel; `rv` is the value
returned by `stop`. -/
def zaberLowLevel.newCallBack_m_indiP_req_halt (z : zaberLowLevel) (rv : Int)
    (ipName : String) (element : String → Option Int) : List handlerEvent × Int :=
  if ipName = "req_halt" then zaberLowLevel.newCallBack_loop "stop" rv element z.m_stages
  else ([], 0)

/-- Embedding of the handler of `m_indiP_req_ehalt` of zaberLowLevel; `rv` is the value
returned by `estop`. -/
def zaberLowLevel.newCallBack_m_indiP_req_ehalt (z : zaberLowLevel) (rv : Int)
    (ipName : String) (element : String → Option Int) : List handlerEvent × Int :=
  if ipName = "req_ehalt" then zaberLowLevel.newCallBack_loop "estop" rv element z.m_stages
  else ([], 0)

/-- The paths of a stage handler of zaberLowLevel for the property `prop` and the stage
command `cmd`: a message for another property, or one in which no stage has a value above
0, returns 0 with no event at all; otherwise the events are the acquisition of the lock,
the command on the first stage whose value is above 0 and the release of the lock, and the
value `rv` of the command is returned. -/
def StageHandlerPaths
    (handler : zaberLowLevel → Int → String → (String → Option Int) → List handlerEvent × Int)
    (prop cmd : String) (z : zaberLowLevel) (rv : Int) (ipName : String)
    (element : String → Option Int) : Prop :=
  (ipName ≠ prop → handler z rv ipName element = ([], 0))
  ∧ ((∀ st ∈ z.m_stages, ∀ tgt, element st.m_name = some tgt → tgt ≤ 0) →
      handler z rv prop element = ([], 0))
  ∧ ((∃ st ∈ z.m_stages, ∃ tgt, element st.m_name = some tgt ∧ tgt > 0) →
      ∃ pre st post, z.m_stages = pre ++ st :: post
        ∧ (∀ s ∈ pre, ∀ tgt, element s.m_name = some tgt → tgt ≤ 0)
        ∧ (∃ tgt, element st.m_name = some tgt ∧ tgt > 0)
        ∧ handler z rv prop element
            = ([handlerEvent.lock, handlerEvent.command (cmd ++ " " ++ st.m_name),
                handlerEvent.unlock], rv))

/-- The mode a message to the mode handler asks for: the text of `target`, or of `current`
when `target` is empty or unreadable. -/
def requestedMode (current target : Option String) : String :=
  if target.getD "" = "" then current.getD "" else target.getD ""

/-- A sequence of messages to the mode property, handled one after the other; each is the
pair of its `current` and `target` elements. -/
def andorCtrl.modeCommands (a : andorCtrl) (msgs : List (Option String × Option String)) :
    andorCtrl :=
  msgs.foldl (fun b m => (andorCtrl.newCallBack_m_indiP_mode b "mode" m.1 m.2).app) a

/-- An andorCtrl with the camera modes `full` and `bin2`. -/
def twoModes : andorCtrl := { m_cameraModes := ["full", "bin2"] }

/-! ## Lemmas on the loops -/

theorem stepIndex_lt (outlets order : List Nat) (hr : OrderInRange outlets order) (i : Nat)
    (hi : i < outlets.length) : stepIndex order outlets.length i < outlets.length := by
  unfold stepIndex
  split
  · rename_i hlen
    have hi2 : i < order.length := by omega
    rw [List.getD_eq_getElem _ _ hi2]
    exact hr hlen _ (List.getElem_mem _)
  · exact hi

theorem order_lookup (outlets order : List Nat) (i : Nat) (hi : i < outlets.length) :
    (if order.length = outlets.length then order[i]? else some i)
      = some (stepIndex order outlets.length i) := by
  unfold stepIndex
  split
  · rename_i hlen
    have hi2 : i < order.length := by omega
    rw [List.getD_eq_getElem _ _ hi2, List.getElem?_eq_getElem hi2]
  · rfl

theorem delay_lookup (outlets delays : List Nat) (i : Nat) (hi : i < outlets.length) :
    (if delays.length = outlets.length
        then (delays[i]?).map (fun ms => [Effect.sleep ms]) else some [])
      = some (if delays.length = outlets.length then [Effect.sleep (delays.getD i 0)] else []) := by
  split
  · rename_i hlen
    have hi2 : i < delays.length := by omega
    rw [List.getD_eq_getElem _ _ hi2, List.getElem?_eq_getElem hi2]
    rfl
  · rfl

theorem outlet_lookup (outlets : List Nat) (n : Nat) (hn : n < outlets.length) :
    outlets[n]? = some (outlets.getD n 0) := by
  rw [List.getD_eq_getElem _ _ hn, List.getElem?_eq_getElem hn]

theorem turnChannelOn_loop_closed {σ : Type} (h : Hooks σ) (ch : channelSpec)
    (hr : OrderInRange ch.m_outlets ch.m_onOrder) :
    ∀ (k i : Nat) (d : σ), i + k = ch.m_outlets.length →
      (turnChannelOn_loop h ch k i d).trace
          = (List.range' i k).flatMap
              (stepEffects Effect.on ch.m_outlets ch.m_onOrder ch.m_onDelays)
        ∧ (turnChannelOn_loop h ch k i d).ret = some 0 := by
  intro k
  induction k with
  | zero => intro i d _; simp [turnChannelOn_loop]
  | succ k ih =>
    intro i d hik
    have hi : i < ch.m_outlets.length := by omega
    have hs := stepIndex_lt ch.m_outlets ch.m_onOrder hr i hi
    have ih2 := ih (i + 1)
      (h.turnOutletOn d
        (sizeToInt (ch.m_outlets.getD (stepIndex ch.m_onOrder ch.m_outlets.length i) 0))).2
      (by omega)
    unfold turnChannelOn_loop
    rw [order_lookup _ _ _ hi, delay_lookup _ _ _ hi]
    simp only [outlet_lookup _ _ hs]
    rw [ih2.1, ih2.2]
    simp [List.range'_succ, stepEffects]

theorem turnChannelOn_spec_closed {σ : Type} (h : Hooks σ) (ch : channelSpec) (d : σ)
    (hr : OrderInRange ch.m_outlets ch.m_onOrder) (hn : 1 ≤ ch.m_outlets.length) :
    (turnChannelOn_spec h ch d).trace
        = Effect.on
            (sizeToInt (ch.m_outlets.getD (stepIndex ch.m_onOrder ch.m_outlets.length 0) 0))
          :: (List.range' 1 (ch.m_outlets.length - 1)).flatMap
              (stepEffects Effect.on ch.m_outlets ch.m_onOrder ch.m_onDelays)
      ∧ (turnChannelOn_spec h ch d).ret = some 0 := by
  have hi : 0 < ch.m_outlets.length := by omega
  have hs := stepIndex_lt ch.m_outlets ch.m_onOrder hr 0 hi
  have hl := turnChannelOn_loop_closed h ch hr (ch.m_outlets.length - 1) 1
    (h.turnOutletOn d
      (sizeToInt (ch.m_outlets.getD (stepIndex ch.m_onOrder ch.m_outlets.length 0) 0))).2
    (by omega)
  unfold turnChannelOn_spec
  rw [order_lookup _ _ _ hi]
  simp only [outlet_lookup _ _ hs]
  rw [hl.1, hl.2]
  exact ⟨rfl, rfl⟩

theorem subscript_of_find (m : ChannelMap) (key : String) (ch : channelSpec)
    (hfind : m.find key = some ch) : m.subscript key = (ch, m) := by
  simp [ChannelMap.subscript, hfind]

theorem subscript_of_not_find (m : ChannelMap) (key : String)
    (hfind : m.find key = none) :
    m.subscript key = (({} : channelSpec), m ++ [(key, ({} : channelSpec))]) := by
  simp [ChannelMap.subscript, hfind]

theorem range_split (n : Nat) (hn : 1 ≤ n) : List.range n = 0 :: List.range' 1 (n - 1) := by
  obtain ⟨m, rfl⟩ : ∃ m, n = m + 1 := ⟨n - 1, by omega⟩
  rw [List.range_eq_range', List.range'_succ]
  simp

theorem map_order_lookup (outlets order : List Nat) (hlen : order.length = outlets.length)
    (hr : ∀ k ∈ order, k < outlets.length) :
    (List.range outlets.length).map
        (fun j => some (outlets.getD (stepIndex order outlets.length j) 0))
      = order.map (fun k => outlets[k]?) := by
  apply List.ext_getElem
  · simp [hlen]
  · intro i h1 h2
    have hi : i < order.length := by simpa using h2
    have hk : order[i] < outlets.length := hr _ (List.getElem_mem _)
    simp [stepIndex, hlen, List.getElem?_eq_getElem hi, List.getElem?_eq_getElem hk]

theorem map_natural_lookup (outlets order : List Nat) (hlen : order.length ≠ outlets.length) :
    (List.range outlets.length).map
        (fun j => outlets.getD (stepIndex order outlets.length j) 0)
      = outlets := by
  apply List.ext_getElem
  · simp
  · intro i h1 h2
    simp [stepIndex, hlen, List.getElem?_eq_getElem h2]

theorem turnChannelOff_loop_closed {σ : Type} (h : Hooks σ) (ch : channelSpec)
    (hr : OrderInRange ch.m_outlets ch.m_offOrder) :
    ∀ (k i : Nat) (d : σ), i + k = ch.m_outlets.length →
      (turnChannelOff_loop h ch k i d).trace
          = (List.range' i k).flatMap
              (stepEffects Effect.off ch.m_outlets ch.m_offOrder ch.m_offDelays)
        ∧ (turnChannelOff_loop h ch k i d).ret = some 0 := by
  intro k
  induction k with
  | zero => intro i d _; simp [turnChannelOff_loop]
  | succ k ih =>
    intro i d hik
    have hi : i < ch.m_outlets.length := by omega
    have hs := stepIndex_lt ch.m_outlets ch.m_offOrder hr i hi
    have ih2 := ih (i + 1)
      (h.turnOutletOff d
        (sizeToInt (ch.m_outlets.getD (stepIndex ch.m_offOrder ch.m_outlets.length i) 0))).2
      (by omega)
    unfold turnChannelOff_loop
    rw [order_lookup _ _ _ hi, delay_lookup _ _ _ hi]
    simp only [outlet_lookup _ _ hs]
    rw [ih2.1, ih2.2]
    simp [List.range'_succ, stepEffects]

theorem turnChannelOff_spec_closed {σ : Type} (h : Hooks σ) (ch : channelSpec) (d : σ)
    (hr : OrderInRange ch.m_outlets ch.m_offOrder) (hn : 1 ≤ ch.m_outlets.length) :
    (turnChannelOff_spec h ch d).trace
        = Effect.off
            (sizeToInt (ch.m_outlets.getD (stepIndex ch.m_offOrder ch.m_outlets.length 0) 0))
          :: (List.range' 1 (ch.m_outlets.length - 1)).flatMap
              (stepEffects Effect.off ch.m_outlets ch.m_offOrder ch.m_offDelays)
      ∧ (turnChannelOff_spec h ch d).ret = some 0 := by
  have hi : 0 < ch.m_outlets.length := by omega
  have hs := stepIndex_lt ch.m_outlets ch.m_offOrder hr 0 hi
  have hl := turnChannelOff_loop_closed h ch hr (ch.m_outlets.length - 1) 1
    (h.turnOutletOff d
      (sizeToInt (ch.m_outlets.getD (stepIndex ch.m_offOrder ch.m_outlets.length 0) 0))).2
    (by omega)
  unfold turnChannelOff_spec
  rw [order_lookup _ _ _ hi]
  simp only [outlet_lookup _ _ hs]
  rw [hl.1, hl.2]
  exact ⟨rfl, rfl⟩

theorem rawOffCalls_append (a b : List Effect) :
    rawOffCalls (a ++ b) = rawOffCalls a ++ rawOffCalls b := by
  induction a with
  | nil => rfl
  | cons e t ih => cases e <;> simp [rawOffCalls, ih]

theorem rawOffCalls_steps (outlets order delays : List Nat) (l : List Nat) :
    rawOffCalls (l.flatMap (stepEffects Effect.off outlets order delays))
      = l.map (fun j => sizeToInt (outlets.getD (stepIndex order outlets.length j) 0)) := by
  induction l with
  | nil => rfl
  | cons j t ih =>
    rw [List.flatMap_cons, rawOffCalls_append, ih]
    unfold stepEffects
    split <;> simp [rawOffCalls]

theorem rawOffCalls_turnChannelOff_spec {σ : Type} (h : Hooks σ) (ch : channelSpec) (d : σ)
    (hr : OrderInRange ch.m_outlets ch.m_offOrder) (hn : 1 ≤ ch.m_outlets.length) :
    rawOffCalls (turnChannelOff_spec h ch d).trace
      = ((List.range ch.m_outlets.length).map
          (fun j => ch.m_outlets.getD (stepIndex ch.m_offOrder ch.m_outlets.length j) 0)).map
            sizeToInt := by
  rw [(turnChannelOff_spec_closed h ch d hr hn).1, range_split _ hn]
  simp [rawOffCalls, rawOffCalls_steps]

/-- The trace of steps with a delay vector of matching length: a sleep before each command. -/
theorem steps_with_delays (cmd : Int → Effect) (outlets order delays : List Nat) (l : List Nat)
    (hlen : delays.length = outlets.length) :
    l.flatMap (stepEffects cmd outlets order delays)
      = l.flatMap (fun i =>
          [Effect.sleep (delays.getD i 0),
            cmd (sizeToInt (outlets.getD (stepIndex order outlets.length i) 0))]) := by
  induction l with
  | nil => rfl
  | cons j t ih => simp [List.flatMap_cons, ih, stepEffects, hlen]

/-- The trace of steps with a delay vector of another length: commands only. -/
theorem steps_without_delays (cmd : Int → Effect) (outlets order delays : List Nat)
    (l : List Nat) (hlen : delays.length ≠ outlets.length) :
    l.flatMap (stepEffects cmd outlets order delays)
      = l.map (fun i =>
          cmd (sizeToInt (outlets.getD (stepIndex order outlets.length i) 0))) := by
  induction l with
  | nil => rfl
  | cons j t ih => simp [List.flatMap_cons, ih, stepEffects, hlen]

/-- An outlet number below 2^31 reaches the hook as it is. -/
theorem sizeToInt_of_lt (n : Nat) (h : n < 2147483648) : sizeToInt n = Int.ofNat n := by
  have h1 : n % 4294967296 = n := Nat.mod_eq_of_lt (by omega)
  unfold sizeToInt
  rw [h1, if_pos h]

/-- An outlet number of 2^32 + 5 reaches the hook as 5, and 2^31 as -2^31. -/
theorem sizeToInt_wraps :
    sizeToInt 4294967301 = 5 ∧ sizeToInt 2147483648 = -2147483648 := by
  decide

theorem map_sizeToInt_of_inIntRange (outlets : List Nat) (hb : InIntRange outlets) :
    outlets.map sizeToInt = outlets.map Int.ofNat := by
  apply List.map_congr_left
  intro o ho
  exact sizeToInt_of_lt o (hb o ho)

theorem lookup_sizeToInt_of_inIntRange (outlets : List Nat) (hb : InIntRange outlets)
    (k : Nat) : (outlets[k]?).map sizeToInt = (outlets[k]?).map Int.ofNat := by
  cases hk : outlets[k]? with
  | none => rfl
  | some o =>
    simp only [Option.map_some']
    rw [sizeToInt_of_lt o (hb o (List.getElem?_mem hk))]

theorem map_some_map_sizeToInt (l : List Nat) :
    (l.map sizeToInt).map some = (l.map some).map (Option.map sizeToInt) := by
  simp [List.map_map, Function.comp_def]

theorem ordered_calls (outlets order : List Nat) (hlen : order.length = outlets.length)
    (hr : ∀ k ∈ order, k < outlets.length) :
    (((List.range outlets.length).map
        (fun j => outlets.getD (stepIndex order outlets.length j) 0)).map sizeToInt).map some
      = order.map (fun k => (outlets[k]?).map sizeToInt) := by
  have h1 : ((List.range outlets.length).map
      (fun j => outlets.getD (stepIndex order outlets.length j) 0)).map some
      = order.map (fun k => outlets[k]?) := by
    rw [List.map_map]
    exact map_order_lookup outlets order hlen hr
  rw [map_some_map_sizeToInt, h1, List.map_map]
  rfl

/-! ## Claims C1 and C2: order and delays -/

/-- C2. Delay law for `turnChannelOn` and `turnChannelOff` on a configured channel with
`n ≥ 1` outlets: the trace starts with the raw command of step 0, with no sleep before it;
when the delay vector has length `n`, each later step `i` is the sleep of `delays[i]`
immediately followed by the raw command of step `i`; when the delay vector has another
length the trace holds the raw commands only. The law of `turnChannelOn` needs the on order
alone to hold positions of the outlet vector, and the law of `turnChannelOff` the off
order alone; each raw command is recorded with the `int` its hook receives. -/
theorem turnChannel_delay_law {σ : Type} (h : Hooks σ) (c : outletController)
    (channel : String) (ch : channelSpec) (d : σ)
    (hfind : c.m_channels.find channel = some ch)
    (hn : 1 ≤ ch.m_outlets.length) :
    (OrderInRange ch.m_outlets ch.m_onOrder →
      (ch.m_onDelays.length = ch.m_outlets.length →
        (turnChannelOn h c channel d).1.trace
          = Effect.on
              (sizeToInt (ch.m_outlets.getD (stepIndex ch.m_onOrder ch.m_outlets.length 0) 0))
            :: (List.range' 1 (ch.m_outlets.length - 1)).flatMap (fun i =>
                [Effect.sleep (ch.m_onDelays.getD i 0),
                  Effect.on (sizeToInt
                    (ch.m_outlets.getD (stepIndex ch.m_onOrder ch.m_outlets.length i) 0))]))
      ∧ (ch.m_onDelays.length ≠ ch.m_outlets.length →
        (turnChannelOn h c channel d).1.trace
          = (List.range ch.m_outlets.length).map (fun i =>
              Effect.on (sizeToInt
                (ch.m_outlets.getD (stepIndex ch.m_onOrder ch.m_outlets.length i) 0)))))
    ∧ (OrderInRange ch.m_outlets ch.m_offOrder →
      (ch.m_offDelays.length = ch.m_outlets.length →
        (turnChannelOff h c channel d).1.trace
          = Effect.off
              (sizeToInt (ch.m_outlets.getD (stepIndex ch.m_offOrder ch.m_outlets.length 0) 0))
            :: (List.range' 1 (ch.m_outlets.length - 1)).flatMap (fun i =>
                [Effect.sleep (ch.m_offDelays.getD i 0),
                  Effect.off (sizeToInt
                    (ch.m_outlets.getD (stepIndex ch.m_offOrder ch.m_outlets.length i) 0))]))
      ∧ (ch.m_offDelays.length ≠ ch.m_outlets.length →
        (turnChannelOff h c channel d).1.trace
          = (List.range ch.m_outlets.length).map (fun i =>
              Effect.off (sizeToInt
                (ch.m_outlets.getD (stepIndex ch.m_offOrder ch.m_outlets.length i) 0)))))
    ∧ (InIntRange ch.m_outlets → ∀ k : Nat,
        sizeToInt (ch.m_outlets.getD k 0) = Int.ofNat (ch.m_outlets.getD k 0)) := by
  simp only [turnChannelOn, turnChannelOff, subscript_of_find _ _ _ hfind]
  refine ⟨?_, ?_, ?_⟩
  · intro hon
    have h1 := (turnChannelOn_spec_closed h ch d hon hn).1
    refine ⟨?_, ?_⟩
    · intro hlen
      rw [h1, steps_with_delays _ _ _ _ _ hlen]
    · intro hlen
      rw [h1, steps_without_delays _ _ _ _ _ hlen, range_split _ hn]
      rfl
  · intro hoff
    have h2 := (turnChannelOff_spec_closed h ch d hoff hn).1
    refine ⟨?_, ?_⟩
    · intro hlen
      rw [h2, steps_with_delays _ _ _ _ _ hlen]
    · intro hlen
      rw [h2, steps_without_delays _ _ _ _ _ hlen, range_split _ hn]
      rfl
  · intro hb k
    by_cases hk : k < ch.m_outlets.length
    · rw [List.getD_eq_getElem _ _ hk]
      exact sizeToInt_of_lt _ (hb _ (List.getElem_mem _))
    · rw [List.getD_eq_default _ _ (by omega)]
      rfl

/-- Witness of C2, scenario A: outlets [4,5], onOrder [1,0], onDelays [0,150] give the
trace on(5), sleep(150), on(4). -/
theorem turnChannel_delay_law_witness :
    (turnChannelOn okHooks sueController "sue" ()).1.trace
      = [Effect.on 5, Effect.sleep 150, Effect.on 4] :=
  ((turnChannel_delay_law okHooks sueController "sue" sue () (by decide) (by decide)).1
    (by decide)).1 (by decide)

/-! ## Claims C3 and C4: the aggregate state of a channel -/

theorem channelState_loop_closed (states : List Int) (outlets : List Nat)
    (hr : ∀ o ∈ outlets, o < states.length) :
    ∀ (k n : Nat) (st : Int), n + k = outlets.length →
      channelState_loop states outlets k n st
        = some (if ∀ o ∈ outlets.drop n, states.getD o 0 = st then st else 1) := by
  intro k
  induction k with
  | zero =>
    intro n st hnk
    have : outlets.drop n = [] := List.drop_eq_nil_of_le (by omega)
    simp [channelState_loop, this]
  | succ k ih =>
    intro n st hnk
    have hn : n < outlets.length := by omega
    have ho : outlets[n] < states.length := hr _ (List.getElem_mem _)
    have hd : outlets.drop n = outlets[n] :: outlets.drop (n + 1) :=
      List.drop_eq_getElem_cons hn
    unfold channelState_loop
    rw [List.getElem?_eq_getElem hn]
    simp only [List.getElem?_eq_getElem ho]
    rw [ih (n + 1) _ (by omega), hd]
    have hg : states.getD outlets[n] 0 = states[outlets[n]] := List.getD_eq_getElem _ _ ho
    simp only [List.forall_mem_cons, hg]
    by_cases hs : st = states[outlets[n]]
    · subst hs
      simp only [ne_eq, not_true_eq_false, if_false, true_and]
    · have hs2 : ¬ states[outlets[n]] = st := fun e => hs e.symm
      simp only [ne_eq, hs, not_false_eq_true, if_true, hs2, false_and, if_false]
      split <;> rfl

theorem channelState_spec_closed (states : List Int) (ch : channelSpec) (first : Nat)
    (h0 : ch.m_outlets[0]? = some first)
    (hr : ∀ o ∈ ch.m_outlets, o < states.length) :
    channelState_spec states ch
      = if (∀ o ∈ ch.m_outlets, states[o]? = states[first]?) then states[first]? else some 1 := by
  obtain ⟨outlets, onOrder, offOrder, onDelays, offDelays⟩ := ch
  cases outlets with
  | nil => simp at h0
  | cons f t =>
    simp only [List.getElem?_cons_zero, Option.some.injEq] at h0
    subst h0
    have hf : f < states.length := hr f (List.mem_cons_self _ _)
    have hl := channelState_loop_closed states (f :: t) hr t.length 1 states[f]
      (by simp; omega)
    unfold channelState_spec
    simp only [List.getElem?_cons_zero, List.getElem?_eq_getElem hf, List.length_cons,
      Nat.add_sub_cancel]
    rw [hl]
    simp only [List.drop_succ_cons, List.drop_zero, List.forall_mem_cons, true_and]
    have hiff : (∀ o ∈ t, states.getD o 0 = states[f]) ↔ (∀ o ∈ t, states[o]? = some states[f]) := by
      constructor
      · intro hall o ho
        have hlt : o < states.length := hr o (List.mem_cons_of_mem _ ho)
        have := hall o ho
        rw [List.getD_eq_getElem _ _ hlt] at this
        rw [List.getElem?_eq_getElem hlt, this]
      · intro hall o ho
        have hlt : o < states.length := hr o (List.mem_cons_of_mem _ ho)
        have := hall o ho
        rw [List.getElem?_eq_getElem hlt] at this
        rw [List.getD_eq_getElem _ _ hlt]
        exact Option.some.inj this
    have hff : states[f]? = some states[f] := List.getElem?_eq_getElem hf
    by_cases hall : ∀ o ∈ t, states.getD o 0 = states[f]
    · rw [if_pos hall, if_pos ⟨hff, hiff.mp hall⟩]
    · rw [if_neg hall, if_neg (fun hc => hall (hiff.mpr hc.2))]

/-- C3 (amended). For a configured channel whose outlets are all within the outlet-state
vector: when every outlet has the raw state of `outlets[0]`, `channelState` is that state;
otherwise it is Intermediate (1); hence, when the raw state of `outlets[0]` is not
Intermediate, `channelState` equals it if and only if every outlet shares it. -/
theorem channelState_aggregation (c : outletController) (channel : String) (ch : channelSpec)
    (first : Nat)
    (hfind : c.m_channels.find channel = some ch)
    (h0 : ch.m_outlets[0]? = some first)
    (hr : ∀ o ∈ ch.m_outlets, o < c.m_outletStates.length) :
    ((∀ o ∈ ch.m_outlets, outletState c o = outletState c first) →
        (channelState c channel).1 = outletState c first)
    ∧ (¬ (∀ o ∈ ch.m_outlets, outletState c o = outletState c first) →
        (channelState c channel).1 = some OUTLET_STATE_INTERMEDIATE)
    ∧ (outletState c first ≠ some OUTLET_STATE_INTERMEDIATE →
        ((channelState c channel).1 = outletState c first
          ↔ ∀ o ∈ ch.m_outlets, outletState c o = outletState c first)) := by
  have hv := channelState_spec_closed c.m_outletStates ch first h0 hr
  simp only [channelState, subscript_of_find _ _ _ hfind, outletState, OUTLET_STATE_INTERMEDIATE]
  refine ⟨?_, ?_, ?_⟩
  · intro hall
    rw [hv, if_pos hall]
  · intro hall
    rw [hv, if_neg hall]
  · intro hne
    constructor
    · intro heq
      by_contra hall
      rw [hv, if_neg hall] at heq
      exact hne heq.symm
    · intro hall
      rw [hv, if_pos hall]

/-- Witness of C3 (amended): channel `sue` with outlets 4 and 5 both On has state On. -/
theorem channelState_aggregation_witness :
    (channelState { sueController with m_outletStates := [0, 0, 0, 0, 2, 2] } "sue").1
      = some OUTLET_STATE_ON :=
  (channelState_aggregation { sueController with m_outletStates := [0, 0, 0, 0, 2, 2] }
    "sue" sue 4 (by decide) (by decide) (by decide)).1 (by decide)

/-- Counterexample to C3 as stated: outlet 0 is Intermediate and outlet 1 is On, so the
channel state (Intermediate) equals the raw state of `outlets[0]` although the outlets do
not share one state. -/
theorem channelState_aggregation_counterexample :
    ¬ ((channelState { m_outletStates := [1, 2],
                       m_channels := [("pair", { m_outlets := [0, 1] })] } "pair").1
          = outletState { m_outletStates := [1, 2],
                          m_channels := [("pair", { m_outlets := [0, 1] })] } 0
        ↔ ∀ o ∈ [0, 1],
            outletState { m_outletStates := [1, 2],
                          m_channels := [("pair", { m_outlets := [0, 1] })] } o
              = outletState { m_outletStates := [1, 2],
                              m_channels := [("pair", { m_outlets := [0, 1] })] } 0) := by
  decide

/-- C4. A configured channel (outlets within the outlet-state vector) in which two outlets
have different raw states has channel state Intermediate (1), whichever outlets differ and
whatever their states are. -/
theorem channelState_mismatch (c : outletController) (channel : String) (ch : channelSpec)
    (a b : Nat)
    (hfind : c.m_channels.find channel = some ch)
    (hr : ∀ o ∈ ch.m_outlets, o < c.m_outletStates.length)
    (ha : a ∈ ch.m_outlets) (hb : b ∈ ch.m_outlets)
    (hab : outletState c a ≠ outletState c b) :
    (channelState c channel).1 = some OUTLET_STATE_INTERMEDIATE := by
  obtain ⟨first, h0⟩ : ∃ first, ch.m_outlets[0]? = some first := by
    cases hout : ch.m_outlets with
    | nil => rw [hout] at ha; simp at ha
    | cons f t => exact ⟨f, List.getElem?_cons_zero⟩
  have hv := channelState_spec_closed c.m_outletStates ch first h0 hr
  simp only [channelState, subscript_of_find _ _ _ hfind, OUTLET_STATE_INTERMEDIATE]
  rw [hv, if_neg]
  intro hall
  apply hab
  simp only [outletState]
  rw [hall a ha, hall b hb]

/-- Witness of C4, scenario B: outlets [4,5], outlet 4 On and outlet 5 Off. -/
theorem channelState_mismatch_witness :
    (channelState { sueController with m_outletStates := [0, 0, 0, 0, 2, 0] } "sue").1
      = some OUTLET_STATE_INTERMEDIATE :=
  channelState_mismatch { sueController with m_outletStates := [0, 0, 0, 0, 2, 0] }
    "sue" sue 4 5 (by decide) (by decide) (by decide) (by decide) (by decide)

/-! ## Claim C5: the status of the raw commands -/

/-- C5 (the code at the failing input). On the channel `sue`, with raw commands that fail
(-1) on outlet 5: `turnChannelOn` gets the failure at step 0, yet goes on to sleep and to
switch outlet 4, and returns 0; `turnChannelOff` gets the failure at its last step and
returns 0. -/
theorem turnChannel_ignores_raw_failure :
    (failingHooks.turnOutletOn () 5).1 = -1
    ∧ (turnChannelOn failingHooks sueController "sue" ()).1.trace
        = [Effect.on 5, Effect.sleep 150, Effect.on 4]
    ∧ (turnChannelOn failingHooks sueController "sue" ()).1.ret = some 0
    ∧ (failingHooks.turnOutletOff () 5).1 = -1
    ∧ (turnChannelOff failingHooks sueController "sue" ()).1.trace
        = [Effect.off 4, Effect.sleep 345, Effect.off 5]
    ∧ (turnChannelOff failingHooks sueController "sue" ()).1.ret = some 0 := by
  decide

/-! ## Claim C6: turning off is turning on with the off vectors -/

theorem turnChannelOff_loop_as_on {σ : Type} (h : Hooks σ) (ch : channelSpec) :
    ∀ (k i : Nat) (d : σ),
      turnChannelOff_loop h ch k i d
        = ⟨(turnChannelOn_loop (offHooks h) (offAsOn ch) k i d).dev,
            (turnChannelOn_loop (offHooks h) (offAsOn ch) k i d).trace.map Effect.toOff,
            (turnChannelOn_loop (offHooks h) (offAsOn ch) k i d).ret⟩ := by
  intro k
  induction k with
  | zero => intro i d; rfl
  | succ k ih =>
    intro i d
    unfold turnChannelOff_loop turnChannelOn_loop
    simp only [offAsOn]
    cases (if ch.m_offOrder.length = ch.m_outlets.length then ch.m_offOrder[i]? else some i) with
    | none => rfl
    | some n =>
      by_cases hd : ch.m_offDelays.length = ch.m_outlets.length
      · cases hdi : ch.m_offDelays[i]? with
        | none => simp [hd, hdi]
        | some ms =>
          cases hz : ch.m_outlets[n]? with
          | none => simp [hd, hdi, hz, Effect.toOff]
          | some o => simp [hd, hdi, hz, ih, Effect.toOff, offHooks, offAsOn]
      · cases hz : ch.m_outlets[n]? with
        | none => simp [hd, hz]
        | some o => simp [hd, hz, ih, Effect.toOff, offHooks, offAsOn]

theorem turnChannelOff_spec_as_on {σ : Type} (h : Hooks σ) (ch : channelSpec) (d : σ) :
    turnChannelOff_spec h ch d
      = ⟨(turnChannelOn_spec (offHooks h) (offAsOn ch) d).dev,
          (turnChannelOn_spec (offHooks h) (offAsOn ch) d).trace.map Effect.toOff,
          (turnChannelOn_spec (offHooks h) (offAsOn ch) d).ret⟩ := by
  unfold turnChannelOff_spec turnChannelOn_spec
  simp only [offAsOn]
  cases (if ch.m_offOrder.length = ch.m_outlets.length then ch.m_offOrder[0]? else some 0) with
  | none => rfl
  | some n =>
    cases hz : ch.m_outlets[n]? with
    | none => simp [hz]
    | some o =>
      simp [hz, turnChannelOff_loop_as_on, Effect.toOff, offHooks, offAsOn]

theorem find_map_offAsOn (m : ChannelMap) (key : String) :
    ChannelMap.find (m.map (fun e => (e.1, offAsOn e.2))) key = (m.find key).map offAsOn := by
  induction m with
  | nil => rfl
  | cons e t ih =>
    obtain ⟨k, v⟩ := e
    simp only [List.map_cons, ChannelMap.find]
    split
    · rfl
    · exact ih

theorem subscript_offAsOnController (c : outletController) (key : String) :
    ((offAsOnController c).m_channels.subscript key).1 = offAsOn (c.m_channels.subscript key).1 := by
  simp only [offAsOnController, ChannelMap.subscript, find_map_offAsOn]
  cases c.m_channels.find key with
  | none => rfl
  | some v => rfl

theorem offAsOn_congr (ch1 ch2 : channelSpec) (ho : ch1.m_outlets = ch2.m_outlets)
    (hord : ch1.m_offOrder = ch2.m_offOrder) (hdel : ch1.m_offDelays = ch2.m_offDelays) :
    offAsOn ch1 = offAsOn ch2 := by
  obtain ⟨o1, a1, b1, c1, d1⟩ := ch1
  obtain ⟨o2, a2, b2, c2, d2⟩ := ch2
  simp only at ho hord hdel
  simp [offAsOn, ho, hord, hdel]

/-- C6. `turnChannelOff` is `turnChannelOn` with the off order, the off delays and the raw
`turnOutletOff` in the place of the on order, the on delays and the raw `turnOutletOn`:
its trace is the trace of `turnChannelOn` on the substituted controller with every raw
`on` read as `off`, and the returned value and device state agree. It depends on the
outlets, off order and off delays of the channel only, and its raw calls follow
`outlets[offOrder[i]]` when the off order has the length of the outlet vector and the
natural index order otherwise; the hook receives the outlet number converted from `size_t`
to `int`, which is the outlet number itself when the outlet numbers are below 2^31. -/
theorem turnChannelOff_is_turnChannelOn_substituted {σ : Type} (h : Hooks σ)
    (c : outletController) (channel : String) (d : σ) :
    (turnChannelOff h c channel d).1.trace
        = ((turnChannelOn (offHooks h) (offAsOnController c) channel d).1.trace).map Effect.toOff
    ∧ (turnChannelOff h c channel d).1.ret
        = (turnChannelOn (offHooks h) (offAsOnController c) channel d).1.ret
    ∧ (turnChannelOff h c channel d).1.dev
        = (turnChannelOn (offHooks h) (offAsOnController c) channel d).1.dev
    ∧ (∀ (c2 : outletController) (ch1 ch2 : channelSpec),
        c.m_channels.find channel = some ch1 → c2.m_channels.find channel = some ch2 →
        ch1.m_outlets = ch2.m_outlets → ch1.m_offOrder = ch2.m_offOrder →
        ch1.m_offDelays = ch2.m_offDelays →
        (turnChannelOff h c2 channel d).1 = (turnChannelOff h c channel d).1)
    ∧ (∀ ch : channelSpec, c.m_channels.find channel = some ch → 1 ≤ ch.m_outlets.length →
        OrderInRange ch.m_outlets ch.m_offOrder →
        (ch.m_offOrder.length = ch.m_outlets.length →
          (rawOffCalls (turnChannelOff h c channel d).1.trace).map some
            = ch.m_offOrder.map (fun k => (ch.m_outlets[k]?).map sizeToInt))
        ∧ (ch.m_offOrder.length ≠ ch.m_outlets.length →
          rawOffCalls (turnChannelOff h c channel d).1.trace = ch.m_outlets.map sizeToInt)
        ∧ (InIntRange ch.m_outlets →
          (ch.m_offOrder.length = ch.m_outlets.length →
            (rawOffCalls (turnChannelOff h c channel d).1.trace).map some
              = ch.m_offOrder.map (fun k => (ch.m_outlets[k]?).map Int.ofNat))
          ∧ (ch.m_offOrder.length ≠ ch.m_outlets.length →
            rawOffCalls (turnChannelOff h c channel d).1.trace
              = ch.m_outlets.map Int.ofNat))) := by
  refine ⟨?_, ?_, ?_, ?_, ?_⟩
  · simp only [turnChannelOff, turnChannelOn, subscript_offAsOnController]
    rw [turnChannelOff_spec_as_on]
  · simp only [turnChannelOff, turnChannelOn, subscript_offAsOnController]
    rw [turnChannelOff_spec_as_on]
  · simp only [turnChannelOff, turnChannelOn, subscript_offAsOnController]
    rw [turnChannelOff_spec_as_on]
  · intro c2 ch1 ch2 h1 h2 ho hord hdel
    simp only [turnChannelOff, subscript_of_find _ _ _ h1, subscript_of_find _ _ _ h2]
    rw [turnChannelOff_spec_as_on h ch1, turnChannelOff_spec_as_on h ch2,
      offAsOn_congr ch1 ch2 ho hord hdel]
  · intro ch hfind hn hr
    have hcalls := rawOffCalls_turnChannelOff_spec h ch d hr hn
    simp only [turnChannelOff, subscript_of_find _ _ _ hfind]
    refine ⟨?_, ?_, ?_⟩
    · intro hlen
      rw [hcalls]
      exact ordered_calls ch.m_outlets ch.m_offOrder hlen (hr hlen)
    · intro hlen
      rw [hcalls, map_natural_lookup ch.m_outlets ch.m_offOrder hlen]
    · intro hb
      refine ⟨?_, ?_⟩
      · intro hlen
        rw [hcalls, ordered_calls ch.m_outlets ch.m_offOrder hlen (hr hlen)]
        exact List.map_congr_left
          (fun k _ => lookup_sizeToInt_of_inIntRange ch.m_outlets hb k)
      · intro hlen
        rw [hcalls, map_natural_lookup ch.m_outlets ch.m_offOrder hlen,
          map_sizeToInt_of_inIntRange ch.m_outlets hb]

/-- Witness of C6 on the documented channel `sue`: outlet 4 is turned off first, then
outlet 5, whatever the on order says. -/
theorem turnChannelOff_is_turnChannelOn_substituted_witness :
    (rawOffCalls (turnChannelOff okHooks sueController "sue" ()).1.trace).map some
      = [some 4, some 5] :=
  (((turnChannelOff_is_turnChannelOn_substituted okHooks sueController "sue" ()).2.2.2.2
    sue (by decide) (by decide) (by decide)).2.2 (by decide)).1 (by decide)

/-! ## Claim C7: the default refresh loop -/

theorem updateOutletStates_loop_law {σ : Type} (h : Hooks σ) :
    ∀ (k n : Nat) (d : σ),
      (updateOutletStates_loop h k n d).calls.map Prod.fst
          = List.range' n (updateOutletStates_loop h k n d).calls.length
      ∧ (updateOutletStates_loop h k n d).calls.length ≤ k
      ∧ ((updateOutletStates_loop h k n d).ret = 0
          ↔ ∀ p ∈ (updateOutletStates_loop h k n d).calls, 0 ≤ p.2)
      ∧ ((updateOutletStates_loop h k n d).ret = 0 →
          (updateOutletStates_loop h k n d).calls.length = k)
      ∧ ((updateOutletStates_loop h k n d).ret ≠ 0 →
          ∃ (init : List (Nat × Int)) (last : Nat × Int),
            (updateOutletStates_loop h k n d).calls = init ++ [last]
            ∧ last.2 = (updateOutletStates_loop h k n d).ret
            ∧ last.2 < 0
            ∧ ∀ p ∈ init, 0 ≤ p.2) := by
  intro k
  induction k with
  | zero => intro n d; simp [updateOutletStates_loop]
  | succ k ih =>
    intro n d
    obtain ⟨hA, hB, hC, hD, hE⟩ := ih (n + 1) (h.updateOutletState d n).2
    unfold updateOutletStates_loop
    by_cases hrv : (h.updateOutletState d n).1 < 0
    · simp only [hrv, if_true]
      refine ⟨by simp, by simp, ?_, ?_, ?_⟩
      · constructor
        · intro h0; omega
        · intro hall
          have := hall _ (List.mem_singleton_self _)
          simp only at this
          omega
      · intro h0; omega
      · intro _
        exact ⟨[], _, rfl, rfl, hrv, by simp⟩
    · simp only [hrv, if_false]
      refine ⟨?_, ?_, ?_, ?_, ?_⟩
      · simp [hA, List.range'_succ]
      · simp only [List.length_cons]; omega
      · constructor
        · intro h0 p hp
          rcases List.mem_cons.mp hp with rfl | hp
          · simp only; omega
          · exact hC.mp h0 p hp
        · intro hall
          exact hC.mpr (fun p hp => hall p (List.mem_cons_of_mem _ hp))
      · intro h0
        simp only [List.length_cons, hD h0]
      · intro hne
        obtain ⟨init, last, hcalls, hlast, hneg, hinit⟩ := hE hne
        refine ⟨_ :: init, last, by rw [hcalls]; rfl, hlast, hneg, ?_⟩
        intro p hp
        rcases List.mem_cons.mp hp with rfl | hp
        · simp only; omega
        · exact hinit p hp

/-- C7. The default `updateOutletStates` calls the hook `updateOutletState` for the indices
0, 1, 2, ... in increasing order, at most once for each index below the number of outlets.
It returns 0 exactly when every call returned a non-negative value, and then the hook was
called for every index below the number of outlets. Otherwise the last call made is the
first one that returned a negative value, and that value is returned. -/
theorem updateOutletStates_law {σ : Type} (h : Hooks σ) (c : outletController) (d : σ) :
    (updateOutletStates h c d).calls.map Prod.fst
        = List.range (updateOutletStates h c d).calls.length
    ∧ (updateOutletStates h c d).calls.length ≤ c.m_outletStates.length
    ∧ ((updateOutletStates h c d).ret = 0
        ↔ ∀ p ∈ (updateOutletStates h c d).calls, 0 ≤ p.2)
    ∧ ((updateOutletStates h c d).ret = 0 →
        (updateOutletStates h c d).calls.map Prod.fst = List.range c.m_outletStates.length)
    ∧ ((updateOutletStates h c d).ret ≠ 0 →
        ∃ (init : List (Nat × Int)) (last : Nat × Int),
          (updateOutletStates h c d).calls = init ++ [last]
          ∧ last.2 = (updateOutletStates h c d).ret
          ∧ last.2 < 0
          ∧ ∀ p ∈ init, 0 ≤ p.2) := by
  obtain ⟨hA, hB, hC, hD, hE⟩ := updateOutletStates_loop_law h c.m_outletStates.length 0 d
  unfold updateOutletStates
  refine ⟨?_, hB, hC, ?_, hE⟩
  · rw [hA, List.range_eq_range']
  · intro h0
    rw [hA, hD h0, List.range_eq_range']

/-- Witness of C7: with three outlets of which outlet 1 cannot be read, the hook is called
for outlets 0 and 1 only and the failure -3 is returned. -/
theorem updateOutletStates_law_witness :
    (updateOutletStates unreadableHooks { m_outletStates := [-1, -1, -1] } ()).ret = -3
    ∧ ∃ (init : List (Nat × Int)) (last : Nat × Int),
        (updateOutletStates unreadableHooks { m_outletStates := [-1, -1, -1] } ()).calls
          = init ++ [last]
        ∧ last.2 = (updateOutletStates unreadableHooks { m_outletStates := [-1, -1, -1] } ()).ret
        ∧ last.2 < 0
        ∧ ∀ p ∈ init, 0 ≤ p.2 :=
  ⟨by decide,
    (updateOutletStates_law unreadableHooks { m_outletStates := [-1, -1, -1] } ()).2.2.2.2
      (by decide)⟩

/-! ## Claims C8 and C9: loading the channel sections -/

/-- C8. `loadConfig` returns OUTLET_E_NOOUTLETS (-10) when there is no outlet, whatever the
sections are; else OUTLET_E_NOCHANNELS (-15) when there is no unused section; else
OUTLET_E_NOVALIDCH (-20) when no unused section has an `outlet` or `outlets` key; in these
three cases the controller, its channel map included, is unchanged. In every other case it
returns 0. -/
theorem loadConfig_rejections (c : outletController) (config : appConfigurator) :
    (c.m_outletStates.length = 0 → loadConfig c config = (OUTLET_E_NOOUTLETS, c))
    ∧ (c.m_outletStates.length ≠ 0 → config.unusedSections = [] →
        loadConfig c config = (OUTLET_E_NOCHANNELS, c))
    ∧ (c.m_outletStates.length ≠ 0 → config.unusedSections ≠ [] →
        (∀ s ∈ config.unusedSections,
          config.isSetUnused s "outlet" = false ∧ config.isSetUnused s "outlets" = false) →
        loadConfig c config = (OUTLET_E_NOVALIDCH, c))
    ∧ (c.m_outletStates.length ≠ 0 →
        (∃ s ∈ config.unusedSections,
          config.isSetUnused s "outlet" = true ∨ config.isSetUnused s "outlets" = true) →
        (loadConfig c config).1 = 0)
    ∧ OUTLET_E_NOOUTLETS = -10 ∧ OUTLET_E_NOCHANNELS = -15 ∧ OUTLET_E_NOVALIDCH = -20 := by
  refine ⟨?_, ?_, ?_, ?_, rfl, rfl, rfl⟩
  · intro h0
    simp [loadConfig, h0]
  · intro h0 hs
    simp [loadConfig, h0, hs]
  · intro h0 hs hall
    have hlen : config.unusedSections.length ≠ 0 := by
      intro hl
      exact hs (List.length_eq_zero.mp hl)
    have hfil : config.unusedSections.filter
        (fun s => config.isSetUnused s "outlet" || config.isSetUnused s "outlets") = [] := by
      rw [List.filter_eq_nil_iff]
      intro s hsm
      have := hall s hsm
      simp [this.1, this.2]
    simp [loadConfig, h0, hlen, hfil]
  · intro h0 hex
    obtain ⟨s, hsm, hset⟩ := hex
    have hlen : config.unusedSections.length ≠ 0 := by
      intro hl
      rw [List.length_eq_zero.mp hl] at hsm
      simp at hsm
    have hmem : s ∈ config.unusedSections.filter
        (fun s => config.isSetUnused s "outlet" || config.isSetUnused s "outlets") := by
      rw [List.mem_filter]
      refine ⟨hsm, ?_⟩
      rcases hset with h1 | h1 <;> simp [h1]
    have hfil : (config.unusedSections.filter
        (fun s => config.isSetUnused s "outlet" || config.isSetUnused s "outlets")).length ≠ 0 := by
      intro hl
      rw [List.length_eq_zero.mp hl] at hmem
      simp at hmem
    simp only [loadConfig, h0, hlen, hfil, if_false]

/-- Witness of C8: without outlets the documented configuration is rejected with -10 and no
channel is created. -/
theorem loadConfig_rejections_witness :
    loadConfig { m_outletStates := [] } sueConfig = (-10, { m_outletStates := [] }) :=
  (loadConfig_rejections { m_outletStates := [] } sueConfig).1 (by decide)

/-- C9 (the code at the failing input). With two outlets (indices 0 and 1), the
configuration whose section `sue` lists the outlets 4 and 5 is accepted: `loadConfig`
returns 0 and stores the channel, whose outlets are not indices of the outlet-state
vector. -/
theorem loadConfig_accepts_outlet_out_of_range :
    setNumberOfOutlets {} 2 = some (0, { m_outletStates := [-1, -1] })
    ∧ (loadConfig { m_outletStates := [-1, -1] } sueConfig).1 = 0
    ∧ (loadConfig { m_outletStates := [-1, -1] } sueConfig).2.m_channels = [("sue", sue)]
    ∧ outletState (loadConfig { m_outletStates := [-1, -1] } sueConfig).2 4 = none
    ∧ (channelState (loadConfig { m_outletStates := [-1, -1] } sueConfig).2 "sue").1 = none := by
  decide

/-! ## Claim C10: a name that is not a key of the channel map -/

theorem channelState_spec_default (states : List Int) :
    channelState_spec states {} = none := rfl

theorem turnChannelOn_spec_default {σ : Type} (h : Hooks σ) (d : σ) :
    turnChannelOn_spec h {} d = ⟨d, [], none⟩ := rfl

theorem turnChannelOff_spec_default {σ : Type} (h : Hooks σ) (d : σ) :
    turnChannelOff_spec h {} d = ⟨d, [], none⟩ := rfl

/-- C10 (amended). For a name that is not a key of the channel map, each channel accessor
returns an empty vector as a normal result, and `channelState`, `turnChannelOn` and
`turnChannelOff` issue no raw outlet command and leave the device state as it was, ending in
the read of element 0 of an empty vector; each of these operations inserts a default entry
under the name, so that `numChannels` grows by one. -/
theorem unknown_channel_inserts_default {σ : Type} (h : Hooks σ) (c : outletController)
    (channel : String) (d : σ)
    (hfind : c.m_channels.find channel = none) :
    channelOutlets c channel = ([], withDefaultEntry c channel)
    ∧ channelOnOrder c channel = ([], withDefaultEntry c channel)
    ∧ channelOffOrder c channel = ([], withDefaultEntry c channel)
    ∧ channelOnDelays c channel = ([], withDefaultEntry c channel)
    ∧ channelOffDelays c channel = ([], withDefaultEntry c channel)
    ∧ channelState c channel = (none, withDefaultEntry c channel)
    ∧ turnChannelOn h c channel d = (⟨d, [], none⟩, withDefaultEntry c channel)
    ∧ turnChannelOff h c channel d = (⟨d, [], none⟩, withDefaultEntry c channel)
    ∧ numChannels (withDefaultEntry c channel) = numChannels c + 1 := by
  have hs := subscript_of_not_find c.m_channels channel hfind
  refine ⟨?_, ?_, ?_, ?_, ?_, ?_, ?_, ?_, ?_⟩
  · simp only [channelOutlets, hs, withDefaultEntry]
  · simp only [channelOnOrder, hs, withDefaultEntry]
  · simp only [channelOffOrder, hs, withDefaultEntry]
  · simp only [channelOnDelays, hs, withDefaultEntry]
  · simp only [channelOffDelays, hs, withDefaultEntry]
  · simp only [channelState, hs, withDefaultEntry, channelState_spec_default]
  · simp only [turnChannelOn, hs, withDefaultEntry, turnChannelOn_spec_default]
  · simp only [turnChannelOff, hs, withDefaultEntry, turnChannelOff_spec_default]
  · simp [numChannels, withDefaultEntry]

/-- Witness of C10 (amended): `bob` is not a channel of the controller with the channel
`sue`; asking for its outlets returns the empty vector and adds the entry `bob`. -/
theorem unknown_channel_inserts_default_witness :
    channelOutlets sueController "bob"
      = ([], { sueController with m_channels := [("sue", sue), ("bob", {})] }) :=
  (unknown_channel_inserts_default okHooks sueController "bob" () (by decide)).1

/-- Counterexample to C10 as stated: `bob` is not a key of the channel map, yet
`channelOutlets` returns a normal result (the empty vector) and the channel map and
`numChannels` change. -/
theorem unknown_channel_counterexample :
    sueController.m_channels.find "bob" = none
    ∧ (channelOutlets sueController "bob").1 = []
    ∧ (channelOutlets sueController "bob").2.m_channels ≠ sueController.m_channels
    ∧ numChannels sueController = 1
    ∧ numChannels (channelOutlets sueController "bob").2 = 2 := by
  decide

/-! ## The stage registry: lemmas -/

theorem IndexMap.find_append_single {κ : Type} [DecidableEq κ] (m : IndexMap κ) (k key : κ)
    (v : Nat) :
    IndexMap.find (m ++ [(k, v)]) key
      = match IndexMap.find m key with
        | some x => some x
        | none => if k = key then some v else none := by
  induction m with
  | nil => simp [IndexMap.find]
  | cons e t ih =>
    obtain ⟨k0, v0⟩ := e
    simp only [List.cons_append, IndexMap.find]
    split
    · rfl
    · exact ih

theorem IndexMap.find_insert_of_some {κ : Type} [DecidableEq κ] (m : IndexMap κ) (k key : κ)
    (v x : Nat) (h : IndexMap.find m key = some x) :
    IndexMap.find (IndexMap.insert m k v) key = some x := by
  unfold IndexMap.insert
  split
  · exact h
  · rw [IndexMap.find_append_single, h]

theorem IndexMap.find_insert_self {κ : Type} [DecidableEq κ] (m : IndexMap κ) (k : κ)
    (v : Nat) (h : IndexMap.find m k = none) :
    IndexMap.find (IndexMap.insert m k v) k = some v := by
  unfold IndexMap.insert
  rw [h]
  simp [IndexMap.find_append_single, h]

theorem IndexMap.find_ne_none_iff {κ : Type} [DecidableEq κ] (m : IndexMap κ) (key : κ) :
    IndexMap.find m key ≠ none ↔ key ∈ m.map Prod.fst := by
  induction m with
  | nil => simp [IndexMap.find]
  | cons e t ih =>
    obtain ⟨k0, v0⟩ := e
    simp only [IndexMap.find, List.map_cons, List.mem_cons]
    by_cases hk : k0 = key
    · simp [hk]
    · simp only [hk, if_false, ih]
      constructor
      · intro h; exact Or.inr h
      · intro h
        rcases h with h | h
        · exact absurd h.symm hk
        · exact h

theorem IndexMap.mem_of_find {κ : Type} [DecidableEq κ] (m : IndexMap κ) (key : κ) (v : Nat)
    (h : IndexMap.find m key = some v) : (key, v) ∈ m := by
  induction m with
  | nil => simp [IndexMap.find] at h
  | cons e t ih =>
    obtain ⟨k0, v0⟩ := e
    simp only [IndexMap.find] at h
    by_cases hk : k0 = key
    · simp only [hk, if_true, Option.some.injEq] at h
      subst hk; subst h
      exact List.mem_cons_self _ _
    · simp only [hk, if_false] at h
      exact List.mem_cons_of_mem _ (ih h)

theorem IndexMap.mem_insert {κ : Type} [DecidableEq κ] (m : IndexMap κ) (k : κ) (v : Nat)
    (p : κ × Nat) (h : p ∈ IndexMap.insert m k v) :
    p ∈ m ∨ (p = (k, v) ∧ IndexMap.find m k = none) := by
  unfold IndexMap.insert at h
  split at h
  · exact Or.inl h
  · rename_i hnone
    rcases List.mem_append.mp h with h | h
    · exact Or.inl h
    · exact Or.inr ⟨List.mem_singleton.mp h, hnone⟩

theorem IndexMap.keys_insert {κ : Type} [DecidableEq κ] (m : IndexMap κ) (k key : κ) (v : Nat) :
    key ∈ (IndexMap.insert m k v).map Prod.fst ↔ key ∈ m.map Prod.fst ∨ key = k := by
  unfold IndexMap.insert
  split
  · rename_i x hx
    have hk : k ∈ m.map Prod.fst := (IndexMap.find_ne_none_iff m k).mp (by rw [hx]; simp)
    constructor
    · intro h; exact Or.inl h
    · intro h
      rcases h with h | h
      · exact h
      · rw [h]; exact hk
  · simp

theorem loadStages_pair_cases (z z1 : zaberLowLevel) (p : Int × String)
    (h : zaberLowLevel.loadStages_pair z p = some z1) :
    (z.m_stageSerial.find p.2 = none ∧ z1 = z)
    ∨ ∃ (i : Nat) (st : zaberStage), z.m_stageSerial.find p.2 = some i
        ∧ z.m_stages[i]? = some st
        ∧ z1 = { z with
            m_stages := z.m_stages.set i { st with m_deviceAddress := p.1 }
            m_stageAddress := z.m_stageAddress.insert p.1 i } := by
  unfold zaberLowLevel.loadStages_pair at h
  cases hf : z.m_stageSerial.find p.2 with
  | none =>
    rw [hf] at h
    exact Or.inl ⟨rfl, (Option.some.inj h).symm⟩
  | some i =>
    simp only [hf] at h
    cases hs : z.m_stages[i]? with
    | none => simp [hs] at h
    | some st =>
      simp only [hs, Option.some.injEq] at h
      exact Or.inr ⟨i, st, rfl, hs, h.symm⟩

/-- The loop of `loadStages` leaves the serial index, the name index, the state and the
port as they are, and the keys of the address index afterwards are the keys before
together with the addresses of the pairs whose serial is configured. -/
theorem loadStages_loop_keys :
    ∀ (ps : List (Int × String)) (z z1 : zaberLowLevel),
      zaberLowLevel.loadStages_loop z ps = some z1 →
      z1.m_stageSerial = z.m_stageSerial ∧ z1.m_stageName = z.m_stageName
      ∧ z1.m_state = z.m_state ∧ z1.m_port = z.m_port
      ∧ ∀ a : Int, a ∈ z1.m_stageAddress.map Prod.fst ↔
          (a ∈ z.m_stageAddress.map Prod.fst
            ∨ ∃ s, (a, s) ∈ ps ∧ z.m_stageSerial.find s ≠ none) := by
  intro ps
  induction ps with
  | nil =>
    intro z z1 h
    simp only [zaberLowLevel.loadStages_loop, Option.some.injEq] at h
    subst h
    simp
  | cons p rest ih =>
    intro z z1 h
    simp only [zaberLowLevel.loadStages_loop] at h
    cases hp : zaberLowLevel.loadStages_pair z p with
    | none => rw [hp] at h; simp at h
    | some z' =>
      rw [hp] at h
      obtain ⟨hS, hN, hSt, hP, hK⟩ := ih z' z1 h
      rcases loadStages_pair_cases z z' p hp with ⟨hnone, hz⟩ | ⟨i, st, hfind, _, hz⟩
      · subst hz
        refine ⟨hS, hN, hSt, hP, ?_⟩
        intro a
        rw [hK a]
        constructor
        · rintro (h1 | ⟨s, hs, hc⟩)
          · exact Or.inl h1
          · exact Or.inr ⟨s, List.mem_cons_of_mem _ hs, hc⟩
        · rintro (h1 | ⟨s, hs, hc⟩)
          · exact Or.inl h1
          · rcases List.mem_cons.mp hs with heq | hs
            · exfalso
              apply hc
              rw [← hnone, ← heq]
            · exact Or.inr ⟨s, hs, hc⟩
      · subst hz
        simp only at hS hN hSt hP hK
        refine ⟨hS, hN, hSt, hP, ?_⟩
        intro a
        rw [hK a, IndexMap.keys_insert]
        constructor
        · rintro ((h1 | h1) | ⟨s, hs, hc⟩)
          · exact Or.inl h1
          · refine Or.inr ⟨p.2, ?_, ?_⟩
            · rw [h1]; exact List.mem_cons_self _ _
            · rw [hfind]; simp
          · exact Or.inr ⟨s, List.mem_cons_of_mem _ hs, hc⟩
        · rintro (h1 | ⟨s, hs, hc⟩)
          · exact Or.inl (Or.inl h1)
          · rcases List.mem_cons.mp hs with heq | hs
            · refine Or.inl (Or.inr ?_)
              rw [← heq]
            · exact Or.inr ⟨s, hs, hc⟩

theorem loadStages_connected (parse : String → Int × List (Int × String))
    (z z1 : zaberLowLevel) (serialRes : String)
    (h : zaberLowLevel.loadStages parse z serialRes = some (ZC_CONNECTED, z1)) :
    zaberLowLevel.loadStages_loop { z with m_stageAddress := [] } (parse serialRes).2 = some z1 := by
  unfold zaberLowLevel.loadStages at h
  split at h
  · simp [ZC_ERROR, ZC_CONNECTED] at h
  · cases hl : zaberLowLevel.loadStages_loop { z with m_stageAddress := [] } (parse serialRes).2 with
    | none => simp [hl] at h
    | some z' =>
      simp only [hl, Option.some.injEq, Prod.mk.injEq, true_and] at h
      rw [h]

theorem loadStages_pair_step (z : zaberLowLevel) (p : Int × String)
    (rest : List (Int × String))
    (hS : SerialIndexSound z) (hN : NameIndexSound z)
    (hB : AddressIndexBound z (p :: rest))
    (hD : ∀ q ∈ rest, z.m_stageSerial.find p.2 ≠ none → p.2 ≠ q.2) :
    ∃ z1, zaberLowLevel.loadStages_pair z p = some z1
      ∧ z1.m_stageSerial = z.m_stageSerial
      ∧ SerialIndexSound z1 ∧ NameIndexSound z1 ∧ AddressIndexBound z1 rest := by
  cases hf : z.m_stageSerial.find p.2 with
  | none =>
    refine ⟨z, by simp [zaberLowLevel.loadStages_pair, hf], rfl, hS, hN, ?_⟩
    intro a i hai
    exact ⟨(hB a i hai).1, fun q hq => (hB a i hai).2 q (List.mem_cons_of_mem _ hq)⟩
  | some i =>
    obtain ⟨st, hst, hser⟩ := hS p.2 i hf
    have hlt : i < z.m_stages.length := by
      by_contra hge
      rw [List.getElem?_eq_none (by omega)] at hst
      simp at hst
    refine ⟨{ z with
        m_stages := z.m_stages.set i { st with m_deviceAddress := p.1 }
        m_stageAddress := z.m_stageAddress.insert p.1 i }, ?_, rfl, ?_, ?_, ?_⟩
    · simp [zaberLowLevel.loadStages_pair, hf, hst]
    · intro s j hsj
      obtain ⟨st', hst', hser'⟩ := hS s j hsj
      by_cases hji : i = j
      · subst hji
        rw [hst] at hst'
        refine ⟨{ st with m_deviceAddress := p.1 }, ?_, ?_⟩
        · simp only
          rw [List.getElem?_set_self hlt]
        · rw [← hser', ← Option.some.inj hst']
      · refine ⟨st', ?_, hser'⟩
        simp only
        rw [List.getElem?_set_ne hji]
        exact hst'
    · intro s j st' hsj hj
      simp only at hsj hj ⊢
      by_cases hji : i = j
      · subst hji
        rw [List.getElem?_set_self hlt] at hj
        rw [← Option.some.inj hj]
        exact hN s i st hsj hst
      · rw [List.getElem?_set_ne hji] at hj
        exact hN s j st' hsj hj
    · intro a j haj
      simp only at haj ⊢
      rcases IndexMap.mem_insert _ _ _ _ haj with hold | ⟨hnew, _⟩
      · obtain ⟨⟨st', hst', haddr, hfind'⟩, hrest⟩ := hB a j hold
        have hji : i ≠ j := by
          intro e
          apply hrest p (List.mem_cons_self _ _)
          rw [hf, e]
        refine ⟨⟨st', ?_, haddr, hfind'⟩, fun q hq => hrest q (List.mem_cons_of_mem _ hq)⟩
        rw [List.getElem?_set_ne hji]
        exact hst'
      · simp only [Prod.mk.injEq] at hnew
        obtain ⟨ha, hj⟩ := hnew
        subst ha; subst hj
        refine ⟨⟨{ st with m_deviceAddress := p.1 }, ?_, rfl, ?_⟩, ?_⟩
        · rw [List.getElem?_set_self hlt]
        · simp only
          rw [hser, hf]
        · intro q hq hqi
          obtain ⟨st', hst', hser'⟩ := hS q.2 j hqi
          rw [hst] at hst'
          have h1 : st.m_serial = q.2 := by rw [Option.some.inj hst']; exact hser'
          exact hD q hq (by rw [hf]; simp) (by rw [← hser, h1])

theorem loadStages_loop_sound :
    ∀ (ps : List (Int × String)) (z : zaberLowLevel),
      SerialIndexSound z → NameIndexSound z → AddressIndexBound z ps → SerialsDistinct z ps →
      ∃ z1, zaberLowLevel.loadStages_loop z ps = some z1
        ∧ SerialIndexSound z1 ∧ NameIndexSound z1 ∧ AddressIndexBound z1 [] := by
  intro ps
  induction ps with
  | nil =>
    intro z hS hN hB _
    exact ⟨z, rfl, hS, hN, hB⟩
  | cons p rest ih =>
    intro z hS hN hB hD
    unfold SerialsDistinct at hD
    rw [List.pairwise_cons] at hD
    obtain ⟨z', hp, hser, hS', hN', hB'⟩ := loadStages_pair_step z p rest hS hN hB hD.1
    have hD' : SerialsDistinct z' rest := by
      unfold SerialsDistinct
      rw [hser]
      exact hD.2
    obtain ⟨z1, hl, hS1, hN1, hB1⟩ := ih z' hS' hN' hB' hD'
    refine ⟨z1, ?_, hS1, hN1, hB1⟩
    simp only [zaberLowLevel.loadStages_loop, hp]
    exact hl

theorem loadStages_loop_append :
    ∀ (pre rest : List (Int × String)) (z : zaberLowLevel),
      zaberLowLevel.loadStages_loop z (pre ++ rest)
        = match zaberLowLevel.loadStages_loop z pre with
          | none => none
          | some z1 => zaberLowLevel.loadStages_loop z1 rest := by
  intro pre
  induction pre with
  | nil => intro rest z; rfl
  | cons p t ih =>
    intro rest z
    simp only [List.cons_append, zaberLowLevel.loadStages_loop]
    cases zaberLowLevel.loadStages_pair z p with
    | none => rfl
    | some z' => exact ih rest z'

theorem loadStages_pair_serialSound (z z1 : zaberLowLevel) (p : Int × String)
    (h : zaberLowLevel.loadStages_pair z p = some z1) (hS : SerialIndexSound z) :
    SerialIndexSound z1 := by
  rcases loadStages_pair_cases z z1 p h with ⟨_, hz⟩ | ⟨i, st, _, hst, hz⟩
  · rw [hz]; exact hS
  · subst hz
    have hlt : i < z.m_stages.length := by
      by_contra hge
      rw [List.getElem?_eq_none (by omega)] at hst
      simp at hst
    intro s j hsj
    obtain ⟨st', hst', hser'⟩ := hS s j hsj
    by_cases hji : i = j
    · subst hji
      rw [hst] at hst'
      refine ⟨{ st with m_deviceAddress := p.1 }, ?_, ?_⟩
      · simp only
        rw [List.getElem?_set_self hlt]
      · rw [← hser', ← Option.some.inj hst']
    · refine ⟨st', ?_, hser'⟩
      simp only
      rw [List.getElem?_set_ne hji]
      exact hst'

theorem loadStages_loop_serialSound :
    ∀ (ps : List (Int × String)) (z z1 : zaberLowLevel),
      zaberLowLevel.loadStages_loop z ps = some z1 → SerialIndexSound z → SerialIndexSound z1 := by
  intro ps
  induction ps with
  | nil =>
    intro z z1 h hS
    simp only [zaberLowLevel.loadStages_loop, Option.some.injEq] at h
    rw [← h]; exact hS
  | cons p rest ih =>
    intro z z1 h hS
    simp only [zaberLowLevel.loadStages_loop] at h
    cases hp : zaberLowLevel.loadStages_pair z p with
    | none => simp [hp] at h
    | some z' =>
      simp only [hp] at h
      exact ih z' z1 h (loadStages_pair_serialSound z z' p hp hS)

/-- An entry of the address index and the stage it names survive the pairs that carry no
serial of that stage. -/
theorem loadStages_loop_keeps :
    ∀ (ps : List (Int × String)) (z z1 : zaberLowLevel) (a : Int) (i : Nat) (st : zaberStage),
      zaberLowLevel.loadStages_loop z ps = some z1 →
      z.m_stageAddress.find a = some i → z.m_stages[i]? = some st →
      (∀ q ∈ ps, z.m_stageSerial.find q.2 ≠ some i) →
      z1.m_stageAddress.find a = some i ∧ z1.m_stages[i]? = some st := by
  intro ps
  induction ps with
  | nil =>
    intro z z1 a i st h ha hst _
    simp only [zaberLowLevel.loadStages_loop, Option.some.injEq] at h
    rw [← h]; exact ⟨ha, hst⟩
  | cons p rest ih =>
    intro z z1 a i st h ha hst hq
    simp only [zaberLowLevel.loadStages_loop] at h
    cases hp : zaberLowLevel.loadStages_pair z p with
    | none => simp [hp] at h
    | some z' =>
      simp only [hp] at h
      rcases loadStages_pair_cases z z' p hp with ⟨_, hz⟩ | ⟨j, st', hfj, _, hz⟩
      · subst hz
        exact ih z' z1 a i st h ha hst (fun q hqm => hq q (List.mem_cons_of_mem _ hqm))
      · subst hz
        have hji : j ≠ i := by
          intro e
          apply hq p (List.mem_cons_self _ _)
          rw [hfj, e]
        refine ih _ z1 a i st h ?_ ?_ (fun q hqm => hq q (List.mem_cons_of_mem _ hqm))
        · exact IndexMap.find_insert_of_some _ _ _ _ _ ha
        · simp only
          rw [List.getElem?_set_ne hji]
          exact hst

/-! ## Claim C11: the address index is rebuilt -/

theorem loadStages_address_keys (parse : String → Int × List (Int × String))
    (z z1 : zaberLowLevel) (serialRes : String)
    (h : zaberLowLevel.loadStages parse z serialRes = some (ZC_CONNECTED, z1)) :
    z1.m_stageSerial = z.m_stageSerial
    ∧ ∀ a : Int, a ∈ z1.m_stageAddress.map Prod.fst ↔
        ∃ s, (a, s) ∈ (parse serialRes).2 ∧ z.m_stageSerial.find s ≠ none := by
  have hl := loadStages_connected parse z z1 serialRes h
  obtain ⟨hS, _, _, _, hK⟩ := loadStages_loop_keys _ _ _ hl
  refine ⟨hS, ?_⟩
  intro a
  rw [hK a]
  simp

/-- C11. After two consecutive successful discovery cycles (calls of `loadStages` that
return ZC_CONNECTED), every key of the address index is an address parsed from the second
payload; so, when the two payloads have disjoint address sets, the address index holds no
address of the first cycle. -/
theorem loadStages_address_index_rebuilt (parse : String → Int × List (Int × String))
    (z z1 z2 : zaberLowLevel) (first second : String)
    (h1 : zaberLowLevel.loadStages parse z first = some (ZC_CONNECTED, z1))
    (h2 : zaberLowLevel.loadStages parse z1 second = some (ZC_CONNECTED, z2)) :
    (∀ a ∈ z2.m_stageAddress.map Prod.fst, a ∈ (parse second).2.map Prod.fst)
    ∧ ((∀ a ∈ (parse first).2.map Prod.fst, a ∉ (parse second).2.map Prod.fst) →
        ∀ a ∈ (parse first).2.map Prod.fst,
          a ∉ z2.m_stageAddress.map Prod.fst ∧ z2.m_stageAddress.find a = none) := by
  have _ := h1
  have hk := (loadStages_address_keys parse z1 z2 second h2).2
  have hsub : ∀ a ∈ z2.m_stageAddress.map Prod.fst, a ∈ (parse second).2.map Prod.fst := by
    intro a ha
    obtain ⟨s, hs, _⟩ := (hk a).mp ha
    exact List.mem_map.mpr ⟨(a, s), hs, rfl⟩
  refine ⟨hsub, ?_⟩
  intro hdisj a ha
  have hnot : a ∉ z2.m_stageAddress.map Prod.fst := fun hin => hdisj a ha (hsub a hin)
  refine ⟨hnot, ?_⟩
  by_contra hne
  exact hnot ((IndexMap.find_ne_none_iff _ a).mp hne)

/-- Witness of C11: stage `foo` is found at address 1, then at address 2; address 1 is no
key of the address index after the second cycle. -/
theorem loadStages_address_index_rebuilt_witness :
    (1 : Int) ∉ fooAfterSecond.m_stageAddress.map Prod.fst
      ∧ fooAfterSecond.m_stageAddress.find 1 = none :=
  (loadStages_address_index_rebuilt exampleParser fooRegistry fooAfterFirst fooAfterSecond
    "first" "second" (by decide) (by decide)).2 (by decide) 1 (by decide)

/-! ## Claims C12 and C13: binding and consistency of the indices -/

theorem IndexMap.find_insert_cases {κ : Type} [DecidableEq κ] (m : IndexMap κ) (k key : κ)
    (v x : Nat) (h : IndexMap.find (IndexMap.insert m k v) key = some x) :
    IndexMap.find m key = some x ∨ (key = k ∧ x = v ∧ IndexMap.find m k = none) := by
  unfold IndexMap.insert at h
  split at h
  · exact Or.inl h
  · rename_i hnone
    rw [IndexMap.find_append_single] at h
    cases hf : IndexMap.find m key with
    | some y =>
      rw [hf] at h
      exact Or.inl h
    | none =>
      rw [hf] at h
      simp only at h
      by_cases hk : k = key
      · simp only [hk, if_true, Option.some.injEq] at h
        exact Or.inr ⟨hk.symm, h.symm, hnone⟩
      · simp [hk] at h

theorem loadConfig_section_sound (config : appConfigurator) (stage0 : zaberStage)
    (z : zaberLowLevel) (name : String)
    (hS : SerialIndexSound z) (hN : NameIndexSound z)
    (hK : ∀ n, z.m_stageName.find n ≠ none →
      z.m_stageSerial.find (config.configUnusedString n "serial") ≠ none) :
    SerialIndexSound (zaberLowLevel.loadConfig_section config stage0 z name)
    ∧ NameIndexSound (zaberLowLevel.loadConfig_section config stage0 z name)
    ∧ (∀ n, (zaberLowLevel.loadConfig_section config stage0 z name).m_stageName.find n ≠ none →
        (zaberLowLevel.loadConfig_section config stage0 z name).m_stageSerial.find
          (config.configUnusedString n "serial") ≠ none)
    ∧ (zaberLowLevel.loadConfig_section config stage0 z name).m_stageAddress = z.m_stageAddress := by
  have hlt_of : ∀ s i, z.m_stageSerial.find s = some i → i < z.m_stages.length := by
    intro s i hsi
    obtain ⟨st, hst, _⟩ := hS s i hsi
    by_contra hge
    rw [List.getElem?_eq_none (by omega)] at hst
    simp at hst
  unfold zaberLowLevel.loadConfig_section
  split
  · simp only
    refine ⟨?_, ?_, ?_, trivial⟩
    · intro s i hsi
      rcases IndexMap.find_insert_cases _ _ _ _ _ hsi with hold | ⟨hk, hx, _⟩
      · obtain ⟨st, hst, hser⟩ := hS s i hold
        refine ⟨st, ?_, hser⟩
        rw [List.getElem?_append_left (hlt_of s i hold)]
        exact hst
      · subst hk; subst hx
        exact ⟨{ stage0 with m_name := name,
                             m_serial := config.configUnusedString name "serial" },
          by simp, rfl⟩
    · intro s i st hsi hst
      rcases IndexMap.find_insert_cases _ _ _ _ _ hsi with hold | ⟨hk, hx, hnone⟩
      · rw [List.getElem?_append_left (hlt_of s i hold)] at hst
        exact IndexMap.find_insert_of_some _ _ _ _ _ (hN s i st hold hst)
      · subst hx
        simp only [List.getElem?_concat_length, Option.some.injEq] at hst
        subst hst
        simp only
        have hname : z.m_stageName.find name = none := by
          by_contra hne
          exact hK name hne hnone
        exact IndexMap.find_insert_self _ _ _ hname
    · intro n hn
      by_cases hold : z.m_stageName.find n = none
      · have hn2 : n = name := by
          cases hf : IndexMap.find (IndexMap.insert z.m_stageName name z.m_stages.length) n with
          | none => exact absurd hf hn
          | some x =>
            rcases IndexMap.find_insert_cases _ _ _ _ _ hf with h1 | ⟨h1, _, _⟩
            · rw [hold] at h1; simp at h1
            · exact h1
        subst hn2
        cases hs : z.m_stageSerial.find (config.configUnusedString n "serial") with
        | none =>
          rw [IndexMap.find_insert_self _ _ _ hs]
          simp
        | some x =>
          rw [IndexMap.find_insert_of_some _ _ _ _ _ hs]
          simp
      · have hser := hK n hold
        cases hs : z.m_stageSerial.find (config.configUnusedString n "serial") with
        | none => exact absurd hs hser
        | some x =>
          rw [IndexMap.find_insert_of_some _ _ _ _ _ hs]
          simp
  · exact ⟨hS, hN, hK, rfl⟩

theorem loadConfig_fold_sound (config : appConfigurator) (stage0 : zaberStage) :
    ∀ (sections : List String) (z : zaberLowLevel),
      SerialIndexSound z → NameIndexSound z →
      (∀ n, z.m_stageName.find n ≠ none →
        z.m_stageSerial.find (config.configUnusedString n "serial") ≠ none) →
      SerialIndexSound (sections.foldl (zaberLowLevel.loadConfig_section config stage0) z)
      ∧ NameIndexSound (sections.foldl (zaberLowLevel.loadConfig_section config stage0) z)
      ∧ (sections.foldl (zaberLowLevel.loadConfig_section config stage0) z).m_stageAddress
          = z.m_stageAddress := by
  intro sections
  induction sections with
  | nil => intro z hS hN _; exact ⟨hS, hN, rfl⟩
  | cons name rest ih =>
    intro z hS hN hK
    obtain ⟨hS1, hN1, hK1, hA1⟩ := loadConfig_section_sound config stage0 z name hS hN hK
    obtain ⟨hS2, hN2, hA2⟩ := ih _ hS1 hN1 hK1
    exact ⟨hS2, hN2, by rw [List.foldl_cons, hA2, hA1]⟩

theorem loadConfig_sound (config : appConfigurator) (stage0 : zaberStage) :
    SerialIndexSound (zaberLowLevel.loadConfig config stage0 {})
    ∧ NameIndexSound (zaberLowLevel.loadConfig config stage0 {})
    ∧ (zaberLowLevel.loadConfig config stage0 {}).m_stageAddress = [] := by
  have hS0 : SerialIndexSound {} := by
    intro s i h
    simp [IndexMap.find] at h
  have hN0 : NameIndexSound {} := by
    intro s i st h
    simp [IndexMap.find] at h
  unfold zaberLowLevel.loadConfig
  split
  · exact ⟨hS0, hN0, rfl⟩
  · exact loadConfig_fold_sound config stage0 _ {} hS0 hN0
      (fun n hn => absurd (rfl : IndexMap.find ([] : IndexMap String) n = none) hn)

theorem registryConsistent_of_bound (z : zaberLowLevel) (hN : NameIndexSound z)
    (hB : AddressIndexBound z []) : RegistryConsistent z := by
  intro a i hai
  obtain ⟨⟨st, hst, haddr, hser⟩, _⟩ := hB a i hai
  exact ⟨st, hst, haddr, hser, hN st.m_serial i st hser hst⟩

/-- C12 (amended). After `loadStages` succeeds on the parsed pairs: an address is a key of
the address index exactly when some parsed pair with that address has a configured serial;
a pair whose serial is not configured leaves the registry as it is; and for a pair (a, s)
with s configured, where neither a nor s occurs in another pair of the payload, the address
index maps a to the stage index that the serial index gives for s, and the bus address of
that stage is a. -/
theorem loadStages_binding (parse : String → Int × List (Int × String))
    (z z1 : zaberLowLevel) (serialRes : String)
    (hS : SerialIndexSound z)
    (h : zaberLowLevel.loadStages parse z serialRes = some (ZC_CONNECTED, z1)) :
    (∀ a : Int, a ∈ z1.m_stageAddress.map Prod.fst ↔
        ∃ s, (a, s) ∈ (parse serialRes).2 ∧ z.m_stageSerial.find s ≠ none)
    ∧ (∀ (y : zaberLowLevel) (p : Int × String), y.m_stageSerial.find p.2 = none →
        zaberLowLevel.loadStages_pair y p = some y)
    ∧ (∀ (a : Int) (s : String) (i : Nat) (pre post : List (Int × String)),
        (parse serialRes).2 = pre ++ (a, s) :: post →
        a ∉ (pre ++ post).map Prod.fst → s ∉ (pre ++ post).map Prod.snd →
        z.m_stageSerial.find s = some i →
        z1.m_stageAddress.find a = some i
          ∧ ∃ st, z1.m_stages[i]? = some st ∧ st.m_deviceAddress = a) := by
  refine ⟨(loadStages_address_keys parse z z1 serialRes h).2, ?_, ?_⟩
  · intro y p hy
    simp [zaberLowLevel.loadStages_pair, hy]
  · intro a s i pre post hpairs ha hs hfind
    have hl := loadStages_connected parse z z1 serialRes h
    rw [hpairs, loadStages_loop_append] at hl
    cases hpre : zaberLowLevel.loadStages_loop { z with m_stageAddress := [] } pre with
    | none => simp [hpre] at hl
    | some zp =>
      simp only [hpre, zaberLowLevel.loadStages_loop] at hl
      obtain ⟨hSp, _, _, _, hKp⟩ := loadStages_loop_keys _ _ _ hpre
      simp only at hSp hKp
      cases hpair : zaberLowLevel.loadStages_pair zp (a, s) with
      | none => simp [hpair] at hl
      | some zq =>
        simp only [hpair] at hl
        have hnokey : zp.m_stageAddress.find a = none := by
          by_contra hne
          have hin := (hKp a).mp ((IndexMap.find_ne_none_iff _ a).mp hne)
          rcases hin with hin | ⟨s', hs', _⟩
          · simp at hin
          · apply ha
            rw [List.map_append, List.mem_append]
            exact Or.inl (List.mem_map.mpr ⟨(a, s'), hs', rfl⟩)
        rcases loadStages_pair_cases zp zq (a, s) hpair with ⟨hnone, _⟩ | ⟨j, st, hfj, hst, hz⟩
        · simp only at hnone
          rw [hSp, hfind] at hnone
          simp at hnone
        · simp only at hfj
          rw [hSp, hfind] at hfj
          have hij : i = j := Option.some.inj hfj
          subst hij
          have hlt : i < zp.m_stages.length := by
            by_contra hge
            rw [List.getElem?_eq_none (by omega)] at hst
            simp at hst
          have hkeep := loadStages_loop_keeps post zq z1 a i { st with m_deviceAddress := a } hl
            (by rw [hz]; exact IndexMap.find_insert_self _ _ _ hnokey)
            (by rw [hz]; simp only; rw [List.getElem?_set_self hlt])
            (by
              intro q hq hqi
              have hzq : zq.m_stageSerial = z.m_stageSerial := by rw [hz]; exact hSp
              rw [hzq] at hqi
              obtain ⟨st1, hst1, hser1⟩ := hS q.2 i hqi
              obtain ⟨st2, hst2, hser2⟩ := hS s i hfind
              rw [hst1] at hst2
              have heq : q.2 = s := by
                rw [← hser1, ← hser2, Option.some.inj hst2]
              apply hs
              rw [List.map_append, List.mem_append]
              exact Or.inr (List.mem_map.mpr ⟨q, hq, heq⟩))
          exact ⟨hkeep.1, _, hkeep.2, rfl⟩

/-- Witness of C12 (amended), scenario D: the pairs (1, S1), (2, S2) with only S1 configured,
as stage `foo`, bind address 1 to stage `foo` and set the bus address of `foo` to 1. -/
theorem loadStages_binding_witness :
    fooAfterFirst.m_stageAddress.find 1 = some 0
      ∧ ∃ st, fooAfterFirst.m_stages[0]? = some st ∧ st.m_deviceAddress = 1 :=
  (loadStages_binding exampleParser fooRegistry fooAfterFirst "scenario D"
    (loadConfig_sound fooConfig ⟨"", "", -1⟩).1 (by decide)).2.2
    1 "S1" 0 [] [(2, "S2")] (by decide) (by decide) (by decide) (by decide)

/-- Counterexample to C12 as stated: the payload reports the configured serial S1 at the
addresses 1 and 2. For the pair (1, S1) the address 1 is not repeated and the address index
maps 1 to stage `foo` (index 0), yet the bus address stored in `foo` is 2. -/
theorem loadStages_binding_counterexample :
    (exampleParser "twice").2 = [(1, "S1"), (2, "S1")]
    ∧ fooRegistry.m_stageSerial.find "S1" = some 0
    ∧ zaberLowLevel.loadStages exampleParser fooRegistry "twice"
        = some (ZC_CONNECTED, fooAfterTwice)
    ∧ fooAfterTwice.m_stageAddress.find 1 = some 0
    ∧ (fooAfterTwice.m_stages[0]?).map (fun st => st.m_deviceAddress) = some 2 := by
  decide

/-- C13 (amended). After `loadConfig` the serial index and the name index are sound and
the address index is consistent with them; and from any registry
with sound serial and name indices, `loadStages` on a payload that parses and in which no
configured serial occurs in more than one pair succeeds, keeps the serial index and the name
index, and leaves the three indices mutually consistent: every entry (a, i) of the address
index names a stage i whose bus address is a and whose serial and name are mapped back to i
by the serial index and the name index. An address may occur more than once. -/
theorem registry_consistent (config : appConfigurator) (stage0 : zaberStage)
    (parse : String → Int × List (Int × String)) :
    SerialIndexSound (zaberLowLevel.loadConfig config stage0 {})
    ∧ NameIndexSound (zaberLowLevel.loadConfig config stage0 {})
    ∧ RegistryConsistent (zaberLowLevel.loadConfig config stage0 {})
    ∧ ∀ (z : zaberLowLevel) (serialRes : String),
        SerialIndexSound z → NameIndexSound z →
        ¬ (parse serialRes).1 < 0 → SerialsDistinct z (parse serialRes).2 →
        ∃ z1, zaberLowLevel.loadStages parse z serialRes = some (ZC_CONNECTED, z1)
          ∧ z1.m_stageSerial = z.m_stageSerial ∧ z1.m_stageName = z.m_stageName
          ∧ SerialIndexSound z1 ∧ NameIndexSound z1 ∧ RegistryConsistent z1 := by
  obtain ⟨hS0, hN0, hA0⟩ := loadConfig_sound config stage0
  refine ⟨hS0, hN0, ?_, ?_⟩
  · intro a i hai
    rw [hA0] at hai
    simp at hai
  · intro z serialRes hS hN hrv hD
    have hB : AddressIndexBound { z with m_stageAddress := [] } (parse serialRes).2 := by
      intro a i hai
      simp at hai
    obtain ⟨z1, hl, hS1, hN1, hB1⟩ :=
      loadStages_loop_sound (parse serialRes).2 { z with m_stageAddress := [] } hS hN hB hD
    obtain ⟨hser, hname, _, _, _⟩ := loadStages_loop_keys _ _ _ hl
    refine ⟨z1, ?_, hser, hname, hS1, hN1, registryConsistent_of_bound z1 hN1 hB1⟩
    simp [zaberLowLevel.loadStages, hrv, hl]

/-- Witness of C13 (amended), scenario D on the registry of `fooConfig`. -/
theorem registry_consistent_witness :
    ∃ z1, zaberLowLevel.loadStages exampleParser fooRegistry "scenario D"
        = some (ZC_CONNECTED, z1) ∧ RegistryConsistent z1 :=
  match (registry_consistent fooConfig ⟨"", "", -1⟩ exampleParser) with
  | ⟨hS, hN, _, hstep⟩ =>
    match hstep fooRegistry "scenario D" hS hN (by decide) (by decide) with
    | ⟨z1, h, _, _, _, _, hc⟩ => ⟨z1, h, hc⟩

/-- Counterexample to C13 as stated: after `loadConfig` on the section `foo` (serial S1) and
a successful `loadStages` on a payload that reports S1 at the addresses 1 and 2, the address
index holds the entry (1, 0) while the bus address stored in stage 0 is 2. -/
theorem registry_consistent_counterexample :
    fooRegistry = zaberLowLevel.loadConfig fooConfig ⟨"", "", -1⟩ {}
    ∧ zaberLowLevel.loadStages exampleParser fooRegistry "twice"
        = some (ZC_CONNECTED, fooAfterTwice)
    ∧ ¬ RegistryConsistent fooAfterTwice := by
  refine ⟨rfl, by decide, ?_⟩
  intro hc
  obtain ⟨st, hst, haddr, _⟩ := hc 1 0 (by decide)
  have h2 : st = ⟨"foo", "S1", 2⟩ := by
    have : fooAfterTwice.m_stages[0]? = some ⟨"foo", "S1", 2⟩ := by decide
    rw [this] at hst
    exact (Option.some.inj hst).symm
  rw [h2] at haddr
  simp at haddr

/-! ## Claims C14 and C15: the liveness probe and the discovery read loop -/

theorem openPort_of_open (env : zaberPort) (z : zaberLowLevel) (hport : 0 < z.m_port) :
    zaberLowLevel.openPort env z = Flow.next z := by
  have h1 : ¬ z.m_port ≤ 0 := by omega
  simp [zaberLowLevel.openPort, Flow.andThen, h1]

theorem beforeTimeout_response (text : String) (rest : List zaReceive) :
    beforeTimeout (zaReceive.response text :: rest)
      = zaReceive.response text :: beforeTimeout rest := by
  simp [beforeTimeout]

theorem beforeTimeout_error (nrd : Int) (rest : List zaReceive) :
    beforeTimeout (zaReceive.error nrd :: rest) = zaReceive.error nrd :: beforeTimeout rest := by
  simp [beforeTimeout]

theorem beforeTimeout_timeout (rest : List zaReceive) :
    beforeTimeout (zaReceive.timeout :: rest) = [] := by
  simp [beforeTimeout]

theorem connect_receive_closed :
    ∀ (script : List zaReceive) (serialRes : String),
      zaberLowLevel.connect_receive script serialRes
        = if (beforeTimeout script).any zaReceive.isError then none
          else some ((responseTexts (beforeTimeout script)).foldl (fun acc t => acc ++ t) serialRes) := by
  intro script
  induction script with
  | nil => intro serialRes; rfl
  | cons r rest ih =>
    intro serialRes
    cases r with
    | response text =>
      rw [beforeTimeout_response]
      simp only [zaberLowLevel.connect_receive, ih, List.any_cons, zaReceive.isError,
        Bool.false_or, responseTexts, List.foldl_cons]
    | timeout =>
      rw [beforeTimeout_timeout]
      rfl
    | error nrd =>
      rw [beforeTimeout_error]
      simp only [zaberLowLevel.connect_receive, List.any_cons, zaReceive.isError,
        Bool.true_or, if_true]

theorem testConnection_receive_closed :
    ∀ (script : List zaReceive) (stageCnt : Nat),
      zaberLowLevel.testConnection_receive script stageCnt
        = if (beforeTimeout script).any zaReceive.isError then none
          else some (stageCnt + (beforeTimeout script).length) := by
  intro script
  induction script with
  | nil => intro stageCnt; rfl
  | cons r rest ih =>
    intro stageCnt
    cases r with
    | response text =>
      rw [beforeTimeout_response]
      simp only [zaberLowLevel.testConnection_receive, ih, List.any_cons, zaReceive.isError,
        Bool.false_or, List.length_cons]
      have : stageCnt + 1 + (beforeTimeout rest).length
          = stageCnt + ((beforeTimeout rest).length + 1) := by omega
      rw [this]
    | timeout =>
      rw [beforeTimeout_timeout]
      rfl
    | error nrd =>
      rw [beforeTimeout_error]
      simp only [zaberLowLevel.testConnection_receive, List.any_cons, zaReceive.isError,
        Bool.true_or, if_true]

theorem any_isResponse_of_no_error (l : List zaReceive)
    (hto : ∀ r ∈ l, r ≠ zaReceive.timeout) (herr : l.any zaReceive.isError = false) :
    l.any zaReceive.isResponse = true ↔ l ≠ [] := by
  cases l with
  | nil => simp
  | cons r rest =>
    have hr := hto r (List.mem_cons_self _ _)
    cases r with
    | response text => simp [zaReceive.isResponse]
    | timeout => exact absurd rfl hr
    | error nrd => simp [zaReceive.isError] at herr

theorem beforeTimeout_no_timeout (script : List zaReceive) :
    ∀ r ∈ beforeTimeout script, r ≠ zaReceive.timeout := by
  intro r hr
  have := List.mem_takeWhile_imp hr
  simpa using this

/-- C14. With the port open and drain and send succeeding, `testConnection` returns
ZC_CONNECTED exactly when at least one response is received before the first timeout and
no receive before it returns an error other than the timeout (the state is then left as it
is); when no response arrives before the timeout it sets the state to NOTCONNECTED and
returns ZC_NOT_CONNECTED; when a receive fails it sets the state to ERROR and returns
ZC_NOT_CONNECTED. -/
theorem testConnection_liveness (env : zaberPort) (z : zaberLowLevel)
    (hport : 0 < z.m_port)
    (hdrain : env.za_drain_success = true) (hsend : env.za_send_systemError = false) :
    ((∃ s, zaberLowLevel.testConnection env z = Flow.ret ZC_CONNECTED s)
      ↔ ((beforeTimeout env.za_receive).any zaReceive.isResponse = true
          ∧ (beforeTimeout env.za_receive).any zaReceive.isError = false))
    ∧ ((beforeTimeout env.za_receive).any zaReceive.isResponse = true →
        (beforeTimeout env.za_receive).any zaReceive.isError = false →
        zaberLowLevel.testConnection env z = Flow.ret ZC_CONNECTED z)
    ∧ (beforeTimeout env.za_receive = [] →
        zaberLowLevel.testConnection env z
          = Flow.ret ZC_NOT_CONNECTED { z with m_state := stateCodes.NOTCONNECTED })
    ∧ ((beforeTimeout env.za_receive).any zaReceive.isError = true →
        zaberLowLevel.testConnection env z
          = Flow.ret ZC_NOT_CONNECTED { z with m_state := stateCodes.ERROR }) := by
  have hopen := openPort_of_open env z hport
  have hto := beforeTimeout_no_timeout env.za_receive
  have hval : zaberLowLevel.testConnection env z
      = if (beforeTimeout env.za_receive).any zaReceive.isError then
          Flow.ret ZC_NOT_CONNECTED { z with m_state := stateCodes.ERROR }
        else if (beforeTimeout env.za_receive).length = 0 then
          Flow.ret ZC_NOT_CONNECTED { z with m_state := stateCodes.NOTCONNECTED }
        else Flow.ret ZC_CONNECTED z := by
    simp only [zaberLowLevel.testConnection, hopen, Flow.andThen, hdrain, hsend,
      testConnection_receive_closed]
    by_cases he : (beforeTimeout env.za_receive).any zaReceive.isError = true
    · simp [he]
    · simp [he]
  refine ⟨?_, ?_, ?_, ?_⟩
  · rw [hval]
    by_cases he : (beforeTimeout env.za_receive).any zaReceive.isError = true
    · simp [he, ZC_CONNECTED, ZC_NOT_CONNECTED]
    · have he2 : (beforeTimeout env.za_receive).any zaReceive.isError = false := by
        simpa using he
      rw [any_isResponse_of_no_error _ hto he2]
      by_cases hl : (beforeTimeout env.za_receive).length = 0
      · have hnil := List.length_eq_zero.mp hl
        simp [he2, hnil, ZC_CONNECTED, ZC_NOT_CONNECTED]
      · have hne : beforeTimeout env.za_receive ≠ [] := fun e => hl (by rw [e]; rfl)
        simp [he2, hl, hne]
  · intro hresp herr
    have hne := (any_isResponse_of_no_error _ hto herr).mp hresp
    have hl : ¬ (beforeTimeout env.za_receive).length = 0 :=
      fun e => hne (List.length_eq_zero.mp e)
    rw [hval]
    simp [herr, hl]
  · intro hnil
    rw [hval]
    simp [hnil]
  · intro herr
    rw [hval]
    simp [herr]

/-- Witness of C14: two stages answer before the timeout; the probe returns ZC_CONNECTED. -/
theorem testConnection_liveness_witness :
    zaberLowLevel.testConnection
        { za_receive := [zaReceive.response "@01 0 OK", zaReceive.response "@02 0 OK",
                         zaReceive.timeout] }
        { fooRegistry with m_port := 3, m_state := stateCodes.READY }
      = Flow.ret ZC_CONNECTED { fooRegistry with m_port := 3, m_state := stateCodes.READY } :=
  (testConnection_liveness
    { za_receive := [zaReceive.response "@01 0 OK", zaReceive.response "@02 0 OK",
                     zaReceive.timeout] }
    { fooRegistry with m_port := 3, m_state := stateCodes.READY }
    (by decide) rfl rfl).2.1 (by decide) (by decide)

/-- C15. The discovery read loop of `connect`, with the port open. When drain and send
succeed and no receive before the first timeout returns an error other than the timeout,
`connect` returns what `loadStages` returns on the in-order concatenation of the responses
received before that timeout, the timeout itself being no error. When drain fails, or send
reports a system error, or a receive before the first timeout returns another error,
`connect` sets the state to ERROR and returns ZC_ERROR, the registry being left as it is. -/
theorem connect_read_loop (parse : String → Int × List (Int × String)) (env : zaberPort)
    (z : zaberLowLevel) (hport : 0 < z.m_port) :
    (env.za_drain_success = true → env.za_send_systemError = false →
      (beforeTimeout env.za_receive).any zaReceive.isError = false →
      zaberLowLevel.connect parse env z
        = match zaberLowLevel.loadStages parse z
              ((responseTexts (beforeTimeout env.za_receive)).foldl (fun acc t => acc ++ t) "") with
          | none => Flow.fault
          | some r => Flow.ret r.1 r.2)
    ∧ ((env.za_drain_success = false ∨ env.za_send_systemError = true
          ∨ (beforeTimeout env.za_receive).any zaReceive.isError = true) →
      zaberLowLevel.connect parse env z
        = Flow.ret ZC_ERROR { z with m_state := stateCodes.ERROR }) := by
  have hopen := openPort_of_open env z hport
  refine ⟨?_, ?_⟩
  · intro hdrain hsend herr
    simp [zaberLowLevel.connect, hopen, Flow.andThen, hdrain, hsend, connect_receive_closed,
      herr]
  · intro hfail
    by_cases hdrain : env.za_drain_success = true
    · by_cases hsend : env.za_send_systemError = true
      · simp [zaberLowLevel.connect, hopen, Flow.andThen, hdrain, hsend]
      · rcases hfail with h | h | h
        · rw [hdrain] at h; simp at h
        · exact absurd h hsend
        · simp [zaberLowLevel.connect, hopen, Flow.andThen, hdrain, hsend,
            connect_receive_closed, h]
    · simp [zaberLowLevel.connect, hopen, Flow.andThen, hdrain]

/-- Witness of C15: two responses, then the timeout; `connect` returns what `loadStages`
returns on the two texts joined, here ZC_CONNECTED with stage `foo` bound to address 1. -/
theorem connect_read_loop_witness :
    zaberLowLevel.connect exampleParser
        { za_receive := [zaReceive.response "scenario", zaReceive.response " D",
                         zaReceive.timeout] }
        { fooRegistry with m_port := 3 }
      = Flow.ret ZC_CONNECTED { fooAfterFirst with m_port := 3 } :=
  (connect_read_loop exampleParser
    { za_receive := [zaReceive.response "scenario", zaReceive.response " D",
                     zaReceive.timeout] }
    { fooRegistry with m_port := 3 } (by decide)).1 rfl rfl (by decide)

/-! ## Claim C16: the power-on wait of `andorCtrl` -/

theorem powerOnElapsed_scenarioC (c : Nat) (p : Int) (hc : c ≤ 11) :
    andorCtrl.powerOnElapsed { scenarioC_at (c : Int) with m_powerState := p }
      = decide (c = 11) := by
  simp only [andorCtrl.powerOnElapsed, scenarioC_at]
  rw [decide_eq_decide]
  have h1 : ((c : Int) % 2 ^ 64).toNat = c := by omega
  rw [h1]
  clear h1
  have h2 : c * 1000000000 % 2 ^ 64 = c * 1000000000 :=
    Nat.mod_eq_of_lt (by norm_num; omega)
  rw [h2]
  norm_num
  omega

theorem andor_poweron_tick_waits (env : cameraTick) (c : Nat)
    (hfg : 0 ≤ env.frameGrabber_appLogic) (hc : c ≤ 10) :
    andorCtrl.appLogic env (scenarioC_at (c : Int))
      = Flow.ret 0 { app := scenarioC_at ((c : Int) + 1), calls := [] } := by
  have hfg2 : ¬ env.frameGrabber_appLogic < 0 := by omega
  have he := powerOnElapsed_scenarioC c 1 (by omega)
  have hne : ¬ c = 11 := by omega
  simp only [hne, decide_False] at he
  have he2 : andorCtrl.powerOnElapsed (scenarioC_at (c : Int)) = false := he
  simp only [andorCtrl.appLogic, hfg2, if_false, Flow.andThen, andorCtrl.appLogic_POWERON, he2]
  simp [scenarioC_at, Flow.andThen, Flow.finish]

theorem andor_poweron_ticks :
    ∀ (envs : List cameraTick) (c : Nat),
      (∀ e ∈ envs, 0 ≤ e.frameGrabber_appLogic) → c + envs.length ≤ 11 →
      andorCtrl.ticks envs (scenarioC_at (c : Int))
        = scenarioC_at ((c + envs.length : Nat) : Int) := by
  intro envs
  induction envs with
  | nil => intro c _ _; simp [andorCtrl.ticks]
  | cons e rest ih =>
    intro c hfg hlen
    simp only [List.length_cons] at hlen
    have htick := andor_poweron_tick_waits e c (hfg e (List.mem_cons_self _ _)) (by omega)
    simp only [andorCtrl.ticks, htick, Flow.appOr]
    have := ih (c + 1) (fun x hx => hfg x (List.mem_cons_of_mem _ hx)) (by omega)
    simp only [Nat.cast_add, Nat.cast_one] at this
    rw [this]
    simp only [List.length_cons, Nat.cast_add, Nat.cast_one]
    congr 1
    omega

theorem andor_poweron_tick_leaves (env : cameraTick) (p : Int)
    (hfg : 0 ≤ env.frameGrabber_appLogic) :
    andorCtrl.appLogic env { scenarioC_at 11 with m_powerState := p }
      = Flow.ret 0
          { app := scenarioC_left
              (if p = 0 then stateCodes.NOTCONNECTED else stateCodes.CONNECTED) p,
            calls := [] } := by
  have hfg2 : ¬ env.frameGrabber_appLogic < 0 := by omega
  have he := powerOnElapsed_scenarioC 11 p (by omega)
  simp only [decide_True, Nat.cast_ofNat] at he
  simp only [andorCtrl.appLogic, hfg2, if_false, Flow.andThen, andorCtrl.appLogic_POWERON, he]
  by_cases hp : p = 0
  · simp [scenarioC_at, scenarioC_left, Flow.andThen, Flow.finish,
      andorCtrl.appLogic_NOTCONNECTED, hp]
  · simp [scenarioC_at, scenarioC_left, Flow.andThen, Flow.finish,
      andorCtrl.appLogic_NOTCONNECTED, andorCtrl.appLogic_CONNECTED, andorCtrl.appLogic_READY, hp]

/-- C16 (amended). Scenario C for `andorCtrl::appLogic` (frame grabber running): starting
in POWERON with the power-on counter at 0, a wait of 10 s and a loop pause of 1 s, each of
the ticks 1 to 11 returns 0 without any probe and leaves the state POWERON, the counter
being the number of ticks made; the 12th tick, the first at which counter times loop pause
exceeds the wait, leaves POWERON through NOTCONNECTED with the reconfigure flag set and the
counter back at 0, and in that same tick goes on to CONNECTED when powered, while it stops
in NOTCONNECTED when the power state is 0. -/
theorem andor_powerOn_wait (envs : List cameraTick) (env : cameraTick)
    (hfgs : ∀ e ∈ envs, 0 ≤ e.frameGrabber_appLogic) (hlen : envs.length ≤ 11)
    (hfg : 0 ≤ env.frameGrabber_appLogic) :
    scenarioC = scenarioC_at 0
    ∧ andorCtrl.ticks envs scenarioC = scenarioC_at (envs.length : Int)
    ∧ (envs.length ≤ 10 →
        andorCtrl.appLogic env (andorCtrl.ticks envs scenarioC)
          = Flow.ret 0 { app := scenarioC_at ((envs.length : Int) + 1), calls := [] })
    ∧ (envs.length = 11 →
        andorCtrl.appLogic env (andorCtrl.ticks envs scenarioC)
          = Flow.ret 0 { app := scenarioC_left stateCodes.CONNECTED 1, calls := [] })
    ∧ (envs.length = 11 →
        andorCtrl.appLogic env { andorCtrl.ticks envs scenarioC with m_powerState := 0 }
          = Flow.ret 0 { app := scenarioC_left stateCodes.NOTCONNECTED 0, calls := [] }) := by
  have hticks : andorCtrl.ticks envs scenarioC = scenarioC_at (envs.length : Int) := by
    have := andor_poweron_ticks envs 0 hfgs (by omega)
    simp only [Nat.cast_zero, zero_add] at this
    exact this
  refine ⟨rfl, hticks, ?_, ?_, ?_⟩
  · intro h10
    rw [hticks]
    exact andor_poweron_tick_waits env envs.length hfg h10
  · intro h11
    rw [hticks, h11]
    exact andor_poweron_tick_leaves env 1 hfg
  · intro h11
    rw [hticks, h11]
    exact andor_poweron_tick_leaves env 0 hfg

/-- Witness of C16 (amended): after eleven ticks the state is POWERON and the counter is
11. -/
theorem andor_powerOn_wait_witness :
    andorCtrl.ticks (List.replicate 11 ({} : cameraTick)) scenarioC = scenarioC_at 11 :=
  (andor_powerOn_wait (List.replicate 11 ({} : cameraTick)) {} (by decide) (by decide)
    (by decide)).2.1

/-- Counterexample to C16 as stated: after the 11th tick of scenario C the state is still
POWERON; the transition is made by the 12th tick, which ends in CONNECTED. -/
theorem andor_powerOn_wait_counterexample :
    (andorCtrl.ticks (List.replicate 11 ({} : cameraTick)) scenarioC).m_state
        = stateCodes.POWERON
    ∧ ((andorCtrl.appLogic {}
          (andorCtrl.ticks (List.replicate 11 ({} : cameraTick)) scenarioC)).appOr scenarioC).m_state
        = stateCodes.CONNECTED := by
  have h11 : andorCtrl.ticks (List.replicate 11 ({} : cameraTick)) scenarioC = scenarioC_at 11 :=
    andor_poweron_ticks (List.replicate 11 ({} : cameraTick)) 0 (by decide) (by decide)
  rw [h11]
  refine ⟨rfl, ?_⟩
  have := andor_poweron_tick_leaves {} 1 (by decide)
  have hsame : ({ scenarioC_at 11 with m_powerState := 1 } : andorCtrl) = scenarioC_at 11 := rfl
  rw [hsame] at this
  rw [this]
  rfl

/-! ## Claims C17 and C18: the status poll of the cameras -/

theorem zyla_tick_of_serviceable (env : cameraTick) (c : zylaCtrl)
    (hst : c.m_state = stateCodes.READY ∨ c.m_state = stateCodes.OPERATING)
    (hsc : 0 ≤ env.stdCamera_appLogic) (hfg : 0 ≤ env.frameGrabber_appLogic) :
    zylaCtrl.appLogic env c = (zylaCtrl.appLogic_READY env { app := c }).finish := by
  have h1 : ¬ env.stdCamera_appLogic < 0 := by omega
  have h2 : ¬ env.frameGrabber_appLogic < 0 := by omega
  rcases hst with h | h <;>
    simp [zylaCtrl.appLogic, h1, h2, h, Flow.andThen, zylaCtrl.appLogic_NOTCONNECTED,
      zylaCtrl.appLogic_CONNECTED]

theorem andor_tick_of_serviceable (env : cameraTick) (a : andorCtrl)
    (hst : a.m_state = stateCodes.READY ∨ a.m_state = stateCodes.OPERATING)
    (hfg : 0 ≤ env.frameGrabber_appLogic) :
    andorCtrl.appLogic env a = (andorCtrl.appLogic_READY env { app := a }).finish := by
  have h2 : ¬ env.frameGrabber_appLogic < 0 := by omega
  rcases hst with h | h <;>
    simp [andorCtrl.appLogic, h2, h, Flow.andThen, andorCtrl.appLogic_POWERON,
      andorCtrl.appLogic_NOTCONNECTED, andorCtrl.appLogic_CONNECTED]

/-- C17 (amended). For a tick of `zylaCtrl::appLogic` or `andorCtrl::appLogic` that begins
in READY or OPERATING and acquires the lock: when a hardware step of the poll fails
(`getTemp` of zylaCtrl, `getEMGain` of andorCtrl, the other steps returning 0 always), the
state after the tick equals the state before it when the power state is 0, and is ERROR
otherwise; when instead the INDI status update fails, zylaCtrl leaves the state as it is
and andorCtrl sets it to ERROR, whatever the power state. The tick returns 0 in all these
cases. -/
theorem poll_failure_gating (env : cameraTick) (c : zylaCtrl) (a : andorCtrl)
    (hc : c.m_state = stateCodes.READY ∨ c.m_state = stateCodes.OPERATING)
    (ha : a.m_state = stateCodes.READY ∨ a.m_state = stateCodes.OPERATING)
    (hlock : env.lockAvailable = true)
    (hsc : 0 ≤ env.stdCamera_appLogic) (hfg : 0 ≤ env.frameGrabber_appLogic) :
    (env.getTemp < 0 → c.m_powerState = 0 →
        ∃ calls, zylaCtrl.appLogic env c = Flow.ret 0 { app := c, calls := calls })
    ∧ (env.getTemp < 0 → c.m_powerState ≠ 0 →
        ∃ calls, zylaCtrl.appLogic env c
          = Flow.ret 0 { app := { c with m_state := stateCodes.ERROR }, calls := calls })
    ∧ (0 ≤ env.getTemp → (env.stdCamera_updateINDI < 0 ∨ env.frameGrabber_updateINDI < 0) →
        ∃ calls, zylaCtrl.appLogic env c = Flow.ret 0 { app := c, calls := calls })
    ∧ (env.getEMGain < 0 → a.m_powerState = 0 →
        ∃ calls, andorCtrl.appLogic env a = Flow.ret 0 { app := a, calls := calls })
    ∧ (env.getEMGain < 0 → a.m_powerState ≠ 0 →
        ∃ calls, andorCtrl.appLogic env a
          = Flow.ret 0 { app := { a with m_state := stateCodes.ERROR }, calls := calls })
    ∧ (0 ≤ env.getEMGain → env.frameGrabber_updateINDI < 0 →
        ∃ calls, andorCtrl.appLogic env a
          = Flow.ret 0 { app := { a with m_state := stateCodes.ERROR }, calls := calls }) := by
  have hz := zyla_tick_of_serviceable env c hc hsc hfg
  have hA := andor_tick_of_serviceable env a ha hfg
  refine ⟨?_, ?_, ?_, ?_, ?_, ?_⟩
  · intro ht hp
    rw [hz]
    simp [zylaCtrl.appLogic_READY, hc, hlock, ht, hp, Flow.finish]
  · intro ht hp
    rw [hz]
    simp [zylaCtrl.appLogic_READY, hc, hlock, ht, hp, Flow.finish]
  · intro ht hindi
    have ht2 : ¬ env.getTemp < 0 := by omega
    rw [hz]
    by_cases h1 : env.stdCamera_updateINDI < 0
    · simp [zylaCtrl.appLogic_READY, hc, hlock, ht2, h1, Flow.finish, zylaCtrl.getExpTime,
        zylaCtrl.getFPS]
    · have h2 : env.frameGrabber_updateINDI < 0 := by
        rcases hindi with h | h
        · exact absurd h h1
        · exact h
      simp [zylaCtrl.appLogic_READY, hc, hlock, ht2, h1, h2, Flow.finish, zylaCtrl.getExpTime,
        zylaCtrl.getFPS]
  · intro hg hp
    rw [hA]
    simp [andorCtrl.appLogic_READY, ha, hlock, hg, hp, Flow.finish, andorCtrl.getTemp,
      andorCtrl.getFPS]
  · intro hg hp
    rw [hA]
    simp [andorCtrl.appLogic_READY, ha, hlock, hg, hp, Flow.finish, andorCtrl.getTemp,
      andorCtrl.getFPS]
  · intro hg hindi
    have hg2 : ¬ env.getEMGain < 0 := by omega
    rw [hA]
    simp [andorCtrl.appLogic_READY, ha, hlock, hg2, hindi, Flow.finish, andorCtrl.getTemp,
      andorCtrl.getFPS]

/-- Witness of C17 (amended), scenario E: `getTemp` fails while zylaCtrl is READY and the
power state is 0; the tick returns 0 and the state is still READY. -/
theorem poll_failure_gating_witness :
    ∃ calls, zylaCtrl.appLogic { getTemp := -1 } { m_state := stateCodes.READY, m_powerState := 0 }
      = Flow.ret 0 { app := { m_state := stateCodes.READY, m_powerState := 0 }, calls := calls } :=
  (poll_failure_gating { getTemp := -1 } { m_state := stateCodes.READY, m_powerState := 0 }
    { m_state := stateCodes.READY } (by decide) (by decide) rfl (by decide) (by decide)).1
    (by decide) rfl

/-- Counterexample to C17 as stated: with the INDI status update failing, andorCtrl goes
from READY to ERROR although the power state is 0, and zylaCtrl stays READY although the
power state is 1. -/
theorem poll_failure_gating_counterexample :
    andorCtrl.appLogic { frameGrabber_updateINDI := -1 }
        { m_state := stateCodes.READY, m_powerState := 0 }
      = Flow.ret 0
          { app := { m_state := stateCodes.ERROR, m_powerState := 0 },
            calls := [cameraOp.getTemp, cameraOp.getFPS, cameraOp.getEMGain,
              cameraOp.frameGrabber_updateINDI] }
    ∧ zylaCtrl.appLogic { stdCamera_updateINDI := -1 }
        { m_state := stateCodes.READY, m_powerState := 1 }
      = Flow.ret 0
          { app := { m_state := stateCodes.READY, m_powerState := 1 },
            calls := [cameraOp.getTemp, cameraOp.getExpTime, cameraOp.getFPS,
              cameraOp.stdCamera_updateINDI] } := by
  decide

/-- C18. In `andorCtrl::appLogic` and `zylaCtrl::appLogic`, when the READY/OPERATING branch
is reached and the device lock cannot be taken without blocking, the branch returns 0 at
once, performs no operation and leaves the driver as it is; so a tick that begins in READY
or OPERATING returns 0 with no operation performed and the state unchanged. When the lock
is taken, the poll runs in that tick: `getTemp` is the next operation performed. -/
theorem poll_nonblocking (env : cameraTick) (tz : Polled zylaCtrl) (ta : Polled andorCtrl)
    (hz : tz.app.m_state = stateCodes.READY ∨ tz.app.m_state = stateCodes.OPERATING)
    (ha : ta.app.m_state = stateCodes.READY ∨ ta.app.m_state = stateCodes.OPERATING) :
    (env.lockAvailable = false →
      zylaCtrl.appLogic_READY env tz = Flow.ret 0 tz
      ∧ andorCtrl.appLogic_READY env ta = Flow.ret 0 ta)
    ∧ (env.lockAvailable = false → 0 ≤ env.stdCamera_appLogic → 0 ≤ env.frameGrabber_appLogic →
      zylaCtrl.appLogic env tz.app = Flow.ret 0 { app := tz.app, calls := [] }
      ∧ andorCtrl.appLogic env ta.app = Flow.ret 0 { app := ta.app, calls := [] })
    ∧ (env.lockAvailable = true →
      (∃ (t : Polled zylaCtrl) (more : List cameraOp),
        zylaCtrl.appLogic_READY env tz = Flow.ret 0 t
          ∧ t.calls = tz.calls ++ cameraOp.getTemp :: more)
      ∧ (∃ (t : Polled andorCtrl) (more : List cameraOp),
        (andorCtrl.appLogic_READY env ta).finish = Flow.ret 0 t
          ∧ t.calls = ta.calls ++ cameraOp.getTemp :: more)) := by
  refine ⟨?_, ?_, ?_⟩
  · intro hlock
    constructor
    · simp [zylaCtrl.appLogic_READY, hz, hlock]
    · simp [andorCtrl.appLogic_READY, ha, hlock]
  · intro hlock hsc hfg
    constructor
    · rw [zyla_tick_of_serviceable env tz.app hz hsc hfg]
      simp [zylaCtrl.appLogic_READY, hz, hlock, Flow.finish]
    · rw [andor_tick_of_serviceable env ta.app ha hfg]
      simp [andorCtrl.appLogic_READY, ha, hlock, Flow.finish]
  · intro hlock
    constructor
    · simp only [zylaCtrl.appLogic_READY, hz, hlock, if_true, not_true_eq_false, if_false,
        zylaCtrl.getExpTime, zylaCtrl.getFPS, lt_self_iff_false]
      split_ifs <;> exact ⟨_, _, rfl, rfl⟩
    · simp only [andorCtrl.appLogic_READY, ha, hlock, if_true, not_true_eq_false, if_false,
        andorCtrl.getTemp, andorCtrl.getFPS, lt_self_iff_false]
      split_ifs <;> exact ⟨_, _, rfl, rfl⟩

/-- Witness of C18: zylaCtrl in OPERATING with the lock held elsewhere; the tick returns 0,
performs no operation and leaves the driver as it is. -/
theorem poll_nonblocking_witness :
    zylaCtrl.appLogic { lockAvailable := false } { m_state := stateCodes.OPERATING }
      = Flow.ret 0 { app := { m_state := stateCodes.OPERATING }, calls := [] } :=
  ((poll_nonblocking { lockAvailable := false } { app := { m_state := stateCodes.OPERATING } }
    { app := { m_state := stateCodes.READY } } (by decide) (by decide)).2.1
    rfl (by decide) (by decide)).1

/-! ## Claim C19: the ticks that begin in ERROR -/

theorem zaber_tick_of_ERROR (codes : ttyCodes) (parse : String → Int × List (Int × String))
    (env : zaberTick) (z : zaberLowLevel) (hst : z.m_state = stateCodes.ERROR) :
    zaberLowLevel.appLogic codes parse env z
      = (zaberLowLevel.appLogic_ERROR codes env z).andThen zaberLowLevel.appLogic_FAILURE := by
  simp [zaberLowLevel.appLogic, hst, Flow.andThen, zaberLowLevel.appLogic_NODEVICE,
    zaberLowLevel.appLogic_NOTCONNECTED, zaberLowLevel.appLogic_CONNECTED,
    zaberLowLevel.appLogic_READY]

/-- C19 (amended). A tick of `zaberLowLevel::appLogic` that begins in ERROR looks the USB
device up again: when the lookup reports that the device is not found, the state becomes
NODEVICE and the tick returns 0; when it reports another negative code, the state becomes
FAILURE and that code is returned; when the device is still found, the state becomes
FAILURE and the tick returns -1, so no tick goes from ERROR to NOTCONNECTED. A tick of
`zylaCtrl::appLogic` that begins in ERROR (its components running) stays in ERROR while
the power state is 0 or the camera probe fails, and otherwise goes on through CONNECTED
(where `setTempControl` is called) to READY and is polled in the same tick, ending in READY
when the lock is not available or `getTemp` succeeds, and in ERROR when `getTemp` fails. -/
theorem error_transitions (codes : ttyCodes) (parse : String → Int × List (Int × String))
    (env : zaberTick) (z : zaberLowLevel) (cenv : cameraTick) (c : zylaCtrl)
    (hz : z.m_state = stateCodes.ERROR) (hc : c.m_state = stateCodes.ERROR)
    (hsc : 0 ≤ cenv.stdCamera_appLogic) (hfg : 0 ≤ cenv.frameGrabber_appLogic) :
    ((env.getDeviceName_ERROR = codes.TTY_E_DEVNOTFOUND
        ∨ env.getDeviceName_ERROR = codes.TTY_E_NODEVNAMES) →
      zaberLowLevel.appLogic codes parse env z
        = Flow.ret 0 { z with m_state := stateCodes.NODEVICE })
    ∧ ((env.getDeviceName_ERROR < 0 ∧ env.getDeviceName_ERROR ≠ codes.TTY_E_DEVNOTFOUND
          ∧ env.getDeviceName_ERROR ≠ codes.TTY_E_NODEVNAMES) →
      zaberLowLevel.appLogic codes parse env z
        = Flow.ret env.getDeviceName_ERROR { z with m_state := stateCodes.FAILURE })
    ∧ (0 ≤ env.getDeviceName_ERROR → env.getDeviceName_ERROR ≠ codes.TTY_E_DEVNOTFOUND →
        env.getDeviceName_ERROR ≠ codes.TTY_E_NODEVNAMES →
      zaberLowLevel.appLogic codes parse env z
        = Flow.ret (-1) { z with m_state := stateCodes.FAILURE })
    ∧ (c.m_powerState = 0 →
      zylaCtrl.appLogic cenv c = Flow.ret 0 { app := c, calls := [] })
    ∧ (c.m_powerState ≠ 0 → cenv.cameraSelect ≠ 0 →
      zylaCtrl.appLogic cenv c
        = Flow.ret 0 { app := c, calls := [cameraOp.cameraSelect, cameraOp.sleep 1] })
    ∧ (c.m_powerState ≠ 0 → cenv.cameraSelect = 0 →
      zylaCtrl.appLogic cenv c
        = (zylaCtrl.appLogic_READY cenv
            { app := { c with m_state := stateCodes.READY, m_tempControlStatusSet := true },
              calls := [cameraOp.cameraSelect, cameraOp.setTempControl] }).finish
      ∧ (cenv.lockAvailable = false →
          zylaCtrl.appLogic cenv c
            = Flow.ret 0
                { app := { c with m_state := stateCodes.READY,
                                  m_tempControlStatusSet := true },
                  calls := [cameraOp.cameraSelect, cameraOp.setTempControl] })
      ∧ (cenv.lockAvailable = true → 0 ≤ cenv.getTemp →
          ∃ calls, zylaCtrl.appLogic cenv c
            = Flow.ret 0
                { app := { c with m_state := stateCodes.READY,
                                  m_tempControlStatusSet := true },
                  calls := [cameraOp.cameraSelect, cameraOp.setTempControl,
                    cameraOp.getTemp] ++ calls })
      ∧ (cenv.lockAvailable = true → cenv.getTemp < 0 →
          zylaCtrl.appLogic cenv c
            = Flow.ret 0
                { app := { c with m_state := stateCodes.ERROR,
                                  m_tempControlStatusSet := true },
                  calls := [cameraOp.cameraSelect, cameraOp.setTempControl,
                    cameraOp.getTemp] })) := by
  have hzt := zaber_tick_of_ERROR codes parse env z hz
  have h1 : ¬ cenv.stdCamera_appLogic < 0 := by omega
  have h2 : ¬ cenv.frameGrabber_appLogic < 0 := by omega
  refine ⟨?_, ?_, ?_, ?_, ?_, ?_⟩
  · intro hnf
    have hnot : ¬ (env.getDeviceName_ERROR < 0
        ∧ env.getDeviceName_ERROR ≠ codes.TTY_E_DEVNOTFOUND
        ∧ env.getDeviceName_ERROR ≠ codes.TTY_E_NODEVNAMES) := by
      rintro ⟨_, hd, hn⟩
      rcases hnf with h | h
      · exact hd h
      · exact hn h
    rw [hzt]
    simp [zaberLowLevel.appLogic_ERROR, hz, hnot, hnf, Flow.andThen]
  · intro hfault
    rw [hzt]
    simp [zaberLowLevel.appLogic_ERROR, hz, hfault, Flow.andThen]
  · intro h0 hd hn
    have hnot : ¬ (env.getDeviceName_ERROR < 0 ∧ env.getDeviceName_ERROR ≠ codes.TTY_E_DEVNOTFOUND
          ∧ env.getDeviceName_ERROR ≠ codes.TTY_E_NODEVNAMES) := by
      intro h; omega
    have hlt : ¬ env.getDeviceName_ERROR < 0 := by omega
    rw [hzt]
    simp [zaberLowLevel.appLogic_ERROR, hz, hlt, hd, hn, Flow.andThen,
      zaberLowLevel.appLogic_FAILURE]
  · intro hp
    simp [zylaCtrl.appLogic, h1, h2, hc, hp, Flow.andThen, zylaCtrl.appLogic_NOTCONNECTED,
      Flow.finish]
  · intro hp hsel
    simp [zylaCtrl.appLogic, h1, h2, hc, hp, hsel, Flow.andThen,
      zylaCtrl.appLogic_NOTCONNECTED, Flow.finish]
  · intro hp hsel
    have htick : zylaCtrl.appLogic cenv c
        = (zylaCtrl.appLogic_READY cenv
            { app := { c with m_state := stateCodes.READY, m_tempControlStatusSet := true },
              calls := [cameraOp.cameraSelect, cameraOp.setTempControl] }).finish := by
      simp [zylaCtrl.appLogic, h1, h2, hc, hp, hsel, Flow.andThen,
        zylaCtrl.appLogic_NOTCONNECTED, zylaCtrl.appLogic_CONNECTED]
    refine ⟨htick, ?_, ?_, ?_⟩
    · intro hlock
      rw [htick]
      simp [zylaCtrl.appLogic_READY, hlock, Flow.finish]
    · intro hlock htemp
      have hnt : ¬ cenv.getTemp < 0 := by omega
      rw [htick]
      simp only [zylaCtrl.appLogic_READY, true_or, if_true, hlock, not_true_eq_false,
        if_false, hnt, zylaCtrl.getExpTime, zylaCtrl.getFPS, lt_self_iff_false]
      split_ifs
      · exact ⟨[cameraOp.getExpTime, cameraOp.getFPS, cameraOp.stdCamera_updateINDI], rfl⟩
      · exact ⟨[cameraOp.getExpTime, cameraOp.getFPS, cameraOp.stdCamera_updateINDI,
          cameraOp.frameGrabber_updateINDI], rfl⟩
      · exact ⟨[cameraOp.getExpTime, cameraOp.getFPS, cameraOp.stdCamera_updateINDI,
          cameraOp.frameGrabber_updateINDI, cameraOp.telemeter_appLogic], rfl⟩
    · intro hlock htemp
      rw [htick]
      simp [zylaCtrl.appLogic_READY, hlock, htemp, hp, Flow.finish]

/-- Witness of C19 (amended): the registry of `fooConfig` in ERROR, the device still found
in udev; the tick ends in FAILURE and returns -1. -/
theorem error_transitions_witness :
    zaberLowLevel.appLogic exampleCodes exampleParser {}
        { fooRegistry with m_state := stateCodes.ERROR }
      = Flow.ret (-1) { fooRegistry with m_state := stateCodes.FAILURE } :=
  (error_transitions exampleCodes exampleParser {}
    { fooRegistry with m_state := stateCodes.ERROR } {} { m_state := stateCodes.ERROR }
    rfl rfl (by decide) (by decide)).2.2.1 (by decide) (by decide) (by decide)

/-- Counterexample to C19 as stated: `zaberLowLevel` is in ERROR and the USB device is
still found in udev (the lookup returns 0, no fault); the state becomes FAILURE, not
NOTCONNECTED, and the tick returns -1. -/
theorem error_transitions_counterexample :
    ({} : zaberTick).getDeviceName_ERROR = 0
    ∧ zaberLowLevel.appLogic exampleCodes exampleParser {}
        { fooRegistry with m_state := stateCodes.ERROR }
      = Flow.ret (-1) { fooRegistry with m_state := stateCodes.FAILURE } := by
  decide

/-! ## Claim C20: the ticks that begin or end in FAILURE -/

theorem failureIsNegative_andThen (f : Flow zaberLowLevel)
    (g : zaberLowLevel → Flow zaberLowLevel)
    (hf : FailureIsNegative f) (hg : ∀ s, FailureIsNegative (g s)) :
    FailureIsNegative (f.andThen g) := by
  cases f with
  | ret rv s => exact hf
  | next s => exact hg s
  | fault => intro rv z h; simp [Flow.andThen] at h

theorem failureIsNegative_of_next (s : zaberLowLevel) : FailureIsNegative (Flow.next s) := by
  intro rv z h
  simp at h

theorem failureIsNegative_NODEVICE (codes : ttyCodes) (env : zaberTick) (z : zaberLowLevel) :
    FailureIsNegative (zaberLowLevel.appLogic_NODEVICE codes env z) := by
  intro rv z' h hst
  unfold zaberLowLevel.appLogic_NODEVICE at h
  by_cases h0 : z.m_state = stateCodes.NODEVICE
  · by_cases h1 : env.getDeviceName_NODEVICE < 0
        ∧ env.getDeviceName_NODEVICE ≠ codes.TTY_E_DEVNOTFOUND
        ∧ env.getDeviceName_NODEVICE ≠ codes.TTY_E_NODEVNAMES
    · rw [if_pos h0, if_pos h1] at h
      simp only [Flow.ret.injEq] at h
      have hneg := h1.1
      have hrv := h.1
      omega
    · by_cases h2 : env.getDeviceName_NODEVICE = codes.TTY_E_DEVNOTFOUND
          ∨ env.getDeviceName_NODEVICE = codes.TTY_E_NODEVNAMES
      · rw [if_pos h0, if_neg h1, if_pos h2] at h
        simp only [Flow.ret.injEq] at h
        rw [← h.2] at hst
        simp at hst
      · rw [if_pos h0, if_neg h1, if_neg h2] at h
        simp at h
  · rw [if_neg h0] at h
    simp at h

theorem failureIsNegative_NOTCONNECTED (parse : String → Int × List (Int × String))
    (env : zaberTick) (z : zaberLowLevel) :
    FailureIsNegative (zaberLowLevel.appLogic_NOTCONNECTED parse env z) := by
  intro rv z' h _
  unfold zaberLowLevel.appLogic_NOTCONNECTED at h
  by_cases h0 : z.m_state = stateCodes.NOTCONNECTED
  · simp only [h0, if_true] at h
    cases hc : zaberLowLevel.connect parse env.port z with
    | ret rv1 z1 =>
      rw [hc] at h
      simp only at h
      by_cases h1 : rv1 = ZC_CONNECTED
      · simp [h1] at h
      · simp [h1] at h
    | next z1 => rw [hc] at h; simp at h
    | fault => rw [hc] at h; simp at h
  · simp only [h0, if_false] at h
    simp at h

theorem failureIsNegative_ERROR (codes : ttyCodes) (env : zaberTick) (z : zaberLowLevel) :
    FailureIsNegative (zaberLowLevel.appLogic_ERROR codes env z) := by
  intro rv z' h hst
  unfold zaberLowLevel.appLogic_ERROR at h
  by_cases h0 : z.m_state = stateCodes.ERROR
  · by_cases h1 : env.getDeviceName_ERROR < 0
        ∧ env.getDeviceName_ERROR ≠ codes.TTY_E_DEVNOTFOUND
        ∧ env.getDeviceName_ERROR ≠ codes.TTY_E_NODEVNAMES
    · rw [if_pos h0, if_pos h1] at h
      simp only [Flow.ret.injEq] at h
      have hneg := h1.1
      have hrv := h.1
      omega
    · by_cases h2 : env.getDeviceName_ERROR = codes.TTY_E_DEVNOTFOUND
          ∨ env.getDeviceName_ERROR = codes.TTY_E_NODEVNAMES
      · rw [if_pos h0, if_neg h1, if_pos h2] at h
        simp only [Flow.ret.injEq] at h
        rw [← h.2] at hst
        simp at hst
      · rw [if_pos h0, if_neg h1, if_neg h2] at h
        simp at h
  · rw [if_neg h0] at h
    simp at h

theorem failureIsNegative_FAILURE (z : zaberLowLevel) :
    FailureIsNegative (zaberLowLevel.appLogic_FAILURE z) := by
  intro rv z' h hst
  unfold zaberLowLevel.appLogic_FAILURE at h
  by_cases h1 : z.m_state = stateCodes.FAILURE
  · simp only [h1, if_true, Flow.ret.injEq] at h
    omega
  · simp only [h1, if_false, Flow.ret.injEq] at h
    rw [← h.2] at hst
    exact absurd hst h1

theorem failureIsNegative_appLogic (codes : ttyCodes)
    (parse : String → Int × List (Int × String)) (env : zaberTick) (z : zaberLowLevel) :
    FailureIsNegative (zaberLowLevel.appLogic codes parse env z) := by
  unfold zaberLowLevel.appLogic
  refine failureIsNegative_andThen _ _ ?_ failureIsNegative_FAILURE
  refine failureIsNegative_andThen _ _ ?_ (failureIsNegative_ERROR codes env)
  refine failureIsNegative_andThen _ _ ?_ (fun s => failureIsNegative_of_next s)
  refine failureIsNegative_andThen _ _ ?_ ?_
  · refine failureIsNegative_andThen _ _ ?_ (failureIsNegative_NOTCONNECTED parse env)
    refine failureIsNegative_andThen _ _ ?_ (failureIsNegative_NODEVICE codes env)
    intro rv z' h _
    by_cases h0 : z.m_state = stateCodes.INITIALIZED
    · simp only [h0, if_true, Flow.ret.injEq] at h
      omega
    · simp only [h0, if_false] at h
      simp at h
  · intro s rv z' h _
    unfold zaberLowLevel.appLogic_CONNECTED at h
    by_cases h0 : s.m_state = stateCodes.CONNECTED
    · simp [h0] at h
    · simp [h0] at h

theorem entersNoFailure_andThen {α : Type} (st : α → stateCodes) (before : stateCodes)
    (f : Flow (Polled α)) (g : Polled α → Flow (Polled α))
    (hf : EntersNoFailure st before f)
    (hg : ∀ t, EntersNoFailure st (st t.app) (g t)) :
    EntersNoFailure st before (f.andThen g) := by
  cases f with
  | ret rv s => exact hf
  | next s =>
    intro t ht hst
    exact hf s rfl (hg s t ht hst)
  | fault => intro t ht; simp [Flow.andThen, Flow.state] at ht

theorem entersNoFailure_finish {α : Type} (st : α → stateCodes) (before : stateCodes)
    (f : Flow (Polled α)) (hf : EntersNoFailure st before f) :
    EntersNoFailure st before f.finish := by
  cases f with
  | ret rv s => exact hf
  | next s => exact hf
  | fault => exact hf

theorem entersNoFailure_of_state {α : Type} (st : α → stateCodes) (t : Polled α)
    (f : Flow (Polled α))
    (h : ∀ t', f.state = some t' → st t'.app = st t.app ∨ st t'.app ≠ stateCodes.FAILURE) :
    EntersNoFailure st (st t.app) f := by
  intro t' ht' hst
  rcases h t' ht' with h1 | h1
  · rw [← h1]; exact hst
  · exact absurd hst h1

theorem serialIndexSound_congr (z z1 : zaberLowLevel) (h1 : z1.m_stages = z.m_stages)
    (h2 : z1.m_stageSerial = z.m_stageSerial) (hS : SerialIndexSound z) :
    SerialIndexSound z1 := by
  intro s i h
  rw [h2] at h
  rw [h1]
  exact hS s i h

theorem loadStages_pair_total (z : zaberLowLevel) (p : Int × String)
    (hS : SerialIndexSound z) : ∃ z1, zaberLowLevel.loadStages_pair z p = some z1 := by
  cases hf : z.m_stageSerial.find p.2 with
  | none => exact ⟨z, by simp [zaberLowLevel.loadStages_pair, hf]⟩
  | some i =>
    obtain ⟨st, hst, _⟩ := hS p.2 i hf
    unfold zaberLowLevel.loadStages_pair
    simp only [hf, hst]
    exact ⟨_, rfl⟩

theorem loadStages_loop_total :
    ∀ (ps : List (Int × String)) (z : zaberLowLevel), SerialIndexSound z →
      ∃ z1, zaberLowLevel.loadStages_loop z ps = some z1 ∧ SerialIndexSound z1 := by
  intro ps
  induction ps with
  | nil => intro z hS; exact ⟨z, rfl, hS⟩
  | cons p rest ih =>
    intro z hS
    obtain ⟨z', hp⟩ := loadStages_pair_total z p hS
    obtain ⟨z1, hl, hS1⟩ := ih z' (loadStages_pair_serialSound z z' p hp hS)
    exact ⟨z1, by simp [zaberLowLevel.loadStages_loop, hp, hl], hS1⟩

theorem loadStages_total (parse : String → Int × List (Int × String)) (z : zaberLowLevel)
    (serialRes : String) (hS : SerialIndexSound z) :
    ∃ rv z1, zaberLowLevel.loadStages parse z serialRes = some (rv, z1)
      ∧ SerialIndexSound z1 := by
  unfold zaberLowLevel.loadStages
  by_cases hrv : (parse serialRes).1 < 0
  · exact ⟨ZC_ERROR, { z with m_state := stateCodes.ERROR }, by rw [if_pos hrv],
      serialIndexSound_congr z _ rfl rfl hS⟩
  · obtain ⟨z1, hl, hS1⟩ := loadStages_loop_total (parse serialRes).2
      { z with m_stageAddress := [] } (serialIndexSound_congr z _ rfl rfl hS)
    exact ⟨ZC_CONNECTED, z1, by rw [if_neg hrv, hl], hS1⟩

theorem openPort_cases (env : zaberPort) (z : zaberLowLevel) :
    (∃ rv z1, zaberLowLevel.openPort env z = Flow.ret rv z1
        ∧ z1.m_stages = z.m_stages ∧ z1.m_stageSerial = z.m_stageSerial)
    ∨ (∃ z1, zaberLowLevel.openPort env z = Flow.next z1
        ∧ z1.m_stages = z.m_stages ∧ z1.m_stageSerial = z.m_stageSerial) := by
  unfold zaberLowLevel.openPort
  by_cases hp : z.m_port ≤ 0
  · rw [if_pos hp]
    by_cases h1 : env.euidCalled < 0
    · rw [if_pos h1]
      exact Or.inl ⟨_, _, rfl, rfl, rfl⟩
    · rw [if_neg h1]
      by_cases h2 : env.euidReal < 0
      · rw [if_pos h2]
        exact Or.inl ⟨_, _, rfl, rfl, rfl⟩
      · rw [if_neg h2]
        by_cases h3 : ¬ env.za_connect_success = true
        · rw [if_pos h3]
          exact Or.inl ⟨_, _, rfl, rfl, rfl⟩
        · rw [if_neg h3]
          simp only [Flow.andThen]
          by_cases h4 : env.za_connect_port ≤ 0
          · rw [if_pos h4]
            exact Or.inl ⟨_, _, rfl, rfl, rfl⟩
          · rw [if_neg h4]
            exact Or.inr ⟨_, rfl, rfl, rfl⟩
  · rw [if_neg hp]
    simp only [Flow.andThen]
    rw [if_neg hp]
    exact Or.inr ⟨_, rfl, rfl, rfl⟩

theorem connect_total (parse : String → Int × List (Int × String)) (env : zaberPort)
    (z : zaberLowLevel) (hS : SerialIndexSound z) :
    ∃ rv z1, zaberLowLevel.connect parse env z = Flow.ret rv z1 ∧ SerialIndexSound z1 := by
  unfold zaberLowLevel.connect
  rcases openPort_cases env z with ⟨rv, z1, ho, h1, h2⟩ | ⟨z1, ho, h1, h2⟩
  · exact ⟨rv, z1, by rw [ho]; rfl, serialIndexSound_congr z z1 h1 h2 hS⟩
  · have hS1 := serialIndexSound_congr z z1 h1 h2 hS
    rw [ho]
    simp only [Flow.andThen]
    by_cases hd : env.za_drain_success = true
    · by_cases hs : env.za_send_systemError = true
      · exact ⟨ZC_ERROR, { z1 with m_state := stateCodes.ERROR }, by simp [hd, hs],
          serialIndexSound_congr z1 _ rfl rfl hS1⟩
      · cases hr : zaberLowLevel.connect_receive env.za_receive "" with
        | none =>
          exact ⟨ZC_ERROR, { z1 with m_state := stateCodes.ERROR }, by simp [hd, hs],
            serialIndexSound_congr z1 _ rfl rfl hS1⟩
        | some serialRes =>
          obtain ⟨rv, z2, hl, hS2⟩ := loadStages_total parse z1 serialRes hS1
          exact ⟨rv, z2, by simp [hd, hs, hl], hS2⟩
    · exact ⟨ZC_ERROR, { z1 with m_state := stateCodes.ERROR }, by simp [hd],
        serialIndexSound_congr z1 _ rfl rfl hS1⟩

theorem soundFlow_andThen (f : Flow zaberLowLevel) (g : zaberLowLevel → Flow zaberLowLevel)
    (hf : SoundFlow f) (hg : ∀ s, SerialIndexSound s → SoundFlow (g s)) :
    SoundFlow (f.andThen g) := by
  cases f with
  | ret rv s => exact hf
  | next s => exact hg s hf
  | fault => exact hf

theorem appLogic_total (codes : ttyCodes) (parse : String → Int × List (Int × String))
    (env : zaberTick) (z : zaberLowLevel) (hS : SerialIndexSound z) :
    ∃ rv z1, zaberLowLevel.appLogic codes parse env z = Flow.ret rv z1 := by
  have hsound : SoundFlow
      ((((((if z.m_state = stateCodes.INITIALIZED then Flow.ret (-1) z else Flow.next z).andThen
        (zaberLowLevel.appLogic_NODEVICE codes env)).andThen
        (zaberLowLevel.appLogic_NOTCONNECTED parse env)).andThen
        zaberLowLevel.appLogic_CONNECTED).andThen
        zaberLowLevel.appLogic_READY).andThen
        (zaberLowLevel.appLogic_ERROR codes env)) := by
    refine soundFlow_andThen _ _ ?_ ?_
    · refine soundFlow_andThen _ _ ?_ ?_
      · refine soundFlow_andThen _ _ ?_ ?_
        · refine soundFlow_andThen _ _ ?_ ?_
          · refine soundFlow_andThen _ _ ?_ ?_
            · split_ifs
              · trivial
              · exact hS
            · intro s hs
              unfold zaberLowLevel.appLogic_NODEVICE
              split_ifs
              · trivial
              · trivial
              · exact serialIndexSound_congr s _ rfl rfl hs
              · exact hs
          · intro s hs
            unfold zaberLowLevel.appLogic_NOTCONNECTED
            split_ifs
            · obtain ⟨rv, z1, hc, hS1⟩ := connect_total parse env.port s hs
              rw [hc]
              simp only
              split_ifs
              · exact serialIndexSound_congr z1 _ rfl rfl hS1
              · exact hS1
            · exact hs
        · intro s hs
          unfold zaberLowLevel.appLogic_CONNECTED
          split_ifs
          · exact serialIndexSound_congr s _ rfl rfl hs
          · exact hs
      · intro s hs
        exact hs
    · intro s hs
      unfold zaberLowLevel.appLogic_ERROR
      split_ifs
      · trivial
      · trivial
      · exact serialIndexSound_congr s _ rfl rfl hs
      · exact hs
  unfold zaberLowLevel.appLogic
  revert hsound
  generalize ((((((if z.m_state = stateCodes.INITIALIZED then Flow.ret (-1) z
    else Flow.next z).andThen
        (zaberLowLevel.appLogic_NODEVICE codes env)).andThen
        (zaberLowLevel.appLogic_NOTCONNECTED parse env)).andThen
        zaberLowLevel.appLogic_CONNECTED).andThen
        zaberLowLevel.appLogic_READY).andThen
        (zaberLowLevel.appLogic_ERROR codes env)) = f
  intro hsound
  cases f with
  | ret rv s => exact ⟨rv, s, rfl⟩
  | next s =>
    simp only [Flow.andThen, zaberLowLevel.appLogic_FAILURE]
    split_ifs
    · exact ⟨-1, s, rfl⟩
    · exact ⟨0, s, rfl⟩
  | fault => exact absurd hsound (by simp [SoundFlow])

theorem andor_entersNoFailure (env : cameraTick) (a : andorCtrl) :
    EntersNoFailure (fun x : andorCtrl => x.m_state) a.m_state (andorCtrl.appLogic env a) := by
  unfold andorCtrl.appLogic
  refine entersNoFailure_finish _ _ _ ?_
  refine entersNoFailure_andThen _ _ _ _ ?_ ?_
  · refine entersNoFailure_andThen _ _ _ _ ?_ ?_
    · refine entersNoFailure_andThen _ _ _ _ ?_ ?_
      · refine entersNoFailure_andThen _ _ _ _ ?_ ?_
        · intro t ht hst
          split_ifs at ht <;> simp only [Flow.state, Option.some.injEq] at ht <;>
            (rw [← ht] at hst; exact hst)
        · intro t
          apply entersNoFailure_of_state
          intro t' ht'
          unfold andorCtrl.appLogic_POWERON at ht'
          split_ifs at ht' <;> simp only [Flow.state, Option.some.injEq] at ht' <;>
            (rw [← ht']; simp)
      · intro t
        apply entersNoFailure_of_state
        intro t' ht'
        unfold andorCtrl.appLogic_NOTCONNECTED at ht'
        split_ifs at ht' <;> simp only [Flow.state, Option.some.injEq] at ht' <;>
          (rw [← ht']; simp)
    · intro t
      apply entersNoFailure_of_state
      intro t' ht'
      simp only [andorCtrl.appLogic_CONNECTED, Flow.state, Option.some.injEq] at ht'
      rw [← ht']; simp
  · intro t
    apply entersNoFailure_of_state
    intro t' ht'
    unfold andorCtrl.appLogic_READY at ht'
    split_ifs at ht' <;> simp only [Flow.state, Option.some.injEq] at ht' <;>
      (rw [← ht']; simp)

theorem zyla_entersNoFailure (env : cameraTick) (c : zylaCtrl) :
    EntersNoFailure (fun x : zylaCtrl => x.m_state) c.m_state (zylaCtrl.appLogic env c) := by
  unfold zylaCtrl.appLogic
  refine entersNoFailure_finish _ _ _ ?_
  refine entersNoFailure_andThen _ _ _ _ ?_ ?_
  · refine entersNoFailure_andThen _ _ _ _ ?_ ?_
    · refine entersNoFailure_andThen _ _ _ _ ?_ ?_
      · intro t ht hst
        split_ifs at ht <;> simp only [Flow.state, Option.some.injEq] at ht <;>
          (rw [← ht] at hst; exact hst)
      · intro t
        apply entersNoFailure_of_state
        intro t' ht'
        unfold zylaCtrl.appLogic_NOTCONNECTED at ht'
        split_ifs at ht' <;> simp only [Flow.state, Option.some.injEq] at ht' <;>
          (rw [← ht']; simp)
    · intro t
      apply entersNoFailure_of_state
      intro t' ht'
      unfold zylaCtrl.appLogic_CONNECTED at ht'
      split_ifs at ht' <;> simp only [Flow.state, Option.some.injEq] at ht' <;>
        (rw [← ht']; simp)
  · intro t
    apply entersNoFailure_of_state
    intro t' ht'
    unfold zylaCtrl.appLogic_READY at ht'
    split_ifs at ht' <;> simp only [Flow.state, Option.some.injEq] at ht' <;>
      (rw [← ht']; simp)

/-- C20 (amended). `zaberLowLevel::appLogic`: a tick that begins in FAILURE returns -1 and
leaves the state FAILURE; every tick that ends in FAILURE returns a negative value; and on
a registry with a sound serial index every tick returns. `andorCtrl::appLogic` and
`zylaCtrl::appLogic`: a tick that begins in FAILURE leaves the driver as it is and returns
0 when the components it runs first succeed, and -1 when one of them fails; no tick of
theirs ends in FAILURE unless it began in FAILURE. -/
theorem failure_ticks (codes : ttyCodes) (parse : String → Int × List (Int × String))
    (env : zaberTick) (z : zaberLowLevel) (cenv : cameraTick) (a : andorCtrl) (c : zylaCtrl) :
    (z.m_state = stateCodes.FAILURE →
      zaberLowLevel.appLogic codes parse env z = Flow.ret (-1) z)
    ∧ (∀ rv z1, zaberLowLevel.appLogic codes parse env z = Flow.ret rv z1 →
        z1.m_state = stateCodes.FAILURE → rv < 0)
    ∧ (SerialIndexSound z → ∃ rv z1, zaberLowLevel.appLogic codes parse env z = Flow.ret rv z1)
    ∧ (a.m_state = stateCodes.FAILURE →
        andorCtrl.appLogic cenv a
          = Flow.ret (if cenv.frameGrabber_appLogic < 0 then -1 else 0) { app := a, calls := [] })
    ∧ (∀ rv t, andorCtrl.appLogic cenv a = Flow.ret rv t →
        t.app.m_state = stateCodes.FAILURE → a.m_state = stateCodes.FAILURE)
    ∧ (c.m_state = stateCodes.FAILURE →
        zylaCtrl.appLogic cenv c
          = Flow.ret (if cenv.stdCamera_appLogic < 0 ∨ cenv.frameGrabber_appLogic < 0
              then -1 else 0) { app := c, calls := [] })
    ∧ (∀ rv t, zylaCtrl.appLogic cenv c = Flow.ret rv t →
        t.app.m_state = stateCodes.FAILURE → c.m_state = stateCodes.FAILURE) := by
  refine ⟨?_, ?_, ?_, ?_, ?_, ?_, ?_⟩
  · intro hz
    simp [zaberLowLevel.appLogic, hz, Flow.andThen, zaberLowLevel.appLogic_NODEVICE,
      zaberLowLevel.appLogic_NOTCONNECTED, zaberLowLevel.appLogic_CONNECTED,
      zaberLowLevel.appLogic_READY, zaberLowLevel.appLogic_ERROR,
      zaberLowLevel.appLogic_FAILURE]
  · exact failureIsNegative_appLogic codes parse env z
  · exact appLogic_total codes parse env z
  · intro ha
    by_cases hfg : cenv.frameGrabber_appLogic < 0
    · simp [andorCtrl.appLogic, hfg, Flow.andThen, Flow.finish]
    · simp [andorCtrl.appLogic, hfg, ha, Flow.andThen, Flow.finish, andorCtrl.appLogic_POWERON,
        andorCtrl.appLogic_NOTCONNECTED, andorCtrl.appLogic_CONNECTED,
        andorCtrl.appLogic_READY]
  · intro rv t h hst
    exact andor_entersNoFailure cenv a t (by rw [h]; rfl) hst
  · intro hc
    by_cases hsc : cenv.stdCamera_appLogic < 0
    · simp [zylaCtrl.appLogic, hsc, Flow.andThen, Flow.finish]
    · by_cases hfg : cenv.frameGrabber_appLogic < 0
      · simp [zylaCtrl.appLogic, hsc, hfg, Flow.andThen, Flow.finish]
      · simp [zylaCtrl.appLogic, hsc, hfg, hc, Flow.andThen, Flow.finish,
          zylaCtrl.appLogic_NOTCONNECTED, zylaCtrl.appLogic_CONNECTED,
          zylaCtrl.appLogic_READY]
  · intro rv t h hst
    exact zyla_entersNoFailure cenv c t (by rw [h]; rfl) hst

/-- Witness of C20 (amended): a tick of `zaberLowLevel` that begins in FAILURE returns -1
and leaves the state FAILURE. -/
theorem failure_ticks_witness :
    zaberLowLevel.appLogic exampleCodes exampleParser {}
        { fooRegistry with m_state := stateCodes.FAILURE }
      = Flow.ret (-1) { fooRegistry with m_state := stateCodes.FAILURE } :=
  (failure_ticks exampleCodes exampleParser {}
    { fooRegistry with m_state := stateCodes.FAILURE } {} {} {}).1 rfl

/-- Counterexample to C20 as stated: a tick of `andorCtrl::appLogic`, and one of
`zylaCtrl::appLogic`, that begins in FAILURE returns 0. -/
theorem failure_ticks_counterexample :
    andorCtrl.appLogic {} { m_state := stateCodes.FAILURE }
      = Flow.ret 0 { app := { m_state := stateCodes.FAILURE }, calls := [] }
    ∧ zylaCtrl.appLogic {} { m_state := stateCodes.FAILURE }
      = Flow.ret 0 { app := { m_state := stateCodes.FAILURE }, calls := [] } := by
  decide

/-! ## Claim C22: the published state strings -/

theorem channelState_loop_value (states : List Int) (outlets : List Nat) :
    ∀ (k n : Nat) (st v : Int),
      channelState_loop states outlets k n st = some v → v = st ∨ v = 1 := by
  intro k
  induction k with
  | zero =>
    intro n st v h
    simp only [channelState_loop, Option.some.injEq] at h
    exact Or.inl h.symm
  | succ k ih =>
    intro n st v h
    unfold channelState_loop at h
    cases ho : outlets[n]? with
    | none => simp [ho] at h
    | some o =>
      simp only [ho] at h
      cases hs : states[o]? with
      | none => simp [hs] at h
      | some s =>
        simp only [hs] at h
        rcases ih (n + 1) _ v h with h1 | h1
        · by_cases hne : st ≠ s
          · rw [if_pos hne] at h1
            exact Or.inr h1
          · rw [if_neg hne] at h1
            exact Or.inl h1
        · exact Or.inr h1

theorem channelState_spec_value (states : List Int) (ch : channelSpec) (v : Int)
    (h : channelState_spec states ch = some v) : v ∈ states ∨ v = 1 := by
  unfold channelState_spec at h
  cases ho : ch.m_outlets[0]? with
  | none => simp [ho] at h
  | some o =>
    simp only [ho] at h
    cases hs : states[o]? with
    | none => simp [hs] at h
    | some s =>
      simp only [hs] at h
      rcases channelState_loop_value states ch.m_outlets _ _ _ _ h with h1 | h1
      · left
        rw [h1]
        exact List.getElem?_mem hs
      · exact Or.inr h1

/-- C22. `stateIntToString` is total: it maps OUTLET_STATE_OFF (0) to "Off",
OUTLET_STATE_INTERMEDIATE (1) to "Int", OUTLET_STATE_ON (2) to "On", and every other
integer, OUTLET_STATE_UNKNOWN (-1) included, to "Unk". It is injective on the four defined
raw states; `channelState` returns a stored raw state or 1; and every published string is
one of "On", "Off", "Int", "Unk". -/
theorem stateIntToString_law :
    stateIntToString OUTLET_STATE_OFF = "Off" ∧ OUTLET_STATE_OFF = 0
    ∧ stateIntToString OUTLET_STATE_INTERMEDIATE = "Int" ∧ OUTLET_STATE_INTERMEDIATE = 1
    ∧ stateIntToString OUTLET_STATE_ON = "On" ∧ OUTLET_STATE_ON = 2
    ∧ OUTLET_STATE_UNKNOWN = -1
    ∧ (∀ st : Int, st ≠ 0 → st ≠ 1 → st ≠ 2 → stateIntToString st = "Unk")
    ∧ (∀ a ∈ [OUTLET_STATE_UNKNOWN, OUTLET_STATE_OFF, OUTLET_STATE_INTERMEDIATE,
          OUTLET_STATE_ON],
        ∀ b ∈ [OUTLET_STATE_UNKNOWN, OUTLET_STATE_OFF, OUTLET_STATE_INTERMEDIATE,
          OUTLET_STATE_ON],
        stateIntToString a = stateIntToString b → a = b)
    ∧ (∀ (c : outletController) (channel : String) (v : Int),
        (channelState c channel).1 = some v → v ∈ c.m_outletStates ∨ v = 1)
    ∧ (∀ st : Int, stateIntToString st ∈ ["On", "Off", "Int", "Unk"]) := by
  refine ⟨by decide, rfl, by decide, rfl, by decide, rfl, rfl, ?_, by decide, ?_, ?_⟩
  · intro st h0 h1 h2
    simp [stateIntToString, OUTLET_STATE_OFF, OUTLET_STATE_INTERMEDIATE, OUTLET_STATE_ON,
      h0, h1, h2]
  · intro c channel v h
    exact channelState_spec_value _ _ v h
  · intro st
    unfold stateIntToString
    split_ifs <;> simp

/-- Witness of C22: OUTLET_STATE_UNKNOWN is published as "Unk". -/
theorem stateIntToString_law_witness : stateIntToString (-1) = "Unk" :=
  stateIntToString_law.2.2.2.2.2.2.2.1 (-1) (by decide) (by decide) (by decide)

/-! ## Claim C26: every outlet is switched once -/

/-- C29. When the payload parser reports an error (a negative value), `loadStages` returns
ZC_ERROR and sets the state to ERROR, and the address index, the stages with their bus
addresses and every other member are as they were before the call. -/
theorem loadStages_parse_error (parse : String → Int × List (Int × String))
    (z : zaberLowLevel) (serialRes : String) (hrv : (parse serialRes).1 < 0) :
    zaberLowLevel.loadStages parse z serialRes
        = some (ZC_ERROR, { z with m_state := stateCodes.ERROR })
    ∧ ({ z with m_state := stateCodes.ERROR } : zaberLowLevel).m_stageAddress = z.m_stageAddress
    ∧ ({ z with m_state := stateCodes.ERROR } : zaberLowLevel).m_stages = z.m_stages
    ∧ ZC_ERROR = -1 := by
  refine ⟨?_, rfl, rfl, rfl⟩
  unfold zaberLowLevel.loadStages
  rw [if_pos hrv]

/-- Witness of C29: the registry with stage `foo` bound to address 1 keeps that binding
when the next payload does not parse. -/
theorem loadStages_parse_error_witness :
    zaberLowLevel.loadStages (fun _ => (-1, [(7, "S1")])) fooAfterFirst "garbled"
      = some (ZC_ERROR, { fooAfterFirst with m_state := stateCodes.ERROR }) :=
  (loadStages_parse_error (fun _ => (-1, [(7, "S1")])) fooAfterFirst "garbled"
    (by decide)).1

/-! ## Claim C30: index safety of the sequencer -/

/-- C30. For a channel of the channel map with at least one outlet, whose outlet numbers
are all below the size of the outlet-state vector and whose on and off orders, where they
have the length of the outlet vector, only hold positions of it, `channelState`,
`turnChannelOn` and `turnChannelOff` index no vector out of range: each returns its value.
For a channel without outlets each of the three stops at its first vector access, before
any effect. -/
theorem sequencer_index_safety {σ : Type} (h : Hooks σ) (c : outletController)
    (channel : String) (ch : channelSpec) (d : σ)
    (hfind : c.m_channels.find channel = some ch) :
    (1 ≤ ch.m_outlets.length → (∀ o ∈ ch.m_outlets, o < c.m_outletStates.length) →
      OrderInRange ch.m_outlets ch.m_onOrder → OrderInRange ch.m_outlets ch.m_offOrder →
      (∃ v, (channelState c channel).1 = some v)
      ∧ (turnChannelOn h c channel d).1.ret = some 0
      ∧ (turnChannelOff h c channel d).1.ret = some 0)
    ∧ (ch.m_outlets = [] →
      (channelState c channel).1 = none
      ∧ (turnChannelOn h c channel d).1.ret = none
      ∧ (turnChannelOn h c channel d).1.trace = []
      ∧ (turnChannelOff h c channel d).1.ret = none
      ∧ (turnChannelOff h c channel d).1.trace = []) := by
  refine ⟨?_, ?_⟩
  · intro hn hr hon hoff
    obtain ⟨first, h0⟩ : ∃ first, ch.m_outlets[0]? = some first := by
      cases hout : ch.m_outlets with
      | nil => rw [hout] at hn; simp at hn
      | cons f t => exact ⟨f, List.getElem?_cons_zero⟩
    have hfirst : first < c.m_outletStates.length := hr first (List.getElem?_mem h0)
    refine ⟨?_, ?_, ?_⟩
    · simp only [channelState, subscript_of_find _ _ _ hfind]
      rw [channelState_spec_closed c.m_outletStates ch first h0 hr]
      split
      · exact ⟨_, List.getElem?_eq_getElem hfirst⟩
      · exact ⟨1, rfl⟩
    · simp only [turnChannelOn, subscript_of_find _ _ _ hfind]
      exact (turnChannelOn_spec_closed h ch d hon hn).2
    · simp only [turnChannelOff, subscript_of_find _ _ _ hfind]
      exact (turnChannelOff_spec_closed h ch d hoff hn).2
  · intro hempty
    simp only [channelState, turnChannelOn, turnChannelOff, subscript_of_find _ _ _ hfind]
    refine ⟨?_, ?_, ?_, ?_, ?_⟩
    · simp [channelState_spec, hempty]
    · unfold turnChannelOn_spec
      rw [hempty]
      by_cases hl : ch.m_onOrder = []
      · simp [hl]
      · simp [hl]
    · unfold turnChannelOn_spec
      rw [hempty]
      by_cases hl : ch.m_onOrder = []
      · simp [hl]
      · simp [hl]
    · unfold turnChannelOff_spec
      rw [hempty]
      by_cases hl : ch.m_offOrder = []
      · simp [hl]
      · simp [hl]
    · unfold turnChannelOff_spec
      rw [hempty]
      by_cases hl : ch.m_offOrder = []
      · simp [hl]
      · simp [hl]

/-- Witness of C30 on the documented channel `sue` with six outlets: the three operations
return their values. -/
theorem sequencer_index_safety_witness :
    (∃ v, (channelState sueController "sue").1 = some v)
    ∧ (turnChannelOn okHooks sueController "sue" ()).1.ret = some 0
    ∧ (turnChannelOff okHooks sueController "sue" ()).1.ret = some 0 :=
  (sequencer_index_safety okHooks sueController "sue" sue () (by decide)).1
    (by decide) (by decide) (by decide) (by decide)

/-! ## Claim C23: probing while unpowered -/

/-- C23. In `andorCtrl::appLogic` and `zylaCtrl::appLogic`, when the NOTCONNECTED/ERROR
branch is reached in state NOTCONNECTED with the power state 0, the tick returns 0 there,
with the driver as it was and no operation performed, so no probe is issued and the state
stays NOTCONNECTED. While powered, a failed probe returns 0 after one sleep of one second
with the state unchanged: in zylaCtrl after `cameraSelect` failed, in andorCtrl by the
statement that follows the probe, whose result is the constant 0 in the source. -/
theorem unpowered_probe_ignored (env : cameraTick) (tz : Polled zylaCtrl)
    (ta : Polled andorCtrl)
    (hz : tz.app.m_state = stateCodes.NOTCONNECTED)
    (ha : ta.app.m_state = stateCodes.NOTCONNECTED) :
    (tz.app.m_powerState = 0 → zylaCtrl.appLogic_NOTCONNECTED env tz = Flow.ret 0 tz)
    ∧ (ta.app.m_powerState = 0 → andorCtrl.appLogic_NOTCONNECTED ta = Flow.ret 0 ta)
    ∧ (tz.app.m_powerState = 0 → 0 ≤ env.stdCamera_appLogic → 0 ≤ env.frameGrabber_appLogic →
        zylaCtrl.appLogic env tz.app = Flow.ret 0 { app := tz.app, calls := [] })
    ∧ (ta.app.m_powerState = 0 → 0 ≤ env.frameGrabber_appLogic →
        andorCtrl.appLogic env ta.app = Flow.ret 0 { app := ta.app, calls := [] })
    ∧ (tz.app.m_powerState ≠ 0 → env.cameraSelect ≠ 0 →
        zylaCtrl.appLogic_NOTCONNECTED env tz
          = Flow.ret 0 { tz with calls := tz.calls ++ [cameraOp.cameraSelect, cameraOp.sleep 1] })
    ∧ (ta.app.m_powerState ≠ 0 →
        andorCtrl.appLogic_NOTCONNECTED ta = andorCtrl.probeOutcome 0 ta)
    ∧ (∀ ret : Int, ret ≠ 0 →
        andorCtrl.probeOutcome ret ta
          = Flow.ret 0 { ta with calls := ta.calls ++ [cameraOp.sleep 1] }) := by
  refine ⟨?_, ?_, ?_, ?_, ?_, ?_, ?_⟩
  · intro hp
    simp [zylaCtrl.appLogic_NOTCONNECTED, hz, hp]
  · intro hp
    simp [andorCtrl.appLogic_NOTCONNECTED, ha, hp]
  · intro hp hsc hfg
    have h1 : ¬ env.stdCamera_appLogic < 0 := by omega
    have h2 : ¬ env.frameGrabber_appLogic < 0 := by omega
    simp [zylaCtrl.appLogic, h1, h2, hz, hp, Flow.andThen, zylaCtrl.appLogic_NOTCONNECTED,
      Flow.finish]
  · intro hp hfg
    have h2 : ¬ env.frameGrabber_appLogic < 0 := by omega
    simp [andorCtrl.appLogic, h2, ha, hp, Flow.andThen, andorCtrl.appLogic_POWERON,
      andorCtrl.appLogic_NOTCONNECTED, Flow.finish]
  · intro hp hsel
    simp [zylaCtrl.appLogic_NOTCONNECTED, hz, hp, hsel]
  · intro hp
    simp [andorCtrl.appLogic_NOTCONNECTED, andorCtrl.probeOutcome, ha, hp]
  · intro ret hret
    simp [andorCtrl.probeOutcome, hret]

/-- Witness of C23: zylaCtrl in NOTCONNECTED with the power state 0; the tick returns 0,
performs no operation and leaves the driver as it is. -/
theorem unpowered_probe_ignored_witness :
    zylaCtrl.appLogic {} { m_state := stateCodes.NOTCONNECTED, m_powerState := 0 }
      = Flow.ret 0 { app := { m_state := stateCodes.NOTCONNECTED, m_powerState := 0 },
                     calls := [] } :=
  (unpowered_probe_ignored {}
    { app := { m_state := stateCodes.NOTCONNECTED, m_powerState := 0 } }
    { app := { m_state := stateCodes.NOTCONNECTED, m_powerState := 0 } } rfl rfl).2.2.1
    rfl (by decide) (by decide)

/-! ## Claim C24: from CONNECTED to READY -/

theorem zyla_tick_of_CONNECTED (env : cameraTick) (c : zylaCtrl)
    (hst : c.m_state = stateCodes.CONNECTED)
    (hsc : 0 ≤ env.stdCamera_appLogic) (hfg : 0 ≤ env.frameGrabber_appLogic) :
    zylaCtrl.appLogic env c
      = (zylaCtrl.appLogic_READY env
          { app := { c with m_state := stateCodes.READY, m_tempControlStatusSet := true },
            calls := [cameraOp.setTempControl] }).finish := by
  have h1 : ¬ env.stdCamera_appLogic < 0 := by omega
  have h2 : ¬ env.frameGrabber_appLogic < 0 := by omega
  simp [zylaCtrl.appLogic, h1, h2, hst, Flow.andThen, zylaCtrl.appLogic_NOTCONNECTED,
    zylaCtrl.appLogic_CONNECTED]

/-- C24 (amended). A tick of `zylaCtrl::appLogic` that reaches the CONNECTED branch in
state CONNECTED sets the state to READY there and then calls `setTempControl` once, without
reading its value: the outcome of the tick is the same whether `setTempControl` succeeds or
fails, and the tick ends in READY, or in ERROR when the poll of the same tick fails while
powered (the lock taken and `getTemp` negative). A tick of `andorCtrl::appLogic` that
begins in CONNECTED performs no initialization and leaves the state CONNECTED. -/
theorem connected_to_ready (env : cameraTick) (tz : Polled zylaCtrl) (a : andorCtrl)
    (hz : tz.app.m_state = stateCodes.CONNECTED)
    (ha : a.m_state = stateCodes.CONNECTED)
    (hsc : 0 ≤ env.stdCamera_appLogic) (hfg : 0 ≤ env.frameGrabber_appLogic) :
    zylaCtrl.appLogic_CONNECTED tz
        = Flow.next
            { app := { tz.app with m_state := stateCodes.READY, m_tempControlStatusSet := true },
              calls := tz.calls ++ [cameraOp.setTempControl] }
    ∧ (∀ v : Int,
        zylaCtrl.appLogic { env with setTempControl := v } tz.app = zylaCtrl.appLogic env tz.app)
    ∧ (∃ t, zylaCtrl.appLogic env tz.app = Flow.ret 0 t
        ∧ (t.app.m_state = stateCodes.READY ∨ t.app.m_state = stateCodes.ERROR))
    ∧ ((env.lockAvailable = false ∨ 0 ≤ env.getTemp ∨ tz.app.m_powerState = 0) →
        ∃ t, zylaCtrl.appLogic env tz.app = Flow.ret 0 t
          ∧ t.app.m_state = stateCodes.READY)
    ∧ andorCtrl.appLogic env a = Flow.ret 0 { app := a, calls := [] }
    ∧ (env.lockAvailable = true → env.getTemp < 0 → tz.app.m_powerState ≠ 0 →
        zylaCtrl.appLogic env tz.app
          = Flow.ret 0
              { app := { tz.app with m_state := stateCodes.ERROR,
                                     m_tempControlStatusSet := true },
                calls := [cameraOp.setTempControl, cameraOp.getTemp] }) := by
  have hzt := zyla_tick_of_CONNECTED env tz.app hz hsc hfg
  have h2 : ¬ env.frameGrabber_appLogic < 0 := by omega
  refine ⟨?_, ?_, ?_, ?_, ?_, ?_⟩
  · simp [zylaCtrl.appLogic_CONNECTED, hz]
  · intro v
    rfl
  · rw [hzt]
    simp only [zylaCtrl.appLogic_READY, true_or, if_true, zylaCtrl.getExpTime,
      zylaCtrl.getFPS, lt_self_iff_false, if_false]
    split_ifs <;> simp [Flow.finish]
  · intro hcond
    rw [hzt]
    simp only [zylaCtrl.appLogic_READY, true_or, if_true, zylaCtrl.getExpTime,
      zylaCtrl.getFPS, lt_self_iff_false, if_false]
    split_ifs with h1 h2 h3 <;> simp [Flow.finish]
    rcases hcond with hc | hc | hc
    · simp [hc] at h1
    · omega
    · exact h3 hc
  · simp [andorCtrl.appLogic, h2, ha, Flow.andThen, andorCtrl.appLogic_POWERON,
      andorCtrl.appLogic_NOTCONNECTED, andorCtrl.appLogic_CONNECTED,
      andorCtrl.appLogic_READY, Flow.finish]
  · intro hlock htemp hp
    rw [hzt]
    simp [zylaCtrl.appLogic_READY, hlock, htemp, hp, Flow.finish]

/-- Witness of C24 (amended): zylaCtrl in CONNECTED with the lock held elsewhere; the tick
sets READY and calls `setTempControl`. -/
theorem connected_to_ready_witness :
    ∃ t, zylaCtrl.appLogic { lockAvailable := false, setTempControl := -1 }
        { m_state := stateCodes.CONNECTED } = Flow.ret 0 t
      ∧ t.app.m_state = stateCodes.READY :=
  (connected_to_ready { lockAvailable := false, setTempControl := -1 }
    { app := { m_state := stateCodes.CONNECTED } } { m_state := stateCodes.CONNECTED }
    rfl rfl (by decide) (by decide)).2.2.2.1 (Or.inl rfl)

/-- Counterexample to C24 as stated: `setTempControl` fails (-1) in a tick of zylaCtrl that
begins in CONNECTED, and the state after the tick is READY. -/
theorem connected_to_ready_counterexample :
    zylaCtrl.appLogic { setTempControl := -1 } { m_state := stateCodes.CONNECTED }
      = Flow.ret 0
          { app := { m_state := stateCodes.READY, m_tempControlStatusSet := true },
            calls := [cameraOp.setTempControl, cameraOp.getTemp, cameraOp.getExpTime,
              cameraOp.getFPS, cameraOp.stdCamera_updateINDI,
              cameraOp.frameGrabber_updateINDI, cameraOp.telemeter_appLogic] } := by
  decide

/-! ## Claim C25: a tick whose connection attempt fails -/

theorem connect_of_transportFailure (parse : String → Int × List (Int × String))
    (env : zaberPort) (z : zaberLowLevel) (htf : TransportFailure env z) :
    ∃ rv z1, zaberLowLevel.connect parse env z = Flow.ret rv z1
      ∧ z1.m_state = stateCodes.ERROR ∧ rv ≠ ZC_CONNECTED := by
  obtain ⟨hpriv, hfail⟩ := htf
  have hafter : ∀ z1 : zaberLowLevel, zaberLowLevel.openPort env z = Flow.next z1 →
      (env.za_drain_success = false ∨ env.za_send_systemError = true
        ∨ (beforeTimeout env.za_receive).any zaReceive.isError = true) →
      ∃ rv z2, zaberLowLevel.connect parse env z = Flow.ret rv z2
        ∧ z2.m_state = stateCodes.ERROR ∧ rv ≠ ZC_CONNECTED := by
    intro z1 ho hf
    refine ⟨ZC_ERROR, { z1 with m_state := stateCodes.ERROR }, ?_, rfl, by decide⟩
    by_cases hdrain : env.za_drain_success = true
    · by_cases hsend : env.za_send_systemError = true
      · simp [zaberLowLevel.connect, ho, Flow.andThen, hdrain, hsend]
      · rcases hf with h | h | h
        · rw [hdrain] at h; simp at h
        · exact absurd h hsend
        · simp [zaberLowLevel.connect, ho, Flow.andThen, hdrain, hsend,
            connect_receive_closed, h]
    · simp [zaberLowLevel.connect, ho, Flow.andThen, hdrain]
  by_cases hp : z.m_port ≤ 0
  · obtain ⟨h1, h2⟩ := hpriv hp
    have h1n : ¬ env.euidCalled < 0 := by omega
    have h2n : ¬ env.euidReal < 0 := by omega
    by_cases h3 : env.za_connect_success = true
    · by_cases h4 : env.za_connect_port ≤ 0
      · refine ⟨ZC_NOT_CONNECTED,
          { z with m_port := env.za_connect_port, m_state := stateCodes.ERROR }, ?_, rfl,
          by decide⟩
        simp [zaberLowLevel.connect, zaberLowLevel.openPort, hp, h1n, h2n, h3, h4,
          Flow.andThen]
      · have ho : zaberLowLevel.openPort env z
            = Flow.next { z with m_port := env.za_connect_port } := by
          simp [zaberLowLevel.openPort, hp, h1n, h2n, h3, h4, Flow.andThen]
        refine hafter _ ho ?_
        rcases hfail with ⟨_, h | h⟩ | h
        · rw [h3] at h; simp at h
        · exact absurd h h4
        · exact h
    · refine ⟨ZC_NOT_CONNECTED,
        { z with m_port := if env.za_connect_port > 0 then 0 else env.za_connect_port,
                 m_state := stateCodes.ERROR }, ?_, rfl, by decide⟩
      simp [zaberLowLevel.connect, zaberLowLevel.openPort, hp, h1n, h2n, h3, Flow.andThen]
  · have ho : zaberLowLevel.openPort env z = Flow.next z := by
      simp [zaberLowLevel.openPort, hp, Flow.andThen]
    refine hafter _ ho ?_
    rcases hfail with ⟨h, _⟩ | h
    · exact absurd h hp
    · exact h

theorem zaber_tick_of_failed_connect (codes : ttyCodes)
    (parse : String → Int × List (Int × String)) (env : zaberTick) (z z1 : zaberLowLevel)
    (rv : Int) (hst : z.m_state = stateCodes.NOTCONNECTED)
    (hc : zaberLowLevel.connect parse env.port z = Flow.ret rv z1)
    (hz1 : z1.m_state = stateCodes.ERROR) (hrv : rv ≠ ZC_CONNECTED) :
    zaberLowLevel.appLogic codes parse env z
      = (zaberLowLevel.appLogic_ERROR codes env z1).andThen zaberLowLevel.appLogic_FAILURE := by
  simp [zaberLowLevel.appLogic, hst, Flow.andThen, zaberLowLevel.appLogic_NODEVICE,
    zaberLowLevel.appLogic_NOTCONNECTED, hc, hrv, zaberLowLevel.appLogic_CONNECTED, hz1,
    zaberLowLevel.appLogic_READY]

/-- C25 (amended). In `zaberLowLevel::appLogic`, a tick that begins in NOTCONNECTED and
whose `connect` attempt fails at the transport level with no privilege fault leaves
`connect` with the state ERROR, and the ERROR branch of the same tick then decides: when
the USB endpoint is not discoverable any more the tick ends in NODEVICE and returns 0; when
the endpoint is still discoverable the tick ends in FAILURE and returns -1; when the lookup
itself fails with another negative code the tick ends in FAILURE and returns that code. -/
theorem connect_failure_tick (codes : ttyCodes) (parse : String → Int × List (Int × String))
    (env : zaberTick) (z : zaberLowLevel) (hst : z.m_state = stateCodes.NOTCONNECTED)
    (htf : TransportFailure env.port z) :
    ∃ rv z1, zaberLowLevel.connect parse env.port z = Flow.ret rv z1
      ∧ z1.m_state = stateCodes.ERROR ∧ rv ≠ ZC_CONNECTED
      ∧ ((env.getDeviceName_ERROR = codes.TTY_E_DEVNOTFOUND
            ∨ env.getDeviceName_ERROR = codes.TTY_E_NODEVNAMES) →
          zaberLowLevel.appLogic codes parse env z
            = Flow.ret 0 { z1 with m_state := stateCodes.NODEVICE })
      ∧ (¬ (env.getDeviceName_ERROR = codes.TTY_E_DEVNOTFOUND
            ∨ env.getDeviceName_ERROR = codes.TTY_E_NODEVNAMES) →
          0 ≤ env.getDeviceName_ERROR →
          zaberLowLevel.appLogic codes parse env z
            = Flow.ret (-1) { z1 with m_state := stateCodes.FAILURE })
      ∧ (¬ (env.getDeviceName_ERROR = codes.TTY_E_DEVNOTFOUND
            ∨ env.getDeviceName_ERROR = codes.TTY_E_NODEVNAMES) →
          env.getDeviceName_ERROR < 0 →
          zaberLowLevel.appLogic codes parse env z
            = Flow.ret env.getDeviceName_ERROR { z1 with m_state := stateCodes.FAILURE }) := by
  obtain ⟨rv, z1, hc, hz1, hrv⟩ := connect_of_transportFailure parse env.port z htf
  have htick := zaber_tick_of_failed_connect codes parse env z z1 rv hst hc hz1 hrv
  refine ⟨rv, z1, hc, hz1, hrv, ?_, ?_, ?_⟩
  · intro hnf
    have h1 : ¬ (env.getDeviceName_ERROR < 0
        ∧ env.getDeviceName_ERROR ≠ codes.TTY_E_DEVNOTFOUND
        ∧ env.getDeviceName_ERROR ≠ codes.TTY_E_NODEVNAMES) := by
      rintro ⟨_, ha, hb⟩
      rcases hnf with h | h
      · exact ha h
      · exact hb h
    rw [htick]
    unfold zaberLowLevel.appLogic_ERROR
    rw [if_pos hz1, if_neg h1, if_pos hnf]
    rfl
  · intro hnf hpos
    have h1 : ¬ (env.getDeviceName_ERROR < 0
        ∧ env.getDeviceName_ERROR ≠ codes.TTY_E_DEVNOTFOUND
        ∧ env.getDeviceName_ERROR ≠ codes.TTY_E_NODEVNAMES) := by
      rintro ⟨hneg, _, _⟩
      omega
    rw [htick]
    unfold zaberLowLevel.appLogic_ERROR
    rw [if_pos hz1, if_neg h1, if_neg hnf]
    simp [Flow.andThen, zaberLowLevel.appLogic_FAILURE]
  · intro hnf hneg
    have h1 : env.getDeviceName_ERROR < 0
        ∧ env.getDeviceName_ERROR ≠ codes.TTY_E_DEVNOTFOUND
        ∧ env.getDeviceName_ERROR ≠ codes.TTY_E_NODEVNAMES :=
      ⟨hneg, fun h => hnf (Or.inl h), fun h => hnf (Or.inr h)⟩
    rw [htick]
    unfold zaberLowLevel.appLogic_ERROR
    rw [if_pos hz1, if_pos h1]
    rfl

/-- Witness of C25 (amended): the port is closed and `za_connect` fails while the endpoint
is not discoverable any more (code -5); the tick ends in NODEVICE and returns 0. -/
theorem connect_failure_tick_witness :
    ∃ rv z1, zaberLowLevel.connect exampleParser
        ({ getDeviceName_ERROR := -5, port := { za_connect_success := false } } : zaberTick).port
        { fooRegistry with m_state := stateCodes.NOTCONNECTED } = Flow.ret rv z1
      ∧ z1.m_state = stateCodes.ERROR ∧ rv ≠ ZC_CONNECTED
      ∧ zaberLowLevel.appLogic exampleCodes exampleParser
          { getDeviceName_ERROR := -5, port := { za_connect_success := false } }
          { fooRegistry with m_state := stateCodes.NOTCONNECTED }
        = Flow.ret 0 { z1 with m_state := stateCodes.NODEVICE } := by
  obtain ⟨rv, z1, hc, hz1, hrv, h1, _, _⟩ :=
    connect_failure_tick exampleCodes exampleParser
      { getDeviceName_ERROR := -5, port := { za_connect_success := false } }
      { fooRegistry with m_state := stateCodes.NOTCONNECTED } rfl (by decide)
  exact ⟨rv, z1, hc, hz1, hrv, h1 (Or.inr rfl)⟩

/-- Counterexample to C25 as stated: the tick begins in NOTCONNECTED with the port closed,
`za_connect` fails with no privilege fault, and the USB endpoint is still discoverable
(`getDeviceName` returns 0); the tick ends in FAILURE and returns -1. -/
theorem connect_failure_tick_counterexample :
    TransportFailure ({ port := { za_connect_success := false } } : zaberTick).port
        { fooRegistry with m_state := stateCodes.NOTCONNECTED }
    ∧ ({ port := { za_connect_success := false } } : zaberTick).getDeviceName_ERROR = 0
    ∧ zaberLowLevel.appLogic exampleCodes exampleParser
        { port := { za_connect_success := false } }
        { fooRegistry with m_state := stateCodes.NOTCONNECTED }
      = Flow.ret (-1) { fooRegistry with m_port := 0, m_state := stateCodes.FAILURE } := by
  decide

/-! ## Claim C28: the return value of a tick of `zaberLowLevel::appLogic` -/

theorem returnLaw_andThen (f : Flow zaberLowLevel) (g : zaberLowLevel → Flow zaberLowLevel)
    (hf : ReturnLaw f) (hg : ∀ s, ReturnLaw (g s)) : ReturnLaw (f.andThen g) := by
  cases f with
  | ret rv s => exact hf
  | next s => exact hg s
  | fault => intro rv z h; simp [Flow.andThen] at h

theorem returnLaw_of_next (s : zaberLowLevel) : ReturnLaw (Flow.next s) := by
  intro rv z h
  simp at h

theorem returnLaw_NODEVICE (codes : ttyCodes) (env : zaberTick) (z : zaberLowLevel) :
    ReturnLaw (zaberLowLevel.appLogic_NODEVICE codes env z) := by
  intro rv z' h
  unfold zaberLowLevel.appLogic_NODEVICE at h
  by_cases h0 : z.m_state = stateCodes.NODEVICE
  · by_cases h1 : env.getDeviceName_NODEVICE < 0
        ∧ env.getDeviceName_NODEVICE ≠ codes.TTY_E_DEVNOTFOUND
        ∧ env.getDeviceName_NODEVICE ≠ codes.TTY_E_NODEVNAMES
    · rw [if_pos h0, if_pos h1] at h
      simp only [Flow.ret.injEq] at h
      left
      rw [← h.2, ← h.1]
      exact ⟨rfl, by decide⟩
    · by_cases h2 : env.getDeviceName_NODEVICE = codes.TTY_E_DEVNOTFOUND
          ∨ env.getDeviceName_NODEVICE = codes.TTY_E_NODEVNAMES
      · rw [if_pos h0, if_neg h1, if_pos h2] at h
        simp only [Flow.ret.injEq] at h
        right
        rw [← h.2, ← h.1]
        exact ⟨by simp, rfl⟩
      · rw [if_pos h0, if_neg h1, if_neg h2] at h
        simp at h
  · rw [if_neg h0] at h
    simp at h

theorem returnLaw_NOTCONNECTED (parse : String → Int × List (Int × String))
    (env : zaberTick) (z : zaberLowLevel) :
    ReturnLaw (zaberLowLevel.appLogic_NOTCONNECTED parse env z) := by
  intro rv z' h
  unfold zaberLowLevel.appLogic_NOTCONNECTED at h
  by_cases h0 : z.m_state = stateCodes.NOTCONNECTED
  · simp only [h0, if_true] at h
    cases hc : zaberLowLevel.connect parse env.port z with
    | ret rv1 z1 =>
      rw [hc] at h
      simp only at h
      by_cases h1 : rv1 = ZC_CONNECTED
      · simp [h1] at h
      · simp [h1] at h
    | next z1 => rw [hc] at h; simp at h
    | fault => rw [hc] at h; simp at h
  · simp only [h0, if_false] at h
    simp at h

theorem returnLaw_CONNECTED (z : zaberLowLevel) :
    ReturnLaw (zaberLowLevel.appLogic_CONNECTED z) := by
  intro rv z' h
  unfold zaberLowLevel.appLogic_CONNECTED at h
  by_cases h0 : z.m_state = stateCodes.CONNECTED
  · simp [h0] at h
  · simp [h0] at h

theorem returnLaw_ERROR (codes : ttyCodes) (env : zaberTick) (z : zaberLowLevel) :
    ReturnLaw (zaberLowLevel.appLogic_ERROR codes env z) := by
  intro rv z' h
  unfold zaberLowLevel.appLogic_ERROR at h
  by_cases h0 : z.m_state = stateCodes.ERROR
  · by_cases h1 : env.getDeviceName_ERROR < 0
        ∧ env.getDeviceName_ERROR ≠ codes.TTY_E_DEVNOTFOUND
        ∧ env.getDeviceName_ERROR ≠ codes.TTY_E_NODEVNAMES
    · rw [if_pos h0, if_pos h1] at h
      simp only [Flow.ret.injEq] at h
      left
      rw [← h.2, ← h.1]
      exact ⟨rfl, h1.1⟩
    · by_cases h2 : env.getDeviceName_ERROR = codes.TTY_E_DEVNOTFOUND
          ∨ env.getDeviceName_ERROR = codes.TTY_E_NODEVNAMES
      · rw [if_pos h0, if_neg h1, if_pos h2] at h
        simp only [Flow.ret.injEq] at h
        right
        rw [← h.2, ← h.1]
        exact ⟨by simp, rfl⟩
      · rw [if_pos h0, if_neg h1, if_neg h2] at h
        simp at h
  · rw [if_neg h0] at h
    simp at h

theorem returnLaw_FAILURE (z : zaberLowLevel) :
    ReturnLaw (zaberLowLevel.appLogic_FAILURE z) := by
  intro rv z' h
  unfold zaberLowLevel.appLogic_FAILURE at h
  by_cases h1 : z.m_state = stateCodes.FAILURE
  · simp only [h1, if_true, Flow.ret.injEq] at h
    left
    rw [← h.2, ← h.1]
    exact ⟨h1, by decide⟩
  · simp only [h1, if_false, Flow.ret.injEq] at h
    right
    rw [← h.2, ← h.1]
    exact ⟨h1, rfl⟩

theorem returnLaw_after_INITIALIZED (codes : ttyCodes)
    (parse : String → Int × List (Int × String)) (env : zaberTick) (z : zaberLowLevel) :
    ReturnLaw
      (((((((Flow.next z).andThen
        (zaberLowLevel.appLogic_NODEVICE codes env)).andThen
        (zaberLowLevel.appLogic_NOTCONNECTED parse env)).andThen
        zaberLowLevel.appLogic_CONNECTED).andThen
        zaberLowLevel.appLogic_READY).andThen
        (zaberLowLevel.appLogic_ERROR codes env)).andThen
        zaberLowLevel.appLogic_FAILURE) := by
  refine returnLaw_andThen _ _ ?_ returnLaw_FAILURE
  refine returnLaw_andThen _ _ ?_ (returnLaw_ERROR codes env)
  refine returnLaw_andThen _ _ ?_ (fun s => returnLaw_of_next s)
  refine returnLaw_andThen _ _ ?_ returnLaw_CONNECTED
  refine returnLaw_andThen _ _ ?_ (returnLaw_NOTCONNECTED parse env)
  exact returnLaw_andThen _ _ (returnLaw_of_next z) (returnLaw_NODEVICE codes env)

/-- C28. `zaberLowLevel::appLogic` returns a negative value if and only if the lifecycle
state when it returns is FAILURE or the tick began in INITIALIZED, and it returns exactly 0
in every other case, never a positive value; it does return for every registry whose serial
index is sound, which `loadConfig` establishes; a tick that passes through NODEVICE,
NOTCONNECTED, CONNECTED and READY in one call returns 0. -/
theorem appLogic_return_law (codes : ttyCodes) (parse : String → Int × List (Int × String))
    (env : zaberTick) (z : zaberLowLevel) :
    (∀ rv z1, zaberLowLevel.appLogic codes parse env z = Flow.ret rv z1 →
      (rv < 0 ↔ (z1.m_state = stateCodes.FAILURE ∨ z.m_state = stateCodes.INITIALIZED))
      ∧ (rv < 0 ∨ rv = 0))
    ∧ (SerialIndexSound z → ∃ rv z1, zaberLowLevel.appLogic codes parse env z = Flow.ret rv z1)
    ∧ zaberLowLevel.appLogic exampleCodes exampleParser {}
        { fooRegistry with m_state := stateCodes.NODEVICE }
      = Flow.ret 0 { fooAfterSecond with m_port := 1, m_state := stateCodes.READY } := by
  refine ⟨?_, appLogic_total codes parse env z, by decide⟩
  intro rv z1 h
  by_cases h0 : z.m_state = stateCodes.INITIALIZED
  · unfold zaberLowLevel.appLogic at h
    rw [if_pos h0] at h
    simp only [Flow.andThen, Flow.ret.injEq] at h
    have hrv : rv = -1 := h.1.symm
    subst hrv
    exact ⟨⟨fun _ => Or.inr h0, fun _ => by decide⟩, Or.inl (by decide)⟩
  · unfold zaberLowLevel.appLogic at h
    rw [if_neg h0] at h
    rcases returnLaw_after_INITIALIZED codes parse env z rv z1 h with ⟨hst, hrv⟩ | ⟨hst, hrv⟩
    · exact ⟨⟨fun _ => Or.inl hst, fun _ => hrv⟩, Or.inl hrv⟩
    · refine ⟨⟨fun hneg => ?_, fun hor => ?_⟩, Or.inr hrv⟩
      · omega
      · rcases hor with h1 | h1
        · exact absurd h1 hst
        · exact absurd h1 h0

/-- Witness of C28: the registry of `fooConfig` in NODEVICE; the tick finds the device,
connects, binds stage `foo` to address 2, ends in READY and returns 0. -/
theorem appLogic_return_law_witness :
    SerialIndexSound { fooRegistry with m_state := stateCodes.NODEVICE }
    ∧ ∃ rv z1, zaberLowLevel.appLogic exampleCodes exampleParser {}
        { fooRegistry with m_state := stateCodes.NODEVICE } = Flow.ret rv z1 :=
  ⟨serialIndexSound_congr fooRegistry _ rfl rfl (loadConfig_sound fooConfig ⟨"", "", -1⟩).1,
   (appLogic_return_law exampleCodes exampleParser {}
      { fooRegistry with m_state := stateCodes.NODEVICE }).2.1
    (serialIndexSound_congr fooRegistry _ rfl rfl
      (loadConfig_sound fooConfig ⟨"", "", -1⟩).1)⟩

/-! ## Claim C27: staging a camera mode -/

theorem mode_handler_closed (a : andorCtrl) (current target : Option String) :
    (andorCtrl.newCallBack_m_indiP_mode a "mode" current target).app
        = (if requestedMode current target ∈ a.m_cameraModes then
            { a with m_indiP_mode_target := requestedMode current target,
                     m_nextMode := requestedMode current target, m_reconfig := true }
          else a)
    ∧ (andorCtrl.newCallBack_m_indiP_mode a "mode" current target).ret
        = (if requestedMode current target ∈ a.m_cameraModes then 0 else -1) := by
  unfold andorCtrl.newCallBack_m_indiP_mode
  by_cases hm : requestedMode current target ∈ a.m_cameraModes
  · have hc : ¬ a.m_cameraModes.count (requestedMode current target) = 0 := by
      rw [List.count_eq_zero]
      exact fun h => h hm
    unfold requestedMode at hc hm ⊢
    simp only [if_true, hc, if_false]
    rw [if_pos hm, if_pos hm]
    exact ⟨rfl, rfl⟩
  · have hc : a.m_cameraModes.count (requestedMode current target) = 0 :=
      List.count_eq_zero.mpr hm
    unfold requestedMode at hc hm ⊢
    simp only [if_true, hc]
    rw [if_neg hm, if_neg hm]
    exact ⟨rfl, rfl⟩

theorem modeCommands_closed :
    ∀ (msgs : List (Option String × Option String)) (a : andorCtrl),
      (andorCtrl.modeCommands a msgs).m_cameraModes = a.m_cameraModes
      ∧ (andorCtrl.modeCommands a msgs).m_nextMode
          = match (msgs.filter
                (fun m => decide (requestedMode m.1 m.2 ∈ a.m_cameraModes))).getLast? with
            | some m => requestedMode m.1 m.2
            | none => a.m_nextMode := by
  intro msgs
  induction msgs with
  | nil => intro a; exact ⟨rfl, rfl⟩
  | cons m rest ih =>
    intro a
    have hstep : andorCtrl.modeCommands a (m :: rest)
        = andorCtrl.modeCommands (andorCtrl.newCallBack_m_indiP_mode a "mode" m.1 m.2).app
            rest := rfl
    have happ := (mode_handler_closed a m.1 m.2).1
    have hmodes : (andorCtrl.newCallBack_m_indiP_mode a "mode" m.1 m.2).app.m_cameraModes
        = a.m_cameraModes := by
      rw [happ]
      split_ifs <;> rfl
    obtain ⟨ih1, ih2⟩ := ih (andorCtrl.newCallBack_m_indiP_mode a "mode" m.1 m.2).app
    rw [hstep]
    refine ⟨by rw [ih1, hmodes], ?_⟩
    rw [ih2, hmodes]
    by_cases hm : requestedMode m.1 m.2 ∈ a.m_cameraModes
    · have hfil : (m :: rest).filter
            (fun m => decide (requestedMode m.1 m.2 ∈ a.m_cameraModes))
          = m :: rest.filter (fun m => decide (requestedMode m.1 m.2 ∈ a.m_cameraModes)) := by
        simp [List.filter_cons, hm]
      rw [hfil]
      cases hl : rest.filter (fun m => decide (requestedMode m.1 m.2 ∈ a.m_cameraModes)) with
      | nil =>
        simp only [List.getLast?_nil, List.getLast?_singleton]
        rw [happ, if_pos hm]
      | cons x xs =>
        rw [List.getLast?_cons_cons]
        cases hg : (x :: xs).getLast? with
        | none => simp at hg
        | some y => rfl
    · have hfil : (m :: rest).filter
            (fun m => decide (requestedMode m.1 m.2 ∈ a.m_cameraModes))
          = rest.filter (fun m => decide (requestedMode m.1 m.2 ∈ a.m_cameraModes)) := by
        simp [List.filter_cons, hm]
      rw [hfil]
      cases hl : rest.filter (fun m => decide (requestedMode m.1 m.2 ∈ a.m_cameraModes)) with
      | nil =>
        simp only [List.getLast?_nil]
        rw [happ, if_neg hm]
      | cons x xs =>
        cases hg : (x :: xs).getLast? with
        | none => simp at hg
        | some y => rfl

/-- C27. The mode handler of andorCtrl, for a message addressed to the mode property, takes
the requested mode from `target`, or from `current` when `target` is empty. When that mode
is not a key of the camera-mode map it returns -1 and leaves the application as it is, so
`m_nextMode` and the reconfigure flag keep their values. Otherwise it sets `m_nextMode` and
the element `target` of the property to the requested mode, whatever was staged before,
sets the reconfigure flag and returns 0. After any sequence of messages to the mode
property `m_nextMode` is the mode of the most recent accepted one, and its former value
when none was accepted. A message for another property returns -1 and changes nothing. -/
theorem mode_staging (a : andorCtrl) (ipName : String) (current target : Option String)
    (msgs : List (Option String × Option String)) :
    (requestedMode current target ∉ a.m_cameraModes →
      (andorCtrl.newCallBack_m_indiP_mode a "mode" current target).ret = -1
      ∧ (andorCtrl.newCallBack_m_indiP_mode a "mode" current target).app = a
      ∧ (andorCtrl.newCallBack_m_indiP_mode a "mode" current target).events = [])
    ∧ (requestedMode current target ∈ a.m_cameraModes →
      (andorCtrl.newCallBack_m_indiP_mode a "mode" current target).ret = 0
      ∧ (andorCtrl.newCallBack_m_indiP_mode a "mode" current target).app
          = { a with m_indiP_mode_target := requestedMode current target,
                     m_nextMode := requestedMode current target, m_reconfig := true })
    ∧ (ipName ≠ "mode" →
      (andorCtrl.newCallBack_m_indiP_mode a ipName current target).ret = -1
      ∧ (andorCtrl.newCallBack_m_indiP_mode a ipName current target).app = a
      ∧ (andorCtrl.newCallBack_m_indiP_mode a ipName current target).events = [])
    ∧ (andorCtrl.modeCommands a msgs).m_nextMode
        = (match (msgs.filter
              (fun m => decide (requestedMode m.1 m.2 ∈ a.m_cameraModes))).getLast? with
          | some m => requestedMode m.1 m.2
          | none => a.m_nextMode)
    ∧ (target.getD "" ≠ "" → requestedMode current target = target.getD "")
    ∧ (target.getD "" = "" → requestedMode current target = current.getD "") := by
  obtain ⟨happ, hret⟩ := mode_handler_closed a current target
  refine ⟨?_, ?_, ?_, (modeCommands_closed msgs a).2, ?_, ?_⟩
  · intro hm
    rw [happ, hret, if_neg hm, if_neg hm]
    refine ⟨rfl, rfl, ?_⟩
    have hc : a.m_cameraModes.count (requestedMode current target) = 0 :=
      List.count_eq_zero.mpr hm
    unfold requestedMode at hc
    unfold andorCtrl.newCallBack_m_indiP_mode
    simp only [if_true, hc]
  · intro hm
    rw [happ, hret, if_pos hm, if_pos hm]
    exact ⟨rfl, rfl⟩
  · intro hn
    unfold andorCtrl.newCallBack_m_indiP_mode
    rw [if_neg hn]
    exact ⟨rfl, rfl, rfl⟩
  · intro ht
    unfold requestedMode
    rw [if_neg ht]
  · intro ht
    unfold requestedMode
    rw [if_pos ht]

/-- Witness of C27: with the modes `full` and `bin2` configured and `full` staged, a message
whose target is `bin2` and whose current is `full` stages `bin2`, sets the flag and
returns 0. -/
theorem mode_staging_witness :
    (andorCtrl.newCallBack_m_indiP_mode { twoModes with m_nextMode := "full" } "mode"
        (some "full") (some "bin2")).ret = 0
    ∧ (andorCtrl.newCallBack_m_indiP_mode { twoModes with m_nextMode := "full" } "mode"
        (some "full") (some "bin2")).app
      = { twoModes with m_indiP_mode_target := "bin2", m_nextMode := "bin2",
                        m_reconfig := true } :=
  (mode_staging { twoModes with m_nextMode := "full" } "mode" (some "full") (some "bin2")
    []).2.1 (by decide)

/-! ## Claim C21: the lock in the command handlers -/

theorem disciplined_nil : Disciplined [] := rfl

theorem zaber_handler_loop_disciplined (cmd : String) (rv : Int)
    (element : String → Option Int) :
    ∀ stages : List zaberStage,
      Disciplined (zaberLowLevel.newCallBack_loop cmd rv element stages).1 := by
  intro stages
  induction stages with
  | nil => exact disciplined_nil
  | cons st rest ih =>
    unfold zaberLowLevel.newCallBack_loop
    cases he : element st.m_name with
    | none => exact ih
    | some tgt =>
      by_cases ht : tgt > 0
      · simp only [if_pos ht]
        simp [Disciplined, disciplined_loop]
      · simp only [if_neg ht]
        exact ih

theorem zaber_handler_loop_idle (cmd : String) (rv : Int) (element : String → Option Int) :
    ∀ stages : List zaberStage,
      (∀ st ∈ stages, ∀ tgt, element st.m_name = some tgt → tgt ≤ 0) →
      zaberLowLevel.newCallBack_loop cmd rv element stages = ([], 0) := by
  intro stages
  induction stages with
  | nil => intro _; rfl
  | cons st rest ih =>
    intro hall
    have hrest := ih (fun s hs => hall s (List.mem_cons_of_mem _ hs))
    unfold zaberLowLevel.newCallBack_loop
    cases he : element st.m_name with
    | none => exact hrest
    | some tgt =>
      have ht : ¬ tgt > 0 := by
        have := hall st (List.mem_cons_self _ _) tgt he
        omega
      simp only [if_neg ht]
      exact hrest

theorem zaber_handler_loop_commands (cmd : String) (rv : Int)
    (element : String → Option Int) :
    ∀ stages : List zaberStage,
      (∃ st ∈ stages, ∃ tgt, element st.m_name = some tgt ∧ tgt > 0) →
      ∃ pre st post, stages = pre ++ st :: post
        ∧ (∀ s ∈ pre, ∀ tgt, element s.m_name = some tgt → tgt ≤ 0)
        ∧ (∃ tgt, element st.m_name = some tgt ∧ tgt > 0)
        ∧ zaberLowLevel.newCallBack_loop cmd rv element stages
            = ([handlerEvent.lock, handlerEvent.command (cmd ++ " " ++ st.m_name),
                handlerEvent.unlock], rv) := by
  intro stages
  induction stages with
  | nil =>
    rintro ⟨st, hst, _⟩
    simp at hst
  | cons st rest ih =>
    rintro ⟨st1, hst1, tgt1, he1, ht1⟩
    have hrest : (∃ tgt, element st.m_name = some tgt ∧ tgt > 0)
        ∨ ∃ st ∈ rest, ∃ tgt, element st.m_name = some tgt ∧ tgt > 0 := by
      rcases List.mem_cons.mp hst1 with h | h
      · left
        rw [← h]
        exact ⟨tgt1, he1, ht1⟩
      · right
        exact ⟨st1, h, tgt1, he1, ht1⟩
    cases he : element st.m_name with
    | none =>
      rcases hrest with ⟨tgt, h, _⟩ | h
      · rw [he] at h
        simp at h
      · obtain ⟨pre, s2, post, hsplit, hpre, hpos, hrun⟩ := ih h
        refine ⟨st :: pre, s2, post, by rw [hsplit]; rfl, ?_, hpos, ?_⟩
        · intro s hs tgt hel
          rcases List.mem_cons.mp hs with h1 | h1
          · rw [h1, he] at hel
            simp at hel
          · exact hpre s h1 tgt hel
        · unfold zaberLowLevel.newCallBack_loop
          simp only [he]
          exact hrun
    | some tgt =>
      by_cases ht : tgt > 0
      · refine ⟨[], st, rest, rfl, ?_, ⟨tgt, he, ht⟩, ?_⟩
        · intro s hs
          simp at hs
        · unfold zaberLowLevel.newCallBack_loop
          simp only [he, if_pos ht]
      · rcases hrest with ⟨tgt2, h, h2⟩ | h
        · rw [he] at h
          simp only [Option.some.injEq] at h
          rw [h] at ht
          exact absurd h2 ht
        · obtain ⟨pre, s2, post, hsplit, hpre, hpos, hrun⟩ := ih h
          refine ⟨st :: pre, s2, post, by rw [hsplit]; rfl, ?_, hpos, ?_⟩
          · intro s hs tgt3 hel
            rcases List.mem_cons.mp hs with h1 | h1
            · rw [h1, he] at hel
              simp only [Option.some.injEq] at hel
              omega
            · exact hpre s h1 tgt3 hel
          · unfold zaberLowLevel.newCallBack_loop
            simp only [he, if_neg ht]
            exact hrun

theorem stageHandlerPaths_of_loop
    (handler : zaberLowLevel → Int → String → (String → Option Int) → List handlerEvent × Int)
    (prop cmd : String)
    (hdef : ∀ z rv ipName element, handler z rv ipName element
      = if ipName = prop then zaberLowLevel.newCallBack_loop cmd rv element z.m_stages
        else ([], 0))
    (z : zaberLowLevel) (rv : Int) (ipName : String) (element : String → Option Int) :
    StageHandlerPaths handler prop cmd z rv ipName element := by
  refine ⟨?_, ?_, ?_⟩
  · intro hne
    rw [hdef, if_neg hne]
  · intro hall
    rw [hdef, if_pos rfl]
    exact zaber_handler_loop_idle cmd rv element z.m_stages hall
  · intro hex
    rw [hdef, if_pos rfl]
    exact zaber_handler_loop_commands cmd rv element z.m_stages hex

/-- C21 (amended). The handlers of andorCtrl for ccdtemp, fps and emgain and the handlers
of zaberLowLevel for tgt_pos, req_home, req_halt and req_ehalt keep the lock discipline:
every write to a target element and every device command they issue happens after the
handler has acquired the lock and before it releases it, and the lock is free on every
return path. The paths that return before any write or command take no lock: a message for
another property, a rejected or empty target, no stage with a value above 0; on these the
handler has no event at all. An accepted command runs as lock, write and command (for a
stage: the command), unlock. `outletController::newCallBack_channels` takes no lock
itself: it is `turnChannelOn` for the text ON and `turnChannelOff` for the text OFF and
returns 0 with no effect for any other text, and its events are the effects of that
sequencer, among which there is no acquisition and no release of the lock. -/
theorem handler_lock_discipline {σ : Type} (a : andorCtrl) (z : zaberLowLevel)
    (rv setEMGain : Int) (ipName : String) (current target : Option ℚ)
    (currentN targetN : Option Nat) (element : String → Option Int)
    (h : Hooks σ) (c : outletController) (state targetS : Option String) (d : σ) :
    (Disciplined (andorCtrl.newCallBack_m_indiP_ccdtemp a ipName current target).events
      ∧ Disciplined (andorCtrl.newCallBack_m_indiP_fps a ipName current target).events
      ∧ Disciplined
          (andorCtrl.newCallBack_m_indiP_emGain a setEMGain ipName currentN targetN).events
      ∧ Disciplined (zaberLowLevel.newCallBack_m_indiP_tgt_pos z rv ipName element).1
      ∧ Disciplined (zaberLowLevel.newCallBack_m_indiP_req_home z rv ipName element).1
      ∧ Disciplined (zaberLowLevel.newCallBack_m_indiP_req_halt z rv ipName element).1
      ∧ Disciplined (zaberLowLevel.newCallBack_m_indiP_req_ehalt z rv ipName element).1)
    ∧ ((ipName ≠ "ccdtemp" →
          (andorCtrl.newCallBack_m_indiP_ccdtemp a ipName current target).events = []
          ∧ (andorCtrl.newCallBack_m_indiP_ccdtemp a ipName current target).ret = -1)
      ∧ ((if target.getD 99 = 99 then current.getD 99 else target.getD 99) > 30 →
          (andorCtrl.newCallBack_m_indiP_ccdtemp a "ccdtemp" current target).events = []
          ∧ (andorCtrl.newCallBack_m_indiP_ccdtemp a "ccdtemp" current target).ret = 0)
      ∧ (¬ (if target.getD 99 = 99 then current.getD 99 else target.getD 99) > 30 →
          (andorCtrl.newCallBack_m_indiP_ccdtemp a "ccdtemp" current target).events
            = [handlerEvent.lock, handlerEvent.write "m_indiP_ccdtemp.target",
               handlerEvent.command "setTemp", handlerEvent.unlock]
          ∧ (andorCtrl.newCallBack_m_indiP_ccdtemp a "ccdtemp" current target).ret = 0))
    ∧ ((ipName ≠ "fps" →
          (andorCtrl.newCallBack_m_indiP_fps a ipName current target).events = []
          ∧ (andorCtrl.newCallBack_m_indiP_fps a ipName current target).ret = -1)
      ∧ ((if target.getD (-99) = -99 then current.getD (-99) else target.getD (-99)) ≤ 0 →
          (andorCtrl.newCallBack_m_indiP_fps a "fps" current target).events = []
          ∧ (andorCtrl.newCallBack_m_indiP_fps a "fps" current target).ret = 0)
      ∧ (¬ (if target.getD (-99) = -99 then current.getD (-99) else target.getD (-99)) ≤ 0 →
          (andorCtrl.newCallBack_m_indiP_fps a "fps" current target).events
            = [handlerEvent.lock, handlerEvent.write "m_indiP_fps.target",
               handlerEvent.command "setFPS", handlerEvent.unlock]
          ∧ (andorCtrl.newCallBack_m_indiP_fps a "fps" current target).ret = 0))
    ∧ ((ipName ≠ "emgain" →
          (andorCtrl.newCallBack_m_indiP_emGain a setEMGain ipName currentN targetN).events = []
          ∧ (andorCtrl.newCallBack_m_indiP_emGain a setEMGain ipName currentN targetN).ret = -1)
      ∧ ((if targetN.getD 0 = 0 then currentN.getD 0 else targetN.getD 0) = 0 →
          (andorCtrl.newCallBack_m_indiP_emGain a setEMGain "emgain" currentN targetN).events
            = []
          ∧ (andorCtrl.newCallBack_m_indiP_emGain a setEMGain "emgain" currentN targetN).ret
            = 0)
      ∧ (¬ (if targetN.getD 0 = 0 then currentN.getD 0 else targetN.getD 0) = 0 →
          (andorCtrl.newCallBack_m_indiP_emGain a setEMGain "emgain" currentN targetN).events
            = [handlerEvent.lock, handlerEvent.write "m_indiP_emGain.target",
               handlerEvent.command "setEMGain", handlerEvent.unlock]
          ∧ (andorCtrl.newCallBack_m_indiP_emGain a setEMGain "emgain" currentN targetN).ret
            = setEMGain))
    ∧ (StageHandlerPaths zaberLowLevel.newCallBack_m_indiP_tgt_pos "tgt_pos" "moveAbs"
          z rv ipName element
      ∧ StageHandlerPaths zaberLowLevel.newCallBack_m_indiP_req_home "req_home" "home"
          z rv ipName element
      ∧ StageHandlerPaths zaberLowLevel.newCallBack_m_indiP_req_halt "req_halt" "stop"
          z rv ipName element
      ∧ StageHandlerPaths zaberLowLevel.newCallBack_m_indiP_req_ehalt "req_ehalt" "estop"
          z rv ipName element)
    ∧ ((∀ e ∈ newCallBack_channels_events h c ipName state targetS d,
          e ≠ handlerEvent.lock ∧ e ≠ handlerEvent.unlock)
      ∧ (toUpper (if targetS.getD "" = "" then state.getD "" else targetS.getD "") = "ON" →
          newCallBack_channels h c ipName state targetS d = turnChannelOn h c ipName d)
      ∧ (toUpper (if targetS.getD "" = "" then state.getD "" else targetS.getD "") = "OFF" →
          newCallBack_channels h c ipName state targetS d = turnChannelOff h c ipName d)
      ∧ (toUpper (if targetS.getD "" = "" then state.getD "" else targetS.getD "") ≠ "ON" →
          toUpper (if targetS.getD "" = "" then state.getD "" else targetS.getD "") ≠ "OFF" →
          newCallBack_channels h c ipName state targetS d = (⟨d, [], some 0⟩, c)
          ∧ newCallBack_channels_events h c ipName state targetS d = [])) := by
  refine ⟨⟨?_, ?_, ?_, ?_, ?_, ?_, ?_⟩, ⟨?_, ?_, ?_⟩, ⟨?_, ?_, ?_⟩, ⟨?_, ?_, ?_⟩,
    ⟨?_, ?_, ?_, ?_⟩, ⟨?_, ?_, ?_, ?_⟩⟩
  · unfold andorCtrl.newCallBack_m_indiP_ccdtemp
    simp only []
    split_ifs <;> exact rfl
  · unfold andorCtrl.newCallBack_m_indiP_fps
    simp only []
    split_ifs <;> exact rfl
  · unfold andorCtrl.newCallBack_m_indiP_emGain
    simp only []
    split_ifs <;> exact rfl
  · unfold zaberLowLevel.newCallBack_m_indiP_tgt_pos
    split_ifs
    · exact zaber_handler_loop_disciplined _ rv element z.m_stages
    · exact disciplined_nil
  · unfold zaberLowLevel.newCallBack_m_indiP_req_home
    split_ifs
    · exact zaber_handler_loop_disciplined _ rv element z.m_stages
    · exact disciplined_nil
  · unfold zaberLowLevel.newCallBack_m_indiP_req_halt
    split_ifs
    · exact zaber_handler_loop_disciplined _ rv element z.m_stages
    · exact disciplined_nil
  · unfold zaberLowLevel.newCallBack_m_indiP_req_ehalt
    split_ifs
    · exact zaber_handler_loop_disciplined _ rv element z.m_stages
    · exact disciplined_nil
  · intro hne
    unfold andorCtrl.newCallBack_m_indiP_ccdtemp
    rw [if_neg hne]
    exact ⟨rfl, rfl⟩
  · intro hrej
    unfold andorCtrl.newCallBack_m_indiP_ccdtemp
    simp only [if_true]
    rw [if_pos hrej]
    exact ⟨rfl, rfl⟩
  · intro hacc
    unfold andorCtrl.newCallBack_m_indiP_ccdtemp
    simp only [if_true]
    rw [if_neg hacc]
    exact ⟨rfl, rfl⟩
  · intro hne
    unfold andorCtrl.newCallBack_m_indiP_fps
    rw [if_neg hne]
    exact ⟨rfl, rfl⟩
  · intro hrej
    unfold andorCtrl.newCallBack_m_indiP_fps
    simp only [if_true]
    rw [if_pos hrej]
    exact ⟨rfl, rfl⟩
  · intro hacc
    unfold andorCtrl.newCallBack_m_indiP_fps
    simp only [if_true]
    rw [if_neg hacc]
    exact ⟨rfl, rfl⟩
  · intro hne
    unfold andorCtrl.newCallBack_m_indiP_emGain
    rw [if_neg hne]
    exact ⟨rfl, rfl⟩
  · intro hrej
    unfold andorCtrl.newCallBack_m_indiP_emGain
    simp only [if_true]
    rw [if_pos hrej]
    exact ⟨rfl, rfl⟩
  · intro hacc
    unfold andorCtrl.newCallBack_m_indiP_emGain
    simp only [if_true]
    rw [if_neg hacc]
    exact ⟨rfl, rfl⟩
  · exact stageHandlerPaths_of_loop _ _ _ (fun _ _ _ _ => rfl) z rv ipName element
  · exact stageHandlerPaths_of_loop _ _ _ (fun _ _ _ _ => rfl) z rv ipName element
  · exact stageHandlerPaths_of_loop _ _ _ (fun _ _ _ _ => rfl) z rv ipName element
  · exact stageHandlerPaths_of_loop _ _ _ (fun _ _ _ _ => rfl) z rv ipName element
  · intro e he
    unfold newCallBack_channels_events at he
    obtain ⟨x, _, hx⟩ := List.mem_map.mp he
    rw [← hx]
    exact ⟨by simp, by simp⟩
  · intro hon
    unfold newCallBack_channels
    simp only [hon, if_true]
  · intro hoff
    have hne : ¬ toUpper (if targetS.getD "" = "" then state.getD "" else targetS.getD "")
        = "ON" := by
      rw [hoff]
      decide
    unfold newCallBack_channels
    simp only []
    rw [if_neg hne, if_pos hoff]
  · intro hnon hnoff
    have hcb : newCallBack_channels h c ipName state targetS d = (⟨d, [], some 0⟩, c) := by
      unfold newCallBack_channels
      simp only []
      rw [if_neg hnon, if_neg hnoff]
    refine ⟨hcb, ?_⟩
    unfold newCallBack_channels_events
    rw [hcb]
    rfl

/-- Witness of C21 (amended): a message to ccdtemp whose target is -40 and whose current is
unreadable is accepted; the handler locks, writes the target, calls `setTemp` and
unlocks. -/
theorem handler_lock_discipline_witness :
    (andorCtrl.newCallBack_m_indiP_ccdtemp {} "ccdtemp" none (some (-40))).events
      = [handlerEvent.lock, handlerEvent.write "m_indiP_ccdtemp.target",
         handlerEvent.command "setTemp", handlerEvent.unlock]
    ∧ (andorCtrl.newCallBack_m_indiP_ccdtemp {} "ccdtemp" none (some (-40))).ret = 0 :=
  (handler_lock_discipline {} fooRegistry 0 0 "ccdtemp" none (some (-40)) none none
    (fun _ => none) okHooks sueController none none ()).2.1.2.2 (by norm_num)

/-- Counterexample to C21 as stated: a message to the channel `sue` with the target `On`
makes `newCallBack_channels` issue the raw commands of `turnChannelOn` with no acquisition
of the lock before them, and a message to the mode property of andorCtrl with the
configured mode `bin2` makes the mode handler write the target element, `m_nextMode` and
`m_reconfig` with no acquisition of the lock; neither list of events keeps the lock
discipline. -/
theorem handler_lock_discipline_counterexample :
    newCallBack_channels_events okHooks sueController "sue" none (some "On") ()
      = [handlerEvent.outlet (Effect.on 5), handlerEvent.outlet (Effect.sleep 150),
         handlerEvent.outlet (Effect.on 4)]
    ∧ ¬ Disciplined (newCallBack_channels_events okHooks sueController "sue" none (some "On") ())
    ∧ (andorCtrl.newCallBack_m_indiP_mode twoModes "mode" none (some "bin2")).events
      = [handlerEvent.write "m_indiP_mode.target", handlerEvent.write "m_nextMode",
         handlerEvent.write "m_reconfig"]
    ∧ ¬ Disciplined
        (andorCtrl.newCallBack_m_indiP_mode twoModes "mode" none (some "bin2")).events := by
  decide

end dev
end app
end MagAOX
